import Mathlib

/-!
Verification of the xswl-scpi SCPI parser/dispatcher library.

This file gives a shallow embedding, in Lean 4, of the components of the
C++ library that the verified claims are about, and proves (or refutes)
those claims.  Each C++ function is translated into a Lean function of
the same name (up to namespacing); mutation is translated into explicit
state passing.

Modelling conventions used throughout:
* C++ `std::string` and byte buffers are modelled as `List Char`
  (`Scpi.Str`); the library only ever manipulates bytes, and the claims
  only concern ASCII data.
* C++ `double` values that originate from decimal literals are modelled
  as exact rationals (`ℚ`); the special IEEE values needed by the keyword
  machinery are modelled by the inductive `Scpi.DVal`
  (finite / +inf / -inf / NaN).  `std::stod` is modelled by an exact
  decimal-rational parser (`Scpi.stod`); the claims settled here do not
  depend on IEEE rounding.
* `std::time` timestamps carried by `ErrorEntry` are dropped (wall-clock
  time is outside the embedding); no claim mentions them.
* C++ pointers into the command tree are modelled by node *values*
  (subtrees) together with, where identity matters (the resolver's
  `visited` set), the node's key path from the root, which is in
  bijection with pointer identity because the tree owns its nodes.
* `std::map` (used for tree children and the common-command table) is
  modelled as an association list kept sorted by key, matching the
  iteration order of `std::map`.
-/

namespace Scpi

/-- Strings / byte buffers of the C++ code. -/
abbrev Str := List Char

/-- Helper to write `Str` literals. -/
def str (s : String) : Str := s.data

/-- `utils::isDigit`. -/
def isDigit (c : Char) : Bool := '0' ≤ c && c ≤ '9'

/-- `utils::isAlpha`. -/
def isAlpha (c : Char) : Bool :=
  ('a' ≤ c && c ≤ 'z') || ('A' ≤ c && c ≤ 'Z')

/-- `utils::isAlnum`. -/
def isAlnum (c : Char) : Bool := isAlpha c || isDigit c

/-- `utils::isHexDigit`. -/
def isHexDigit (c : Char) : Bool :=
  isDigit c || ('a' ≤ c && c ≤ 'f') || ('A' ≤ c && c ≤ 'F')

/-- Uppercasing of one ASCII character, as done by `utils::toUpper`. -/
def upChar (c : Char) : Char :=
  if 'a' ≤ c && c ≤ 'z' then Char.ofNat (c.toNat - 32) else c

/-- `utils::toUpper`: uppercase every ASCII lowercase letter. -/
def toUpper (s : Str) : Str := s.map upChar

/-- Decimal value of a digit character. -/
def digitVal (c : Char) : Nat := c.toNat - '0'.toNat

/-- Value of a string of decimal digits (the value `std::stoll` computes
on an all-digit string, without the 64-bit range limit; the only uses
below compare the value against the 32-bit range, which subsumes the
`std::out_of_range` behaviour of `stoll`). -/
def digitsToNat (ds : Str) : Nat := ds.foldl (fun acc c => 10 * acc + digitVal c) 0

/-- Decimal rendering of a natural number (as `std::to_string`). -/
def natToStr (n : Nat) : Str := (Nat.repr n).data

/-- Decimal rendering of an integer (as `std::to_string`). -/
def intToStr (i : Int) : Str :=
  if i < 0 then '-' :: natToStr i.natAbs else natToStr i.natAbs

-- ============================================================================
-- error_codes.h / error_codes.cpp
-- ============================================================================

namespace error

def NO_ERROR : Int := 0
def COMMAND_ERROR : Int := -100
def SYNTAX_ERROR : Int := -102
def DATA_TYPE_ERROR : Int := -104
def PARAMETER_NOT_ALLOWED : Int := -108
def MISSING_PARAMETER : Int := -109
def UNDEFINED_HEADER : Int := -113
def EXECUTION_ERROR : Int := -200
def TOO_MUCH_DATA : Int := -223
def ILLEGAL_PARAMETER_VALUE : Int := -224
def OUT_OF_MEMORY : Int := -225
def QUEUE_OVERFLOW : Int := -350
def QUERY_ERROR : Int := -400
def QUERY_INTERRUPTED : Int := -410
def QUERY_UNTERMINATED : Int := -420
def QUERY_UNTERMINATED_INDEF : Int := -440

/-- `error::isCommandError`. -/
def isCommandError (code : Int) : Bool := code ≤ -100 && code ≥ -199

/-- `error::isExecutionError`. -/
def isExecutionError (code : Int) : Bool := code ≤ -200 && code ≥ -299

/-- `error::isDeviceError`. -/
def isDeviceError (code : Int) : Bool := code ≤ -300 && code ≥ -399

/-- `error::isQueryError`. -/
def isQueryError (code : Int) : Bool := code ≤ -400 && code ≥ -499

/-- `error::isUserError`. -/
def isUserError (code : Int) : Bool := code > 0

/-- The entries of the `switch` in `error::getStandardMessage`, as a
first-match lookup table (a `switch` over distinct constants). -/
def standardMessages : List (Int × String) :=
  [ (0, "No error")
  , (-100, "Command error"), (-101, "Invalid character"), (-102, "Syntax error")
  , (-103, "Invalid separator"), (-104, "Data type error"), (-105, "GET not allowed")
  , (-108, "Parameter not allowed"), (-109, "Missing parameter")
  , (-110, "Command header error"), (-111, "Header separator error")
  , (-112, "Program mnemonic too long"), (-113, "Undefined header")
  , (-114, "Header suffix out of range"), (-115, "Unexpected number of parameters")
  , (-120, "Numeric data error"), (-121, "Invalid character in number")
  , (-123, "Exponent too large"), (-124, "Too many digits")
  , (-128, "Numeric data not allowed")
  , (-130, "Suffix error"), (-131, "Invalid suffix"), (-134, "Suffix too long")
  , (-138, "Suffix not allowed")
  , (-140, "Character data error"), (-141, "Invalid character data")
  , (-144, "Character data too long"), (-148, "Character data not allowed")
  , (-150, "String data error"), (-151, "Invalid string data")
  , (-158, "String data not allowed")
  , (-160, "Block data error"), (-161, "Invalid block data")
  , (-168, "Block data not allowed")
  , (-170, "Expression error"), (-171, "Invalid expression")
  , (-178, "Expression data not allowed")
  , (-180, "Macro error")
  , (-200, "Execution error"), (-201, "Invalid while in local")
  , (-202, "Settings lost due to rtl"), (-203, "Command protected")
  , (-210, "Trigger error"), (-211, "Trigger ignored"), (-212, "Arm ignored")
  , (-213, "Init ignored"), (-214, "Trigger deadlock"), (-215, "Arm deadlock")
  , (-220, "Parameter error"), (-221, "Settings conflict")
  , (-222, "Data out of range"), (-223, "Too much data")
  , (-224, "Illegal parameter value"), (-225, "Out of memory")
  , (-226, "Lists not same length")
  , (-230, "Data corrupt or stale"), (-231, "Data questionable")
  , (-232, "Invalid format"), (-233, "Invalid version")
  , (-240, "Hardware error"), (-241, "Hardware missing")
  , (-250, "Mass storage error"), (-251, "Missing mass storage")
  , (-252, "Missing media"), (-253, "Corrupt media"), (-254, "Media full")
  , (-255, "Directory full"), (-256, "File name not found")
  , (-257, "File name error"), (-258, "Media protected")
  , (-260, "Expression error"), (-261, "Math error in expression")
  , (-300, "Device-specific error"), (-310, "System error"), (-311, "Memory error")
  , (-312, "PUD memory lost"), (-313, "Calibration memory lost")
  , (-314, "Save/recall memory lost"), (-315, "Configuration memory lost")
  , (-320, "Storage fault"), (-321, "Out of memory"), (-330, "Self-test failed")
  , (-340, "Calibration failed"), (-350, "Queue overflow")
  , (-360, "Communication error"), (-361, "Parity error in program message")
  , (-362, "Framing error in program message"), (-363, "Input buffer overrun")
  , (-365, "Time out error")
  , (-400, "Query error"), (-410, "Query INTERRUPTED"), (-420, "Query UNTERMINATED")
  , (-430, "Query DEADLOCKED"), (-440, "Query UNTERMINATED after indefinite response") ]

/-- `error::getStandardMessage`. -/
def getStandardMessage (code : Int) : Str :=
  match (standardMessages.lookup code) with
  | some m => m.data
  | none => if code > 0 then str "Device-defined error" else str "Unknown error"

end error

-- ============================================================================
-- error_queue.h / error_queue.cpp
-- ============================================================================

/-- `scpi::ErrorEntry` (the `timestamp` field, a wall-clock value, is
outside the embedding and dropped; `ectx` is the C++ `context` field). -/
structure ErrorEntry where
  code : Int
  message : Str
  ectx : Str := []
  deriving DecidableEq, Repr

/-- `NO_ERROR_ENTRY`. -/
def NO_ERROR_ENTRY : ErrorEntry := { code := 0, message := str "No error" }

/-- `scpi::ErrorQueue`.  `pushedCount` is a ghost field with no C++
counterpart: it counts the calls to `push` whose entry had a non-zero
code (whether or not the entry was kept); it is used only to state
specifications and influences no behaviour. -/
structure ErrorQueue where
  entries : List ErrorEntry
  maxSize : Nat
  overflowCount : Nat
  hasOverflowed : Bool
  pushedCount : Nat
  deriving DecidableEq, Repr

namespace ErrorQueue

/-- The `ErrorQueue(size_t maxSize)` constructor. -/
def init (maxSize : Nat) : ErrorQueue :=
  { entries := []
  , maxSize := if maxSize < 1 then 1 else maxSize
  , overflowCount := 0
  , hasOverflowed := false
  , pushedCount := 0 }

/-- The entry the full-queue branch of `push` writes over the tail. -/
def overflowEntry : ErrorEntry :=
  { code := error.QUEUE_OVERFLOW
  , message := error.getStandardMessage error.QUEUE_OVERFLOW }

/-- `ErrorQueue::push(const ErrorEntry&)`. -/
def push (q : ErrorQueue) (entry : ErrorEntry) : ErrorQueue :=
  if entry.code = error.NO_ERROR then q
  else if q.entries.length ≥ q.maxSize then
    { q with
      hasOverflowed := true
      overflowCount := q.overflowCount + 1
      pushedCount := q.pushedCount + 1
      entries :=
        if q.entries ≠ [] ∧ (q.entries.getLastD NO_ERROR_ENTRY).code ≠ error.QUEUE_OVERFLOW
        then q.entries.dropLast ++ [overflowEntry]
        else q.entries }
  else
    { q with entries := q.entries ++ [entry], pushedCount := q.pushedCount + 1 }

/-- `ErrorQueue::push(int, message, context)`. -/
def pushCode (q : ErrorQueue) (code : Int) (message : Str) (ectx : Str := []) : ErrorQueue :=
  q.push { code := code, message := message, ectx := ectx }

/-- `ErrorQueue::pushStandard`. -/
def pushStandard (q : ErrorQueue) (code : Int) : ErrorQueue :=
  q.pushCode code (error.getStandardMessage code)

/-- `ErrorQueue::pushStandardWithInfo`. -/
def pushStandardWithInfo (q : ErrorQueue) (code : Int) (info : Str) : ErrorQueue :=
  q.pushCode code
    (error.getStandardMessage code ++ (if info = [] then [] else str "; " ++ info))

/-- `ErrorQueue::pop` (returns the popped entry and the new queue). -/
def pop (q : ErrorQueue) : ErrorEntry × ErrorQueue :=
  match q.entries with
  | [] => (NO_ERROR_ENTRY, q)
  | e :: rest => (e, { q with entries := rest })

/-- `ErrorQueue::peek`. -/
def peek (q : ErrorQueue) : ErrorEntry :=
  match q.entries with
  | [] => NO_ERROR_ENTRY
  | e :: _ => e

/-- `ErrorQueue::popAll`. -/
def popAll (q : ErrorQueue) : List ErrorEntry × ErrorQueue :=
  (q.entries, { q with entries := [] })

/-- `ErrorQueue::empty`. -/
def isEmpty (q : ErrorQueue) : Bool := q.entries.isEmpty

/-- `ErrorQueue::count`. -/
def count (q : ErrorQueue) : Nat := q.entries.length

/-- `ErrorQueue::lastErrorCode`. -/
def lastErrorCode (q : ErrorQueue) : Int :=
  match q.entries with
  | [] => error.NO_ERROR
  | _ => (q.entries.getLastD NO_ERROR_ENTRY).code

/-- `ErrorQueue::clear` (does not reset the overflow bookkeeping). -/
def clear (q : ErrorQueue) : ErrorQueue := { q with entries := [] }

/-- Iterated `push`. -/
def pushAll (q : ErrorQueue) (es : List ErrorEntry) : ErrorQueue :=
  es.foldl push q

/-- Popping `n` entries in sequence, collecting them in order. -/
def popN (q : ErrorQueue) : Nat → List ErrorEntry × ErrorQueue
  | 0 => ([], q)
  | n + 1 =>
    let (e, q') := q.pop
    let (es, q'') := q'.popN n
    (e :: es, q'')

end ErrorQueue

end Scpi

namespace Scpi

-- ============================================================================
-- keywords.h / keywords.cpp
-- ============================================================================

/-- `scpi::NumericKeyword`. -/
inductive NumericKeyword where
  | NONE | MINIMUM | MAXIMUM | DEFAULT
  | INFINITY_POS | INFINITY_NEG | NOT_A_NUMBER | UP | DOWN
  deriving DecidableEq, Repr

/-- The anonymous-namespace `matchesPattern` helper of keywords.cpp:
exact short name, exact long name, or a prefix of the long name of
length at least the short name (input is already uppercased). -/
def matchesPattern (input shortName longName : Str) : Bool :=
  if input = shortName then true
  else if input = longName then true
  else if input.length ≥ shortName.length && input.length ≤ longName.length
          && decide (longName.take input.length = input) then true
  else false

/-- `scpi::parseNumericKeyword`. -/
def parseNumericKeyword (s : Str) : NumericKeyword :=
  if s = [] then .NONE
  else
    let upper := toUpper s
    if upper = str "+INF" ∨ upper = str "+INFINITY" then .INFINITY_POS
    else if upper = str "-INF" ∨ upper = str "-INFINITY" then .INFINITY_NEG
    else if matchesPattern upper (str "MIN") (str "MINIMUM") then .MINIMUM
    else if matchesPattern upper (str "MAX") (str "MAXIMUM") then .MAXIMUM
    else if matchesPattern upper (str "DEF") (str "DEFAULT") then .DEFAULT
    else if matchesPattern upper (str "INF") (str "INFINITY") then .INFINITY_POS
    else if matchesPattern upper (str "NINF") (str "NINFINITY") then .INFINITY_NEG
    else if upper = str "NAN" ∨ matchesPattern upper (str "NOTA") (str "NOTANUMBER") then
      .NOT_A_NUMBER
    else if upper = str "UP" then .UP
    else if upper = str "DOWN" then .DOWN
    else .NONE

/-- Model of an IEEE-754 `double` as used by the keyword machinery:
a finite value (exact rational) or one of the special values. -/
inductive DVal where
  | finite (q : ℚ)
  | posInf
  | negInf
  | nan
  deriving DecidableEq, Repr

/-- `scpi::keywordToDouble` (keywords.h). -/
def keywordToDouble : NumericKeyword → DVal
  | .INFINITY_POS => .posInf
  | .INFINITY_NEG => .negInf
  | .NOT_A_NUMBER => .nan
  | _ => .finite 0

-- ============================================================================
-- units.h / units.cpp
-- ============================================================================

/-- `scpi::SiPrefix`. -/
inductive SiPrefix where
  | NONE | FEMTO | PICO | NANO | MICRO | MILLI | KILO | MEGA | GIGA | TERA
  deriving DecidableEq, Repr

/-- `scpi::BaseUnit`. -/
inductive BaseUnit where
  | NONE
  | VOLT | AMPERE | WATT | OHM | FARAD | HENRY
  | HERTZ | SECOND
  | CELSIUS | KELVIN | FAHRENHEIT
  | DEGREE | RADIAN
  | PERCENT | DECIBEL | DBM
  deriving DecidableEq, Repr

namespace UnitParser

/-- `UnitParser::getMultiplier` (the doubles `1e-15` … `1e12` are exact
powers of ten, represented exactly as rationals). -/
def getMultiplier : SiPrefix → ℚ
  | .FEMTO => 1 / 1000000000000000
  | .PICO => 1 / 1000000000000
  | .NANO => 1 / 1000000000
  | .MICRO => 1 / 1000000
  | .MILLI => 1 / 1000
  | .NONE => 1
  | .KILO => 1000
  | .MEGA => 1000000
  | .GIGA => 1000000000
  | .TERA => 1000000000000

/-- `UnitParser::parsePrefixChar`. -/
def parsePrefixChar (c : Char) : SiPrefix :=
  if c = 'T' then .TERA
  else if c = 'G' then .GIGA
  else if c = 'M' then .MEGA
  else if c = 'K' ∨ c = 'k' then .KILO
  else if c = 'm' then .MILLI
  else if c = 'u' ∨ c = 'U' then .MICRO
  else if c = 'n' ∨ c = 'N' then .NANO
  else if c = 'p' ∨ c = 'P' then .PICO
  else if c = 'f' ∨ c = 'F' then .FEMTO
  else .NONE

/-- `UnitParser::parseBaseUnit`. -/
def parseBaseUnit (s : Str) : BaseUnit :=
  if s = [] then .NONE
  else
    let upper := toUpper s
    if upper = str "V" ∨ upper = str "VOLT" ∨ upper = str "VOLTS" then .VOLT
    else if upper = str "A" ∨ upper = str "AMP" ∨ upper = str "AMPERE" ∨ upper = str "AMPERES" then .AMPERE
    else if upper = str "W" ∨ upper = str "WATT" ∨ upper = str "WATTS" then .WATT
    else if upper = str "OHM" ∨ upper = str "OHMS" then .OHM
    else if upper = str "F" ∨ upper = str "FARAD" ∨ upper = str "FARADS" then .FARAD
    else if upper = str "H" ∨ upper = str "HENRY" ∨ upper = str "HENRYS" ∨ upper = str "HENRIES" then .HENRY
    else if upper = str "HZ" ∨ upper = str "HERTZ" then .HERTZ
    else if upper = str "S" ∨ upper = str "SEC" ∨ upper = str "SECOND" ∨ upper = str "SECONDS" then .SECOND
    else if upper = str "CEL" ∨ upper = str "CELSIUS" then .CELSIUS
    else if upper = str "K" ∨ upper = str "KELVIN" then .KELVIN
    else if upper = str "FAR" ∨ upper = str "FAHRENHEIT" then .FAHRENHEIT
    else if upper = str "DEG" ∨ upper = str "DEGREE" ∨ upper = str "DEGREES" then .DEGREE
    else if upper = str "RAD" ∨ upper = str "RADIAN" ∨ upper = str "RADIANS" then .RADIAN
    else if upper = str "PCT" ∨ upper = str "PERCENT" ∨ upper = str "%" then .PERCENT
    else if upper = str "DB" ∨ upper = str "DECIBEL" ∨ upper = str "DECIBELS" then .DECIBEL
    else if upper = str "DBM" then .DBM
    else .NONE

/-- `UnitParser::parseUnitSuffix`; returns `(ok, prefix, unit)` for the
`bool` return value and the two out-parameters. -/
def parseUnitSuffix (suffix : Str) : Bool × SiPrefix × BaseUnit :=
  match suffix with
  | [] => (true, .NONE, .NONE)
  | originalPrefixChar :: restChars =>
    let upper := toUpper suffix
    let unit0 := parseBaseUnit upper
    if unit0 ≠ .NONE then (true, .NONE, unit0)
    else
      -- `suffix.length >= 2`: try splitting a one-character prefix off
      let split :=
        if restChars.length ≥ 1 then
          let unit1 := parseBaseUnit (toUpper restChars)
          if unit1 ≠ .NONE then
            let prefix1 :=
              if originalPrefixChar = 'm' then SiPrefix.MILLI
              else if originalPrefixChar = 'M' then SiPrefix.MEGA
              else parsePrefixChar originalPrefixChar
            if prefix1 ≠ .NONE then some (prefix1, unit1) else none
          else none
        else none
      match split with
      | some pu => (true, pu.1, pu.2)
      | none =>
        if upper = str "MA" then (true, .MEGA, .NONE)
        else (false, .NONE, .NONE)

end UnitParser

/-- `scpi::UnitValue` with the doubles represented as exact rationals. -/
structure UnitValue where
  rawValue : ℚ
  scaledValue : ℚ
  pfx : SiPrefix
  unit : BaseUnit
  multiplier : ℚ
  hasUnit : Bool
  deriving DecidableEq, Repr

/-- The `UnitValue()` default constructor. -/
def UnitValue.default : UnitValue :=
  { rawValue := 0, scaledValue := 0, pfx := .NONE, unit := .NONE
  , multiplier := 1, hasUnit := false }

namespace UnitParser

/-- The numeric-part scanner loop of `UnitParser::parse`, applied to the
input after an optional leading sign: counts how many characters the
loop consumes, tracking the `hasDecimal` / `hasExponent` flags.  The
structural `fuel` (always instantiated with the list length, which
each iteration strictly decreases below) only makes the recursion
kernel-reducible; the 0-fuel case is unreachable. -/
def scanNumGo : Nat → Str → Bool → Bool → Nat
  | _, [], _, _ => 0
  | 0, _ :: _, _, _ => 0
  | fuel + 1, c :: rest, hasDecimal, hasExponent =>
    if isDigit c then 1 + scanNumGo fuel rest hasDecimal hasExponent
    else if c = '.' ∧ ¬hasDecimal ∧ ¬hasExponent then
      1 + scanNumGo fuel rest true hasExponent
    else if (c = 'e' ∨ c = 'E') ∧ ¬hasExponent then
      match rest with
      | c2 :: rest2 =>
        if c2 = '+' ∨ c2 = '-' then 2 + scanNumGo fuel rest2 hasDecimal true
        else 1 + scanNumGo fuel (c2 :: rest2) hasDecimal true
      | [] => 1
    else 0

/-- `numEnd` as computed by `UnitParser::parse`: sign handling plus the
scanner loop. -/
def scanNumEnd (input : Str) : Nat :=
  match input with
  | [] => 0
  | c :: rest =>
    if c = '+' ∨ c = '-' then 1 + scanNumGo rest.length rest false false
    else scanNumGo input.length input false false

end UnitParser

/-- Exact-rational model of `std::stod` on the decimal-literal strings
this library feeds to it: optional sign, digits, optional fraction,
optional exponent; the longest valid prefix is parsed and trailing
characters are ignored; `none` models `std::invalid_argument` (no
digits at all).  Values are exact (no IEEE rounding, no range errors):
the claims proved below do not depend on rounding. -/
def stod (s : Str) : Option ℚ :=
  let (sign, rest) :=
    match s with
    | '+' :: r => ((1 : ℚ), r)
    | '-' :: r => ((-1 : ℚ), r)
    | r => ((1 : ℚ), r)
  let intDigits := rest.takeWhile isDigit
  let rest1 := rest.drop intDigits.length
  let (fracDigits, rest2) :=
    match rest1 with
    | '.' :: r => (r.takeWhile isDigit, (r.takeWhile isDigit, r).2.drop (r.takeWhile isDigit).length)
    | r => (([] : Str), r)
  if intDigits = [] ∧ fracDigits = [] then none
  else
    let mantissa : ℚ :=
      (digitsToNat intDigits : ℚ) +
        (digitsToNat fracDigits : ℚ) / ((10 : ℚ) ^ fracDigits.length)
    let expScale : ℚ :=
      match rest2 with
      | e :: r3 =>
        if e = 'e' ∨ e = 'E' then
          let (esign, r4) :=
            match r3 with
            | '+' :: r => ((1 : Int), r)
            | '-' :: r => ((-1 : Int), r)
            | r => ((1 : Int), r)
          let expDigits := r4.takeWhile isDigit
          if expDigits = [] then 1
          else ((10 : ℚ) ^ (digitsToNat expDigits)) ^ (if esign < 0 then (-1 : Int) else 1)
        else 1
      | [] => 1
    some (sign * mantissa * expScale)

namespace UnitParser

/-- `UnitParser::parse`: parse a numeric string with optional unit
suffix; `none` models the `false` return. -/
def parse (input : Str) : Option UnitValue :=
  if input = [] then none
  else
    let numEnd := scanNumEnd input
    let sign0 : Bool :=
      match input with
      | c :: _ => c = '+' || c = '-'
      | [] => false
    if numEnd = 0 ∨ (numEnd = 1 ∧ sign0 = true) then none
    else
      let numStr := input.take numEnd
      match stod numStr with
      | none => none
      | some raw =>
        let afterUnit :=
          if numEnd < input.length then
            let unitStr := input.drop numEnd
            let (ok, p, u) := parseUnitSuffix unitStr
            if ok then some (p, u, (u ≠ BaseUnit.NONE || p ≠ SiPrefix.NONE)) else none
          else some (.NONE, .NONE, false)
        match afterUnit with
        | none => none
        | some (p, u, hu) =>
          let m := getMultiplier p
          some { rawValue := raw, scaledValue := raw * m, pfx := p
               , unit := u, multiplier := m, hasUnit := hu }

end UnitParser

end Scpi

namespace Scpi

-- ============================================================================
-- parameter.h / parameter.cpp (value model; `fromToken` comes after `Token`)
-- ============================================================================

/-- `scpi::ParameterType`. -/
inductive ParameterType where
  | NONE | INTEGER | DOUBLE | BOOLEAN | STRING | IDENTIFIER
  | NUMERIC_KEYWORD | NUMERIC_WITH_UNIT | CHANNEL_LIST | BLOCK_DATA
  deriving DecidableEq, Repr

/-- Truncation toward zero of a finite double (`static_cast<int64_t>`);
the C++ behaviour on inf/NaN is undefined and modelled as 0 (no claim
exercises it).  The 64-bit range clamp is immaterial for the claims. -/
def truncDVal : DVal → Int
  | .finite q => q.num / (q.den : Int)
  | _ => 0

/-- `scpi::Parameter`: one record with a type tag, mirroring the C++
class layout (`type_`, `intValue_`, `doubleValue_`, …). -/
structure Parameter where
  type : ParameterType := .NONE
  intValue : Int := 0
  doubleValue : DVal := .finite 0
  boolValue : Bool := false
  stringValue : Str := []
  keyword : NumericKeyword := .NONE
  unitValue : UnitValue := UnitValue.default
  channelList : List Int := []
  blockData : Str := []
  deriving DecidableEq, Repr

namespace Parameter

/-- `Parameter::fromInt`. -/
def fromInt (value : Int) : Parameter :=
  { type := .INTEGER, intValue := value, doubleValue := .finite value }

/-- `Parameter::fromDouble`. -/
def fromDouble (value : DVal) : Parameter :=
  { type := .DOUBLE, doubleValue := value, intValue := truncDVal value }

/-- `Parameter::fromBoolean`. -/
def fromBoolean (value : Bool) : Parameter :=
  { type := .BOOLEAN, boolValue := value
  , intValue := if value then 1 else 0
  , doubleValue := .finite (if value then 1 else 0) }

/-- `Parameter::fromString`. -/
def fromString (value : Str) : Parameter :=
  { type := .STRING, stringValue := value }

/-- `Parameter::fromKeyword`. -/
def fromKeyword (kw : NumericKeyword) : Parameter :=
  { type := .NUMERIC_KEYWORD, keyword := kw, doubleValue := keywordToDouble kw }

/-- `Parameter::fromIdentifier`: boolean synonyms, then numeric
keywords, then a plain identifier. -/
def fromIdentifier (value : Str) : Parameter :=
  let upper := toUpper value
  if upper = str "ON" ∨ upper = str "TRUE" ∨ upper = str "1" then fromBoolean true
  else if upper = str "OFF" ∨ upper = str "FALSE" ∨ upper = str "0" then fromBoolean false
  else
    let kw := parseNumericKeyword value
    if kw ≠ .NONE then fromKeyword kw
    else { type := .IDENTIFIER, stringValue := value }

/-- `Parameter::fromUnitValue`. -/
def fromUnitValue (uv : UnitValue) : Parameter :=
  { type := .NUMERIC_WITH_UNIT, unitValue := uv
  , doubleValue := .finite uv.scaledValue
  , intValue := truncDVal (.finite uv.scaledValue) }

/-- `Parameter::fromChannelList`. -/
def fromChannelList (channels : List Int) : Parameter :=
  { type := .CHANNEL_LIST, channelList := channels }

/-- `Parameter::fromBlockData`. -/
def fromBlockData (data : Str) : Parameter :=
  { type := .BLOCK_DATA, blockData := data }

/-- `Parameter::isNumeric`. -/
def isNumeric (p : Parameter) : Bool :=
  match p.type with
  | .INTEGER | .DOUBLE | .NUMERIC_WITH_UNIT | .NUMERIC_KEYWORD => true
  | _ => false

/-- `Parameter::toDouble(double defaultValue)`.  The STRING/IDENTIFIER
case models `std::stod` with the exact-rational `stod`; a failed parse
returns the default, as the C++ `catch` does. -/
def toDouble (p : Parameter) (defaultValue : DVal) : DVal :=
  match p.type with
  | .INTEGER => .finite p.intValue
  | .DOUBLE => p.doubleValue
  | .BOOLEAN => .finite (if p.boolValue then 1 else 0)
  | .NUMERIC_WITH_UNIT => .finite p.unitValue.scaledValue
  | .NUMERIC_KEYWORD => keywordToDouble p.keyword
  | .STRING | .IDENTIFIER =>
    match stod p.stringValue with
    | some q => .finite q
    | none => defaultValue
  | _ => defaultValue

/-- `Parameter::toDoubleOr(min, max, def)`. -/
def toDoubleOr (p : Parameter) (minVal maxVal defVal : DVal) : DVal :=
  if p.type = ParameterType.NUMERIC_KEYWORD then
    match p.keyword with
    | .MINIMUM => minVal
    | .MAXIMUM => maxVal
    | .DEFAULT => defVal
    | .INFINITY_POS => .posInf
    | .INFINITY_NEG => .negInf
    | .NOT_A_NUMBER => .nan
    | _ => defVal
  else p.toDouble defVal

end Parameter

/-- `scpi::ParameterList` (a vector of parameters; the out-of-range
sentinel accessor). -/
structure ParameterList where
  items : List Parameter := []
  deriving DecidableEq, Repr

/-- `ParameterList::at` (sentinel empty parameter when out of range). -/
def ParameterList.at (ps : ParameterList) (index : Nat) : Parameter :=
  ps.items.getD index {}

/-- `ParameterList::size`. -/
def ParameterList.size (ps : ParameterList) : Nat := ps.items.length

/-- `ParameterList::add`. -/
def ParameterList.add (ps : ParameterList) (p : Parameter) : ParameterList :=
  { items := ps.items ++ [p] }

-- ============================================================================
-- token.h
-- ============================================================================

/-- `scpi::TokenType`. -/
inductive TokenType where
  | COLON | SEMICOLON | COMMA | WHITESPACE
  | QUESTION | ASTERISK | HASH | LPAREN | RPAREN | AT
  | IDENTIFIER | NUMBER | STRING | BLOCK_DATA
  | NEWLINE | END_OF_INPUT | ERROR
  deriving DecidableEq, Repr

/-- `scpi::Token`, defaults as in the C++ default constructor.  Block
bytes are kept as `Str` (the input is a byte buffer); `blockIndefinite`
is `blockData.isIndefinite`.  Doubles are exact rationals. -/
structure Token where
  type : TokenType := .ERROR
  value : Str := []
  numberValue : ℚ := 0
  isInteger : Bool := true
  isNegative : Bool := false
  baseName : Str := []
  numericSuffix : Int := 0
  hasNumericSuffix : Bool := false
  blockData : Str := []
  blockIndefinite : Bool := false
  line : Nat := 0
  column : Nat := 0
  position : Nat := 0
  length : Nat := 0
  errorMessage : Str := []
  deriving DecidableEq, Repr

namespace Token

/-- The `Token(type, value, pos, line, col)` constructor. -/
def mk5 (t : TokenType) (v : Str) (pos line col : Nat) : Token :=
  { type := t, value := v, position := pos, line := line, column := col
  , length := v.length }

/-- `Token::makeError`. -/
def makeError (message : Str) (pos line col : Nat) : Token :=
  { mk5 .ERROR [] pos line col with errorMessage := message }

/-- `Token::makeEnd`. -/
def makeEnd (pos line col : Nat) : Token :=
  mk5 .END_OF_INPUT [] pos line col

/-- `Token::makeNumber`. -/
def makeNumber (value : ℚ) (isInt isNeg : Bool) (text : Str)
    (pos line col : Nat) : Token :=
  { mk5 .NUMBER text pos line col with
    numberValue := value, isInteger := isInt, isNegative := isNeg }

/-- `Token::makeBlockData`. -/
def makeBlockData (data : Str) (indefinite : Bool)
    (pos line col len : Nat) : Token :=
  { type := .BLOCK_DATA, blockData := data, blockIndefinite := indefinite
  , position := pos, line := line, column := col, length := len }

/-- `Token::is`. -/
def isType (t : Token) (ty : TokenType) : Bool := t.type = ty

end Token

end Scpi

namespace Scpi

-- ============================================================================
-- lexer.h / lexer.cpp
-- ============================================================================

/-- `scpi::Lexer` state.  The configurable block terminator keeps its
default (`\n` or `\r`), which is the only configuration the library
itself ever uses. -/
structure Lexer where
  input : Str
  pos : Nat := 0
  line : Nat := 1
  column : Nat := 1
  hasError : Bool := false
  errorMessage : Str := []
  hasPeeked : Bool := false
  peekedToken : Token := {}
  deriving Repr

namespace Lexer

/-- The `Lexer(const std::string&)` constructor. -/
def init (input : Str) : Lexer := { input := input }

/-- `Lexer::peek(offset)`: 0 past the end. -/
def peekAt (lx : Lexer) (offset : Nat) : Char :=
  lx.input.getD (lx.pos + offset) (Char.ofNat 0)

/-- `Lexer::peek()`. -/
def peekc (lx : Lexer) : Char := lx.peekAt 0

/-- `Lexer::isAtEnd`. -/
def isAtEnd (lx : Lexer) : Bool := lx.pos ≥ lx.input.length

/-- The input not yet consumed (a view used to express the C++ reading
loops as `takeWhile`s). -/
def remaining (lx : Lexer) : Str := lx.input.drop lx.pos

/-- `Lexer::currentPosition`. -/
def currentPosition (lx : Lexer) : Nat := lx.pos

/-- The line/column update one `advance()` performs for character `c`. -/
def stepLineCol (lc : Nat × Nat) (c : Char) : Nat × Nat :=
  if c = '\n' then (lc.1 + 1, 1) else (lc.1, lc.2 + 1)

/-- `n` successive `Lexer::advance()` calls (a no-op past the end,
matching `advance` on an exhausted input). -/
def advanceN (lx : Lexer) (n : Nat) : Lexer :=
  let cs := (lx.input.drop lx.pos).take n
  let lc := cs.foldl stepLineCol (lx.line, lx.column)
  { lx with pos := lx.pos + cs.length, line := lc.1, column := lc.2 }

/-- `Lexer::errorToken`: records the error on the lexer and returns an
ERROR token at the current position. -/
def errorToken (lx : Lexer) (message : Str) : Token × Lexer :=
  (Token.makeError message lx.pos lx.line lx.column,
   { lx with hasError := true, errorMessage := message })

/-- `Lexer::skipInlineWhitespace` (spaces and tabs). -/
def skipInlineWhitespace (lx : Lexer) : Lexer :=
  lx.advanceN ((lx.remaining.takeWhile (fun c => c = ' ' || c = '\t')).length)

/-- `Lexer::splitNumericSuffix`: split a trailing decimal-digit run off
an identifier.  `std::stoll` on the (all-digit) run together with the
32-bit range check is modelled by comparing the exact value against
`INT32_MAX`; a run too long for `stoll` itself (`std::out_of_range`,
caught in the C++) is subsumed, and the `INT32_MIN` comparison can
never fire on a digit-only string. -/
def splitNumericSuffix (identifier : Str) : Str × Int × Bool :=
  let ds := (identifier.reverse.takeWhile isDigit).reverse
  let i := identifier.length - ds.length
  if i < identifier.length ∧ 0 < i then
    let val := digitsToNat ds
    if val > 2147483647 then (identifier, 0, false)
    else (identifier.take i, (val : Int), true)
  else (identifier, 0, false)

/-- `Lexer::readIdentifier` (the 255-length cap errors out after the
256th character is consumed, as in the C++ loop). -/
def readIdentifier (lx : Lexer) : Token × Lexer :=
  let startPos := lx.pos
  let startLine := lx.line
  let startCol := lx.column
  let run := lx.remaining.takeWhile (fun c => isAlnum c || c = '_')
  if run.length > 255 then
    (lx.advanceN 256).errorToken (str "Identifier too long (> 255)")
  else
    let lx' := lx.advanceN run.length
    let (baseName, suffix, hasSuffix) := splitNumericSuffix run
    ({ type := .IDENTIFIER, value := run
     , position := startPos, line := startLine, column := startCol
     , length := run.length
     , baseName := baseName, numericSuffix := suffix
     , hasNumericSuffix := hasSuffix }, lx')

/-- `Lexer::readNumber`. -/
def readNumber (lx : Lexer) : Token × Lexer :=
  let startPos := lx.pos
  let startLine := lx.line
  let startCol := lx.column
  let rem0 := lx.remaining
  let (signLen, isNeg) :=
    match rem0 with
    | '+' :: _ => (1, false)
    | '-' :: _ => (1, true)
    | _ => (0, false)
  let rem1 := rem0.drop signLen
  let d1 := rem1.takeWhile isDigit
  let hasIntPart : Bool := d1 ≠ []
  let rem2 := rem1.drop d1.length
  let (fracLen, isFloat0) :=
    match rem2 with
    | '.' :: r => (1 + (r.takeWhile isDigit).length, true)
    | _ => (0, false)
  let rem3 := rem2.drop fracLen
  let preLen := signLen + d1.length + fracLen
  let finish : Nat → Bool → Token × Lexer := fun total isFloat =>
    if ¬hasIntPart ∧ ¬isFloat then
      (lx.advanceN total).errorToken (str "Invalid number format")
    else
      let valueTxt := rem0.take total
      let lx' := lx.advanceN total
      match stod valueTxt with
      | some q =>
        (Token.makeNumber q (!isFloat) isNeg valueTxt startPos startLine startCol, lx')
      | none => lx'.errorToken (str "Number parsing failed")
  match rem3 with
  | c :: r =>
    if c = 'e' ∨ c = 'E' then
      let esLen :=
        match r with
        | s :: _ => if s = '+' ∨ s = '-' then 1 else 0
        | [] => 0
      let expDigits := (r.drop esLen).takeWhile isDigit
      if expDigits = [] then
        (lx.advanceN (preLen + 1 + esLen)).errorToken (str "Expected digits after exponent")
      else finish (preLen + 1 + esLen + expDigits.length) true
    else finish preLen isFloat0
  | [] => finish preLen isFloat0

/-- The scanning loop of `Lexer::readString`: returns the number of
characters consumed, the decoded content, and whether a closing quote
was found (`false` covers both the bare-newline and end-of-input
errors, which share the same message and leave the offending character
unconsumed / the input exhausted respectively).  The structural `fuel`
(instantiated with the remaining length) only makes the recursion
kernel-reducible. -/
def readStringGo : Nat → Str → Char → Nat × Str × Bool
  | _, [], _ => (0, [], false)
  | 0, _ :: _, _ => (0, [], false)
  | fuel + 1, c :: rest, quote =>
    if c = quote then
      match rest with
      | c2 :: rest2 =>
        if c2 = quote then
          let (n, s, b) := readStringGo fuel rest2 quote
          (n + 2, quote :: s, b)
        else (1, [], true)
      | [] => (1, [], true)
    else if c = '\n' ∨ c = '\r' then (0, [], false)
    else
      let (n, s, b) := readStringGo fuel rest quote
      (n + 1, c :: s, b)

/-- `Lexer::readString`. -/
def readString (lx : Lexer) (quote : Char) : Token × Lexer :=
  let startPos := lx.pos
  let startLine := lx.line
  let startCol := lx.column
  let lx1 := lx.advanceN 1
  let (consumed, content, terminated) := readStringGo lx1.remaining.length lx1.remaining quote
  let lx2 := lx1.advanceN consumed
  if terminated then
    ({ Token.mk5 .STRING content startPos startLine startCol with
       length := lx2.pos - startPos }, lx2)
  else lx2.errorToken (str "Unterminated string literal")

/-- `Lexer::readBinaryLiteral` (entered with `#B` consumed).  The C++
accumulates into a (64-bit) `int64_t` without an overflow check; the
value is modelled mathematically, and the cast to `double` exactly. -/
def readBinaryLiteral (lx : Lexer) : Token × Lexer :=
  let startPos := lx.pos - 2
  let startLine := lx.line
  let startCol := lx.column - 2
  let bits := lx.remaining.takeWhile (fun c => c = '0' || c = '1')
  let lx' := lx.advanceN bits.length
  if bits = [] then lx'.errorToken (str "Expected binary digits after #B")
  else
    let value := bits.foldl (fun acc c => 2 * acc + digitVal c) 0
    ({ type := .NUMBER, value := str "#B" ++ bits
     , numberValue := (value : ℚ), isInteger := true, isNegative := false
     , position := startPos, line := startLine, column := startCol
     , length := 2 + bits.length }, lx')

/-- Value of a hex-digit string. -/
def hexToNat (ds : Str) : Nat :=
  ds.foldl (fun acc c =>
    16 * acc +
      (if isDigit c then digitVal c
       else if 'a' ≤ c && c ≤ 'f' then c.toNat - 'a'.toNat + 10
       else c.toNat - 'A'.toNat + 10)) 0

/-- Value of an octal-digit string. -/
def octToNat (ds : Str) : Nat :=
  ds.foldl (fun acc c => 8 * acc + digitVal c) 0

/-- `Lexer::readHexLiteral` (entered with `#H` consumed); `std::stoll`'s
`std::out_of_range` on values beyond the 64-bit signed range is the
"Hex number overflow" error. -/
def readHexLiteral (lx : Lexer) : Token × Lexer :=
  let startPos := lx.pos - 2
  let startLine := lx.line
  let startCol := lx.column - 2
  let hexDigits := lx.remaining.takeWhile isHexDigit
  let lx' := lx.advanceN hexDigits.length
  if hexDigits = [] then lx'.errorToken (str "Expected hex digits after #H")
  else if hexToNat hexDigits > 9223372036854775807 then
    lx'.errorToken (str "Hex number overflow")
  else
    ({ type := .NUMBER, value := str "#H" ++ hexDigits
     , numberValue := (hexToNat hexDigits : ℚ), isInteger := true, isNegative := false
     , position := startPos, line := startLine, column := startCol
     , length := 2 + hexDigits.length }, lx')

/-- `Lexer::readOctalLiteral` (entered with `#Q` consumed). -/
def readOctalLiteral (lx : Lexer) : Token × Lexer :=
  let startPos := lx.pos - 2
  let startLine := lx.line
  let startCol := lx.column - 2
  let octDigits := lx.remaining.takeWhile (fun c => '0' ≤ c && c ≤ '7')
  let lx' := lx.advanceN octDigits.length
  if octDigits = [] then lx'.errorToken (str "Expected octal digits after #Q")
  else if octToNat octDigits > 9223372036854775807 then
    lx'.errorToken (str "Octal number overflow")
  else
    ({ type := .NUMBER, value := str "#Q" ++ octDigits
     , numberValue := (octToNat octDigits : ℚ), isInteger := true, isNegative := false
     , position := startPos, line := startLine, column := startCol
     , length := 2 + octDigits.length }, lx')

/-- `constants::MAX_BLOCK_DATA_SIZE`. -/
def MAX_BLOCK_DATA_SIZE : Nat := 100 * 1024 * 1024

/-- `Lexer::readBlockData` (entered with `#` consumed, at the digit-count
digit).  The C++ `size_t`-overflow guard on `pos_ + dataLen` can never
fire with unbounded naturals and is omitted. -/
def readBlockData (lx : Lexer) : Token × Lexer :=
  let startPos := lx.pos - 1
  let startLine := lx.line
  let startCol := lx.column - 1
  if lx.isAtEnd || !isDigit lx.peekc then
    lx.errorToken (str "Expected digit after '#' for block data")
  else
    let n := digitVal lx.peekc
    let lx1 := lx.advanceN 1
    if n < 1 ∨ n > 9 then lx1.errorToken (str "Block data digit count must be 1-9")
    else
      let lenRun := (lx1.remaining.take n).takeWhile isDigit
      if lenRun.length < n then
        let lxe := lx1.advanceN lenRun.length
        if lxe.isAtEnd then lxe.errorToken (str "Unexpected end in block data length field")
        else lxe.errorToken (str "Expected digit in block data length field")
      else
        let lx2 := lx1.advanceN n
        let dataLen := digitsToNat lenRun
        if dataLen > MAX_BLOCK_DATA_SIZE then
          lx2.errorToken (str "Block data too large (exceeds MAX_BLOCK_DATA_SIZE)")
        else if lx2.pos + dataLen > lx2.input.length then
          lx2.errorToken (str "Block data truncated: expected " ++ natToStr dataLen
            ++ str " bytes, got " ++ natToStr (lx2.input.length - lx2.pos))
        else
          let data := lx2.remaining.take dataLen
          -- `pos_ += dataLen; column_ += dataLen;` (simplified column
          -- bookkeeping, as in the C++)
          let lx3 := { lx2 with pos := lx2.pos + dataLen, column := lx2.column + dataLen }
          (Token.makeBlockData data false startPos startLine startCol (lx3.pos - startPos), lx3)

/-- `Lexer::readIndefiniteBlock` (entered with `#0` consumed; default
terminator `\n` / `\r`). -/
def readIndefiniteBlock (lx : Lexer) : Token × Lexer :=
  let startPos := lx.pos - 2
  let startLine := lx.line
  let startCol := lx.column - 2
  let data := lx.remaining.takeWhile (fun c => !(c = '\n' || c = '\r'))
  let lx' := lx.advanceN data.length
  (Token.makeBlockData data true startPos startLine startCol (lx'.pos - startPos), lx')

/-- `Lexer::readHashPrefixed`. -/
def readHashPrefixed (lx : Lexer) : Token × Lexer :=
  let startPos := lx.pos
  let startLine := lx.line
  let startCol := lx.column
  let lx1 := lx.advanceN 1
  if lx1.isAtEnd then lx1.errorToken (str "Unexpected end after '#'")
  else
    let next := lx1.peekc
    if next = 'B' ∨ next = 'b' then readBinaryLiteral (lx1.advanceN 1)
    else if next = 'H' ∨ next = 'h' then readHexLiteral (lx1.advanceN 1)
    else if next = 'Q' ∨ next = 'q' then readOctalLiteral (lx1.advanceN 1)
    else if next = '0' then readIndefiniteBlock (lx1.advanceN 1)
    else if '1' ≤ next ∧ next ≤ '9' then readBlockData lx1
    else (Token.mk5 .HASH (str "#") startPos startLine startCol, lx1)

/-- `Lexer::nextToken`. -/
def nextToken (lx : Lexer) : Token × Lexer :=
  if lx.hasPeeked then (lx.peekedToken, { lx with hasPeeked := false })
  else
    let lx := lx.skipInlineWhitespace
    if lx.isAtEnd then (Token.makeEnd lx.pos lx.line lx.column, lx)
    else
      let startPos := lx.pos
      let startLine := lx.line
      let startCol := lx.column
      let c := lx.peekc
      let one : TokenType → Char → Token × Lexer := fun ty ch =>
        (Token.mk5 ty [ch] startPos startLine startCol, lx.advanceN 1)
      if c = ':' then one .COLON ':'
      else if c = ';' then one .SEMICOLON ';'
      else if c = ',' then one .COMMA ','
      else if c = '?' then one .QUESTION '?'
      else if c = '*' then one .ASTERISK '*'
      else if c = '(' then one .LPAREN '('
      else if c = ')' then one .RPAREN ')'
      else if c = '@' then one .AT '@'
      else if c = '\n' then one .NEWLINE '\n'
      else if c = '#' then readHashPrefixed lx
      else if c = '"' then readString lx '"'
      else if c = '\'' then readString lx '\''
      else if c = ' ' ∨ c = '\t' then
        -- unreachable (whitespace was skipped); kept for faithfulness
        one .WHITESPACE ' '
      else if isDigit c || c = '+' || c = '-' || c = '.' then
        if c = '+' ∨ c = '-' then
          let next := lx.peekAt 1
          if isDigit next || next = '.' then readNumber lx
          else (Token.mk5 .IDENTIFIER [c] startPos startLine startCol, lx.advanceN 1)
        else if c = '.' then
          if isDigit (lx.peekAt 1) then readNumber lx
          else (lx.advanceN 1).errorToken (str "Unexpected character '.'")
        else readNumber lx
      else if isAlpha c || c = '_' then readIdentifier lx
      else
        (lx.advanceN 1).errorToken (str "Unexpected character '" ++ [c] ++ str "'")

/-- `Lexer::peekToken`. -/
def peekToken (lx : Lexer) : Token × Lexer :=
  if lx.hasPeeked then (lx.peekedToken, lx)
  else
    let (t, lx') := nextToken lx
    (t, { lx' with hasPeeked := true, peekedToken := t })

end Lexer

end Scpi

namespace Scpi

-- ============================================================================
-- command.h, Parameter::fromToken, command_splitter.h / command_splitter.cpp
-- ============================================================================

/-- Truncation `static_cast<int>` / `static_cast<int64_t>` of a (finite)
double modelled as an exact rational (toward zero; `Int` division in
Lean truncates toward zero). -/
def ratTrunc (q : ℚ) : Int := q.num / (q.den : Int)

/-- `Parameter::fromToken`. -/
def Parameter.fromToken (token : Token) : Parameter :=
  match token.type with
  | .NUMBER =>
    if token.isInteger then Parameter.fromInt (ratTrunc token.numberValue)
    else Parameter.fromDouble (.finite token.numberValue)
  | .STRING => Parameter.fromString token.value
  | .IDENTIFIER =>
    match UnitParser.parse token.value with
    | some uv => if uv.hasUnit then Parameter.fromUnitValue uv
                 else Parameter.fromIdentifier token.value
    | none => Parameter.fromIdentifier token.value
  | .BLOCK_DATA => Parameter.fromBlockData token.blockData
  | _ => {}

/-- `scpi::PathNode`. -/
structure PathNode where
  name : Str
  suffix : Int := 0
  hasSuffix : Bool := false
  deriving DecidableEq, Repr

/-- `PathNode::toString`. -/
def PathNode.toStr (pn : PathNode) : Str :=
  if pn.hasSuffix then pn.name ++ intToStr pn.suffix else pn.name

/-- `scpi::ParsedCommand`. -/
structure ParsedCommand where
  isAbsolute : Bool := false
  isQuery : Bool := false
  isCommon : Bool := false
  path : List PathNode := []
  params : ParameterList := {}
  startPos : Nat := 0
  endPos : Nat := 0
  deriving DecidableEq, Repr

/-- `constants::MAX_COMMAND_LENGTH`. -/
def MAX_COMMAND_LENGTH : Nat := 65536

/-- `constants::MAX_INPUT_SIZE`. -/
def MAX_INPUT_SIZE : Nat := Lexer.MAX_BLOCK_DATA_SIZE + MAX_COMMAND_LENGTH

/-- `Token::typeName`. -/
def Token.typeNameStr (t : Token) : Str :=
  match t.type with
  | .COLON => str "COLON"
  | .SEMICOLON => str "SEMICOLON"
  | .COMMA => str "COMMA"
  | .WHITESPACE => str "WHITESPACE"
  | .QUESTION => str "QUESTION"
  | .ASTERISK => str "ASTERISK"
  | .HASH => str "HASH"
  | .LPAREN => str "LPAREN"
  | .RPAREN => str "RPAREN"
  | .AT => str "AT"
  | .IDENTIFIER => str "IDENTIFIER"
  | .NUMBER => str "NUMBER"
  | .STRING => str "STRING"
  | .BLOCK_DATA => str "BLOCK_DATA"
  | .NEWLINE => str "NEWLINE"
  | .END_OF_INPUT => str "END_OF_INPUT"
  | .ERROR => str "ERROR"

/-- `scpi::CommandSplitter` error state. -/
structure CommandSplitter where
  hasError : Bool := false
  errorMessage : Str := []
  errorPosition : Nat := 0
  errorCode : Int := error.NO_ERROR
  deriving Repr

namespace CommandSplitter

/-- `CommandSplitter::setError`. -/
def setError (sp : CommandSplitter) (code : Int) (msg : Str) (pos : Nat) : CommandSplitter :=
  { sp with hasError := true, errorCode := code, errorMessage := msg, errorPosition := pos }

/-- `CommandSplitter::areAdjacent`. -/
def areAdjacent (a b : Token) : Bool := a.position + a.length = b.position

/-- `CommandSplitter::skipParamSeparators`.  The C++ `while` loop makes
progress on every iteration (each consumes one token of at least one
byte), so the fuel — always instantiated with more than the remaining
input length — never runs out on any real execution. -/
def skipParamSeparators (lx : Lexer) : Nat → Lexer
  | 0 => lx
  | fuel + 1 =>
    let (t, lx1) := lx.peekToken
    if t.isType .WHITESPACE || t.isType .COMMA then
      skipParamSeparators (lx1.nextToken).2 fuel
    else lx1

/-- `MAX_EXPAND` of `parseChannelList`. -/
def MAX_EXPAND : Nat := 100000

/-- Inclusive integer range `[start, start+n)` used to model the
`for (int v = start; v <= end; ++v)` expansion. -/
def intRange (start : Int) (n : Nat) : List Int :=
  (List.range n).map (fun i => start + i)

/-- The collection loop of `CommandSplitter::parseChannelList`.  The
model's fuel exhaustion reports a syntax error (never reached on real
executions, where every iteration consumes input). -/
def chanLoop (sp : CommandSplitter) (lx : Lexer) (channels : List Int) :
    Nat → Bool × List Int × CommandSplitter × Lexer
  | 0 => (false, channels, sp.setError error.SYNTAX_ERROR (str "model: loop bound exceeded") lx.pos, lx)
  | fuel + 1 =>
    let lx := skipParamSeparators lx (fuel + 1)
    let (t, lx1) := lx.peekToken
    if t.isType .RPAREN then (true, channels, sp, (lx1.nextToken).2)
    else
      let (n1, lx2) := lx1.nextToken
      if !n1.isType .NUMBER || !n1.isInteger then
        (false, channels, sp.setError error.DATA_TYPE_ERROR (str "Expected integer in channel list") n1.position, lx2)
      else
        let start := ratTrunc n1.numberValue
        let (maybeColon, lx3) := lx2.peekToken
        if maybeColon.isType .COLON then
          let lx4 := (lx3.nextToken).2
          let (n2, lx5) := lx4.nextToken
          if !n2.isType .NUMBER || !n2.isInteger then
            (false, channels, sp.setError error.DATA_TYPE_ERROR (str "Expected integer range end in channel list") n2.position, lx5)
          else
            let endv := ratTrunc n2.numberValue
            if endv < start then
              (false, channels, sp.setError error.ILLEGAL_PARAMETER_VALUE (str "Invalid channel range: end < start") n2.position, lx5)
            else
              let diff := endv - start
              if diff ≥ (MAX_EXPAND : Int) then
                (false, channels, sp.setError error.TOO_MUCH_DATA (str "Channel range too large") n1.position, lx5)
              else
                let need := (diff + 1).toNat
                if channels.length + need > MAX_EXPAND then
                  (false, channels, sp.setError error.TOO_MUCH_DATA (str "Channel range expansion too large") n1.position, lx5)
                else
                  let channels := channels ++ intRange start need
                  let (sep, lx6) := lx5.peekToken
                  if sep.isType .COMMA then chanLoop sp (lx6.nextToken).2 channels fuel
                  else chanLoop sp lx6 channels fuel
        else
          if channels.length + 1 > MAX_EXPAND then
            (false, channels, sp.setError error.TOO_MUCH_DATA (str "Too many channels") n1.position, lx3)
          else
            let channels := channels ++ [start]
            let (sep, lx4) := lx3.peekToken
            if sep.isType .COMMA then chanLoop sp (lx4.nextToken).2 channels fuel
            else chanLoop sp lx4 channels fuel

/-- `CommandSplitter::parseChannelList`. -/
def parseChannelList (sp : CommandSplitter) (lx : Lexer) (fuel : Nat) :
    Bool × Parameter × CommandSplitter × Lexer :=
  let (lp, lx1) := lx.nextToken
  if !lp.isType .LPAREN then
    (false, {}, sp.setError error.SYNTAX_ERROR (str "Expected '(' to start channel list") lp.position, lx1)
  else
    let lx2 := skipParamSeparators lx1 fuel
    let (atTok, lx3) := lx2.nextToken
    if !atTok.isType .AT then
      (false, {}, sp.setError error.SYNTAX_ERROR (str "Expected '@' after '(' in channel list") atTok.position, lx3)
    else
      let (ok, channels, sp', lx4) := chanLoop sp lx3 [] fuel
      if ok then (true, Parameter.fromChannelList channels, sp', lx4)
      else (false, {}, sp', lx4)

/-- `CommandSplitter::parseOneParameter`. -/
def parseOneParameter (sp : CommandSplitter) (lx : Lexer) (cmd : ParsedCommand)
    (fuel : Nat) : Bool × ParsedCommand × CommandSplitter × Lexer :=
  let (t, lx1) := lx.peekToken
  if t.isType .LPAREN then
    let (ok, p, sp', lx2) := parseChannelList sp lx1 fuel
    if ok then (true, { cmd with params := cmd.params.add p }, sp', lx2)
    else (false, cmd, sp', lx2)
  else if t.isType .BLOCK_DATA then
    let (bd, lx2) := lx1.nextToken
    (true, { cmd with params := cmd.params.add (Parameter.fromBlockData bd.blockData) }, sp, lx2)
  else if t.isType .STRING then
    let (s, lx2) := lx1.nextToken
    (true, { cmd with params := cmd.params.add (Parameter.fromString s.value) }, sp, lx2)
  else if t.isType .NUMBER then
    let (numTok, lx2) := lx1.nextToken
    let (nextTok, lx3) := lx2.peekToken
    if nextTok.isType .IDENTIFIER && areAdjacent numTok nextTok then
      if numTok.value.length + nextTok.value.length > MAX_COMMAND_LENGTH then
        (false, cmd, sp.setError error.DATA_TYPE_ERROR (str "Parameter too long") numTok.position, lx3)
      else
        let combined := numTok.value ++ nextTok.value
        match UnitParser.parse combined with
        | some uv =>
          if uv.hasUnit then
            let lx4 := (lx3.nextToken).2
            (true, { cmd with params := cmd.params.add (Parameter.fromUnitValue uv) }, sp, lx4)
          else
            (true, { cmd with params := cmd.params.add (Parameter.fromToken numTok) }, sp, lx3)
        | none =>
          (true, { cmd with params := cmd.params.add (Parameter.fromToken numTok) }, sp, lx3)
    else
      (true, { cmd with params := cmd.params.add (Parameter.fromToken numTok) }, sp, lx3)
  else if t.isType .IDENTIFIER then
    let (id1, lx2) := lx1.nextToken
    let (id2, lx3) := lx2.peekToken
    if (id1.value = str "+" ∨ id1.value = str "-") && id2.isType .IDENTIFIER
        && areAdjacent id1 id2 then
      let combined := id1.value ++ id2.value
      let lx4 := (lx3.nextToken).2
      (true, { cmd with params := cmd.params.add (Parameter.fromIdentifier combined) }, sp, lx4)
    else
      (true, { cmd with params := cmd.params.add (Parameter.fromIdentifier id1.value) }, sp, lx3)
  else
    (false, cmd, sp.setError error.SYNTAX_ERROR
      (str "Unexpected token in parameters: " ++ t.typeNameStr) t.position, lx1)

/-- The loop of `CommandSplitter::parseParameters`. -/
def parseParameters (sp : CommandSplitter) (lx : Lexer) (cmd : ParsedCommand) :
    Nat → Bool × ParsedCommand × CommandSplitter × Lexer
  | 0 => (false, cmd, sp.setError error.SYNTAX_ERROR (str "model: loop bound exceeded") lx.pos, lx)
  | fuel + 1 =>
    let (t, lx1) := lx.peekToken
    if t.isType .SEMICOLON || t.isType .NEWLINE || t.isType .END_OF_INPUT then
      (true, cmd, sp, lx1)
    else
      let lx2 := skipParamSeparators lx1 (fuel + 1)
      let (t2, lx3) := lx2.peekToken
      if t2.isType .SEMICOLON || t2.isType .NEWLINE || t2.isType .END_OF_INPUT then
        (true, cmd, sp, lx3)
      else
        let (ok, cmd', sp', lx4) := parseOneParameter sp lx3 cmd (fuel + 1)
        if !ok then (false, cmd', sp', lx4)
        else parseParameters sp' lx4 cmd' fuel

/-- The identifier loop of `CommandSplitter::parseHeader` (regular
commands). -/
def headerLoop (sp : CommandSplitter) (lx : Lexer) (cmd : ParsedCommand)
    (gotAny : Bool) : Nat → Bool × ParsedCommand × CommandSplitter × Lexer
  | 0 => (false, cmd, sp.setError error.SYNTAX_ERROR (str "model: loop bound exceeded") lx.pos, lx)
  | fuel + 1 =>
    let (id, lx1) := lx.nextToken
    if !id.isType .IDENTIFIER then
      if !gotAny then
        (false, cmd, sp.setError error.SYNTAX_ERROR (str "Expected command identifier") id.position, lx1)
      else
        (false, cmd, sp.setError error.SYNTAX_ERROR (str "Unexpected token in command header") id.position, lx1)
    else
      let pn : PathNode :=
        if id.hasNumericSuffix then
          { name := id.baseName, suffix := id.numericSuffix, hasSuffix := true }
        else
          { name := id.value, suffix := 0, hasSuffix := false }
      let cmd := { cmd with path := cmd.path ++ [pn] }
      let (t, lx2) := lx1.peekToken
      if t.isType .QUESTION then
        (true, { cmd with isQuery := true }, sp, (lx2.nextToken).2)
      else if t.isType .COLON then
        headerLoop sp (lx2.nextToken).2 cmd true fuel
      else (true, cmd, sp, lx2)

/-- `CommandSplitter::parseHeader`. -/
def parseHeader (sp : CommandSplitter) (lx : Lexer) (cmd : ParsedCommand)
    (fuel : Nat) : Bool × ParsedCommand × CommandSplitter × Lexer :=
  let (t, lx1) := lx.peekToken
  if t.isType .ASTERISK then
    let cmd := { cmd with isCommon := true }
    let lx2 := (lx1.nextToken).2
    let (nameTok, lx3) := lx2.nextToken
    if !nameTok.isType .IDENTIFIER then
      (false, cmd, sp.setError error.SYNTAX_ERROR
        (str "Expected common command mnemonic after '*'") nameTok.position, lx3)
    else
      let cmd := { cmd with path := cmd.path ++ [{ name := nameTok.value }] }
      let (t2, lx4) := lx3.peekToken
      if t2.isType .QUESTION then
        (true, { cmd with isQuery := true }, sp, (lx4.nextToken).2)
      else (true, cmd, sp, lx4)
  else
    let (cmd, lx2) :=
      if t.isType .COLON then ({ cmd with isAbsolute := true }, (lx1.nextToken).2)
      else (cmd, lx1)
    headerLoop sp lx2 cmd false fuel

/-- `CommandSplitter::parseOneCommand`. -/
def parseOneCommand (sp : CommandSplitter) (lx : Lexer) (fuel : Nat) :
    Bool × ParsedCommand × CommandSplitter × Lexer :=
  let (t, lx0) := lx.peekToken
  let cmd : ParsedCommand := { startPos := t.position }
  let (ok, cmd, sp, lx1) := parseHeader sp lx0 cmd fuel
  if !ok then (false, cmd, sp, lx1)
  else
    let (t2, lx2) := lx1.peekToken
    let (ok2, cmd2, sp2, lx3) :=
      if !t2.isType .SEMICOLON && !t2.isType .NEWLINE && !t2.isType .END_OF_INPUT then
        parseParameters sp lx2 cmd fuel
      else (true, cmd, sp, lx2)
    if !ok2 then (false, cmd2, sp2, lx3)
    else (true, { cmd2 with endPos := lx3.currentPosition }, sp2, lx3)

/-- The leading newline/whitespace skip of the `split` loop. -/
def skipNlWs (lx : Lexer) : Nat → Lexer
  | 0 => lx
  | fuel + 1 =>
    let (t, lx1) := lx.peekToken
    if t.isType .NEWLINE || t.isType .WHITESPACE then
      skipNlWs (lx1.nextToken).2 fuel
    else lx1

/-- The command loop of `CommandSplitter::split`. -/
def splitLoop (sp : CommandSplitter) (lx : Lexer) (commands : List ParsedCommand) :
    Nat → Bool × List ParsedCommand × CommandSplitter
  | 0 => (false, commands, sp.setError error.SYNTAX_ERROR (str "model: loop bound exceeded") lx.pos)
  | fuel + 1 =>
    let lx := skipNlWs lx (fuel + 1)
    let (t, lx1) := lx.peekToken
    if t.isType .END_OF_INPUT then (true, commands, sp)
    else
      let (ok, cmd, sp1, lx2) := parseOneCommand sp lx1 (fuel + 1)
      if !ok then (false, commands, sp1)
      else
        let commands := commands ++ [cmd]
        let (t2, lx3) := lx2.peekToken
        if t2.isType .SEMICOLON || t2.isType .NEWLINE then
          splitLoop sp1 (lx3.nextToken).2 commands fuel
        else if t2.isType .END_OF_INPUT then (true, commands, sp1)
        else
          (false, commands, sp1.setError error.SYNTAX_ERROR
            (str "Expected ';' or newline or end of input") t2.position)

/-- `CommandSplitter::split`: returns the success flag, the parsed
commands, and the splitter's error state. -/
def split (input : Str) : Bool × List ParsedCommand × CommandSplitter :=
  splitLoop {} (Lexer.init input) [] (input.length + 2)

end CommandSplitter

end Scpi

namespace Scpi

-- ============================================================================
-- node_param.h, pattern_parser.h (PatternNode), command_node.* , command_tree.*
-- ============================================================================

/-- `scpi::NodeParamConstraint` (defaults `[1, INT32_MAX]`, required). -/
structure NodeParamConstraint where
  minValue : Int := 1
  maxValue : Int := 2147483647
  required : Bool := true
  defaultValue : Int := 1
  deriving DecidableEq, Repr

/-- `NodeParamConstraint::validate`. -/
def NodeParamConstraint.validate (c : NodeParamConstraint) (value : Int) : Bool :=
  value ≥ c.minValue && value ≤ c.maxValue

/-- `scpi::NodeParamDef`. -/
structure NodeParamDef where
  name : Str := []
  constraint : NodeParamConstraint := {}
  deriving DecidableEq, Repr

/-- `NodeParamDef::hasParam`. -/
def NodeParamDef.hasParamDef (d : NodeParamDef) : Bool := !d.name.isEmpty

/-- `scpi::NodeParamEntry`. -/
structure NodeParamEntry where
  paramName : Str
  nodeShortName : Str
  nodeLongName : Str
  value : Int
  deriving DecidableEq, Repr

/-- `scpi::NodeParamValues`: the ordered entry list (the two
name-to-index maps of the C++ class are derived data used only by
accessors no claim touches, and are not carried). -/
abbrev NodeParamValues := List NodeParamEntry

/-- `scpi::PatternNode` (the product of `PatternParser::parse`). -/
structure PatternNode where
  shortName : Str
  longName : Str
  paramName : Str := []
  constraint : NodeParamConstraint := {}
  isOptional : Bool := false
  hasParam : Bool := false
  deriving DecidableEq, Repr

/-- `PatternNode::getParamDef`. -/
def PatternNode.getParamDef (pn : PatternNode) : NodeParamDef :=
  if pn.hasParam then { name := pn.paramName, constraint := pn.constraint }
  else {}

/-- Lexicographic byte order on strings (`std::string::operator<`),
the key order of `std::map`. -/
def strLt : Str → Str → Bool
  | [], [] => false
  | [], _ :: _ => true
  | _ :: _, [] => false
  | a :: as, b :: bs => if a < b then true else if b < a then false else strLt as bs

/-- `std::map` find on the sorted association list. -/
def mapFind {α : Type} (key : Str) : List (Str × α) → Option α
  | [] => none
  | (k, v) :: rest => if k = key then some v else mapFind key rest

/-- `std::map` insert-or-assign (`m[key] = v`), keeping the list sorted
by `strLt` to match `std::map` iteration order. -/
def mapInsert {α : Type} (key : Str) (v : α) : List (Str × α) → List (Str × α)
  | [] => [(key, v)]
  | (k, w) :: rest =>
    if key = k then (key, v) :: rest
    else if strLt key k then (key, v) :: (k, w) :: rest
    else (k, w) :: mapInsert key v rest

/-- `scpi::CommandNode`, polymorphic in the handler type `H` (the C++
`CommandHandler` is a `std::function`; claims about tree shape use
`H := Nat`, the dispatcher instantiates `H` with a context
transformer).  `children` is the `std::map` keyed by the uppercased
short name. -/
inductive CNode (H : Type) where
  | mk (shortName longName : Str) (paramDef : NodeParamDef) (isOptional : Bool)
      (handler queryHandler : Option H) (children : List (Str × CNode H))

namespace CNode

variable {H : Type}

def shortName : CNode H → Str
  | .mk s _ _ _ _ _ _ => s

def longName : CNode H → Str
  | .mk _ l _ _ _ _ _ => l

def paramDef : CNode H → NodeParamDef
  | .mk _ _ d _ _ _ _ => d

def isOptional : CNode H → Bool
  | .mk _ _ _ o _ _ _ => o

def handler : CNode H → Option H
  | .mk _ _ _ _ h _ _ => h

def queryHandler : CNode H → Option H
  | .mk _ _ _ _ _ q _ => q

def children : CNode H → List (Str × CNode H)
  | .mk _ _ _ _ _ _ cs => cs

/-- `CommandNode::hasParam`. -/
def hasParam (n : CNode H) : Bool := n.paramDef.hasParamDef

/-- `CommandNode::paramName`. -/
def paramName (n : CNode H) : Str := n.paramDef.name

/-- `CommandNode::constraint`. -/
def constraint (n : CNode H) : NodeParamConstraint := n.paramDef.constraint

/-- `CommandNode::setOptional`. -/
def setOptional (n : CNode H) (v : Bool) : CNode H :=
  match n with
  | .mk s l d _ h q cs => .mk s l d v h q cs

/-- `CommandNode::setHandler`. -/
def setHandler (n : CNode H) (h : H) : CNode H :=
  match n with
  | .mk s l d o _ q cs => .mk s l d o (some h) q cs

/-- `CommandNode::setQueryHandler`. -/
def setQueryHandler (n : CNode H) (h : H) : CNode H :=
  match n with
  | .mk s l d o hd _ cs => .mk s l d o hd (some h) cs

/-- Replace the children map. -/
def withChildren (n : CNode H) (cs : List (Str × CNode H)) : CNode H :=
  match n with
  | .mk s l d o hd q _ => .mk s l d o hd q cs

/-- The `CommandNode(shortName, longName, paramDef)` constructor
(handlers empty, not optional, no children). -/
def node (shortName longName : Str) (paramDef : NodeParamDef := {}) : CNode H :=
  .mk shortName longName paramDef false none none []

/-- `CommandNode::matchName`: exact short name, exact long name, or a
prefix of the long name at least as long as the short name (all
case-insensitive). -/
def matchName (input shortName longName : Str) : Bool :=
  let upperInput := toUpper input
  let upperShort := toUpper shortName
  let upperLong := toUpper longName
  if upperInput = upperShort then true
  else if upperInput = upperLong then true
  else if upperInput.length ≥ upperShort.length && upperInput.length ≤ upperLong.length
      && decide (upperLong.take upperInput.length = upperInput) then true
  else false

/-- `CommandNode::splitNumericSuffix` (textually identical to
`Lexer::splitNumericSuffix` in the C++; embedded separately as the
claim about it names both copies). -/
def splitNumericSuffix (name : Str) : Str × Int × Bool :=
  let ds := (name.reverse.takeWhile isDigit).reverse
  let i := name.length - ds.length
  if i < name.length ∧ 0 < i then
    let val := digitsToNat ds
    if val > 2147483647 then (name, 0, false)
    else (name.take i, (val : Int), true)
  else (name, 0, false)

/-- The iteration of `CommandNode::findChild(baseName, suffix,
hasSuffix, extracted)` over the (sorted) children map: the first match
is returned together with its key and the extracted suffix value. -/
def findChildGo (upperBase : Str) (suffix : Int) (hasSuffix : Bool) :
    List (Str × CNode H) → Option (Str × CNode H × Int)
  | [] => none
  | (key, child) :: rest =>
    if !matchName upperBase child.shortName child.longName then
      findChildGo upperBase suffix hasSuffix rest
    else if child.hasParam then
      if hasSuffix then
        if child.constraint.validate suffix then some (key, child, suffix)
        else findChildGo upperBase suffix hasSuffix rest
      else if !child.constraint.required then
        some (key, child, child.constraint.defaultValue)
      else findChildGo upperBase suffix hasSuffix rest
    else
      if !hasSuffix then some (key, child, 0)
      else findChildGo upperBase suffix hasSuffix rest

/-- `CommandNode::findChild(baseName, suffix, hasSuffix, &extracted)`
(the extracted value defaults to 0 when the matched child carries no
parameter, as the unwritten C++ out-parameter does). -/
def findChild (n : CNode H) (baseName : Str) (suffix : Int) (hasSuffix : Bool) :
    Option (Str × CNode H × Int) :=
  findChildGo (toUpper baseName) suffix hasSuffix n.children

end CNode

/-- `scpi::CommandTree`: the owned root plus the common-command map and
the last-error slot. -/
structure CommandTree (H : Type) where
  root : CNode H
  commonCommands : List (Str × H) := []
  lastError : Str := []

/-- The `CommandTree()` constructor (root node "ROOT"/"ROOT"). -/
def CommandTree.init {H : Type} : CommandTree H :=
  { root := CNode.node (str "ROOT") (str "ROOT") }

namespace CommandTree

variable {H : Type}

/-- `findTrailingOptionalStart` (command_tree.cpp): the index where the
maximal trailing run of optional nodes starts (`nodes.size()` when
there is none); the C++ backward scan is the length minus the number
of trailing optional nodes. -/
def findTrailingOptionalStart (nodes : List PatternNode) : Nat :=
  nodes.length - (nodes.reverse.takeWhile (·.isOptional)).length

/-- `CommandTree::ensurePath` fused with the use its callers make of
the returned leaf pointer: walk `pns` from `node`, creating missing
children exactly as `ensurePath` does (forcing the optional flag on
re-used nodes when the pattern node is optional), and apply `f` to the
leaf in place (`f := id` models plain `ensurePath`; `f := setHandler h`
models `ensurePath(...)->setHandler(h)`). -/
def ensurePathApply (node : CNode H) (pns : List PatternNode) (f : CNode H → CNode H) : CNode H :=
  match pns with
  | [] => f node
  | pn :: rest =>
    let key := toUpper pn.shortName
    match mapFind key node.children with
    | some child =>
      let child := if pn.isOptional then child.setOptional true else child
      node.withChildren (mapInsert key (ensurePathApply child rest f) node.children)
    | none =>
      let child : CNode H := (CNode.node pn.shortName pn.longName pn.getParamDef).setOptional pn.isOptional
      node.withChildren (mapInsert key (ensurePathApply child rest f) node.children)

/-- `CommandTree::setHandlersForOptionalChain`: bind `handler` at every
prefix length `i` from `optionalStart - 1` (or 0) up to the full
length, skipping the empty prefix. -/
def setHandlersForOptionalChain (root : CNode H) (nodes : List PatternNode)
    (optionalStart : Nat) (handler : H) (isQuery : Bool) : CNode H :=
  let start := if optionalStart > 0 then optionalStart - 1 else 0
  (List.range' start (nodes.length + 1 - start)).foldl
    (fun acc i =>
      let firstOptional : Bool :=
        match nodes with
        | pn :: _ => pn.isOptional
        | [] => false
      if i = 0 ∧ firstOptional = true then acc
      else
        let subPath := nodes.take i
        if subPath.isEmpty then acc
        else
          ensurePathApply acc subPath
            (fun n => if isQuery then n.setQueryHandler handler else n.setHandler handler))
    root

/-- `CommandTree::registerCommand`, modelled from the point where
`PatternParser::parse` has succeeded on the pattern and produced
`nodes` (the claims quantify over the parsed node list; the query flag
a trailing `?` sets does not affect the tree). -/
def registerCommandNodes (t : CommandTree H) (nodes : List PatternNode) (handler : H) :
    CommandTree H :=
  if nodes.isEmpty then { t with lastError := str "Empty node list" }
  else
    let root1 := ensurePathApply t.root nodes id
    let optionalStart := findTrailingOptionalStart nodes
    if optionalStart < nodes.length then
      { t with root := setHandlersForOptionalChain root1 nodes optionalStart handler false }
    else
      { t with root := ensurePathApply root1 nodes (fun n => n.setHandler handler) }

/-- `CommandTree::registerQuery`, from the parsed node list (the
trailing `?` the C++ appends only affects pattern parsing). -/
def registerQueryNodes (t : CommandTree H) (nodes : List PatternNode) (handler : H) :
    CommandTree H :=
  if nodes.isEmpty then { t with lastError := str "Empty node list" }
  else
    let root1 := ensurePathApply t.root nodes id
    let optionalStart := findTrailingOptionalStart nodes
    if optionalStart < nodes.length then
      { t with root := setHandlersForOptionalChain root1 nodes optionalStart handler true }
    else
      { t with root := ensurePathApply root1 nodes (fun n => n.setQueryHandler handler) }

/-- `CommandTree::registerBoth`, from the parsed node list. -/
def registerBothNodes (t : CommandTree H) (nodes : List PatternNode)
    (setHandler queryHandler : H) : CommandTree H :=
  if nodes.isEmpty then { t with lastError := str "Empty node list" }
  else
    let root1 := ensurePathApply t.root nodes id
    let optionalStart := findTrailingOptionalStart nodes
    if optionalStart < nodes.length then
      let root2 := setHandlersForOptionalChain root1 nodes optionalStart setHandler false
      { t with root := setHandlersForOptionalChain root2 nodes optionalStart queryHandler true }
    else
      let root2 := ensurePathApply root1 nodes
        (fun n => (n.setHandler setHandler).setQueryHandler queryHandler)
      { t with root := root2 }

/-- `CommandTree::normalizeCommonName`. -/
def normalizeCommonName (name : Str) : Str :=
  let result := toUpper name
  match result with
  | [] => ['*']
  | c :: _ => if c ≠ '*' then '*' :: result else result

/-- `CommandTree::registerCommonCommand`. -/
def registerCommonCommand (t : CommandTree H) (name : Str) (handler : H) : CommandTree H :=
  { t with commonCommands := mapInsert (normalizeCommonName name) handler t.commonCommands }

/-- `CommandTree::findCommonCommand`. -/
def findCommonCommand (t : CommandTree H) (name : Str) : Option H :=
  mapFind (normalizeCommonName name) t.commonCommands

end CommandTree

/-- Navigate a tree by uppercased short-name keys (a specification
helper, not a C++ function: it names the node a chain of child-map
lookups reaches). -/
def getNodeAt {H : Type} : CNode H → List Str → Option (CNode H)
  | n, [] => some n
  | n, k :: ks =>
    match mapFind k n.children with
    | some child => getNodeAt child ks
    | none => none

/-- The set-handler slot at a key path (specification helper). -/
def getSetSlotAt {H : Type} (n : CNode H) (ks : List Str) : Option (Option H) :=
  (getNodeAt n ks).map (·.handler)

/-- The query-handler slot at a key path (specification helper). -/
def getQuerySlotAt {H : Type} (n : CNode H) (ks : List Str) : Option (Option H) :=
  (getNodeAt n ks).map (·.queryHandler)

/-- The key path of a pattern-node list (uppercased short names). -/
def pathKeys (nodes : List PatternNode) : List Str :=
  nodes.map (fun pn => toUpper pn.shortName)

end Scpi

namespace Scpi

-- ============================================================================
-- path_resolver.h / path_resolver.cpp
-- ============================================================================

/-- A `CommandNode*`: the node's value together with its key path from
the tree root (the two determine each other in the owned tree, and the
path is what pointer identity compares by). -/
abbrev NodePtr (H : Type) := CNode H × List Str

/-- `scpi::ResolveResult` (node pointers become `NodePtr` values; the
`CommandHandler commonHandler` becomes `Option H`). -/
structure ResolveResult (H : Type) where
  success : Bool := false
  node : Option (NodePtr H) := none
  matchedPath : List (NodePtr H) := []
  consumedPath : List (NodePtr H) := []
  nodeParams : NodeParamValues := []
  isCommon : Bool := false
  commonHandler : Option H := none
  errorCode : Int := error.NO_ERROR
  errorMessage : Str := []

/-- `PathResolver::StateKey`: the C++ key is `(node pointer, index)`;
pointer identity is modelled by the node's key path from the root
(nodes are exclusively owned, so positions are in bijection with
pointers). -/
abbrev StateKey := List Str × Nat

/-- `MAX_RESOLVE_DEPTH`. -/
def MAX_RESOLVE_DEPTH : Nat := 32

/-- The ε-move loop of `PathResolver::dfsResolve`: try every optional
child in map order, sharing the `visited` set and the output slot
across attempts, stopping at the first success. -/
def epsLoop {H : Type}
    (rec : CNode H → List Str → List (NodePtr H) → List StateKey → ResolveResult H →
      Bool × ResolveResult H × List StateKey)
    (parentPos : List Str) (matchedPath : List (NodePtr H)) :
    List (Str × CNode H) → List StateKey → ResolveResult H →
      Bool × ResolveResult H × List StateKey
  | [], visited, out => (false, out, visited)
  | (key, child) :: rest, visited, out =>
    if !child.isOptional then epsLoop rec parentPos matchedPath rest visited out
    else
      let mp := matchedPath ++ [(child, parentPos ++ [key])]
      let r := rec child (parentPos ++ [key]) mp visited out
      if r.1 then (true, r.2.1, r.2.2)
      else epsLoop rec parentPos matchedPath rest r.2.2 r.2.1

/-- `PathResolver::dfsResolve`.  The C++ carries an ascending `depth`
and fails above `MAX_RESOLVE_DEPTH`; here `fuel` stands for
`MAX_RESOLVE_DEPTH + 1 - depth`, so `fuel = 0` is exactly
`depth > MAX_RESOLVE_DEPTH` and each recursive call (depth + 1)
decrements it.  `curPos` is the key path of `current` (pointer
identity for the visited set). -/
def dfsResolve {H : Type} : Nat → CNode H → List Str → List PathNode → Nat →
    NodeParamValues → List (NodePtr H) → List (NodePtr H) → List StateKey →
    ResolveResult H → Bool × ResolveResult H × List StateKey
  | 0, _, _, _, _, _, _, _, visited, out => (false, out, visited)
  | fuel + 1, current, curPos, path, index, nodeParams, matchedPath, consumedPath,
      visited, out =>
    let key : StateKey := (curPos, index)
    if visited.contains key then (false, out, visited)
    else
      let visited := key :: visited
      if index ≥ path.length then
        (true, { out with
          node := some (current, curPos),
          matchedPath := matchedPath,
          consumedPath := consumedPath,
          nodeParams := nodeParams }, visited)
      else
        let eres :=
          epsLoop
            (fun child childPos mp vis o =>
              dfsResolve fuel child childPos path index nodeParams mp consumedPath vis o)
            curPos matchedPath current.children visited out
        if eres.1 then (true, eres.2.1, eres.2.2)
        else
          let outEps := eres.2.1
          let visEps := eres.2.2
          let pn := path.getD index {name := []}
          match current.findChild pn.name pn.suffix pn.hasSuffix with
          | some found =>
            let next := found.2.1
            let ckey := found.1
            let extracted := found.2.2
            let mp := matchedPath ++ [(next, curPos ++ [ckey])]
            let cp := consumedPath ++ [(next, curPos ++ [ckey])]
            let nodeParams' :=
              if next.hasParam then
                nodeParams ++ [{ paramName := next.paramName
                               , nodeShortName := next.shortName
                               , nodeLongName := next.longName
                               , value := extracted }]
              else nodeParams
            let sub := dfsResolve fuel next (curPos ++ [ckey]) path (index + 1)
              nodeParams' mp cp visEps outEps
            if sub.1 then (true, sub.2.1, sub.2.2)
            else
              (false, { sub.2.1 with
                errorCode := error.UNDEFINED_HEADER,
                errorMessage := str "Undefined header near: " ++ pn.toStr }, sub.2.2)
          | none =>
            (false, { outEps with
              errorCode := error.UNDEFINED_HEADER,
              errorMessage := str "Undefined header near: " ++ pn.toStr }, visEps)

/-- `PathResolver::buildCommonName`. -/
def buildCommonName (cmd : ParsedCommand) : Str :=
  let name := str "*" ++ (match cmd.path with
    | pn :: _ => toUpper pn.name
    | [] => [])
  if cmd.isQuery then name ++ str "?" else name

/-- `PathResolver::resolve`.  The `PathContext` argument is the current
node (`none` = root); the start node of a relative resolve is the
context node when there is one. -/
def resolve {H : Type} (tree : CommandTree H) (cmd : ParsedCommand)
    (ctxNode : Option (NodePtr H)) : ResolveResult H :=
  if cmd.path.isEmpty then
    { errorCode := error.SYNTAX_ERROR, errorMessage := str "Empty command header" }
  else if cmd.isCommon then
    let commonName := buildCommonName cmd
    match tree.findCommonCommand commonName with
    | some h => { success := true, isCommon := true, commonHandler := some h }
    | none =>
      { isCommon := true
      , errorCode := error.UNDEFINED_HEADER
      , errorMessage := str "Unknown common command: " ++ commonName }
  else
    let startPair :=
      if cmd.isAbsolute then (tree.root, ([] : List Str))
      else ctxNode.getD (tree.root, [])
    let dres :=
      dfsResolve (MAX_RESOLVE_DEPTH + 1) startPair.1 startPair.2 cmd.path 0 [] [] [] [] {}
    let ok := dres.1
    let rr := dres.2.1
    if !ok then
      if rr.errorCode = error.NO_ERROR then
        { rr with
          errorCode := error.UNDEFINED_HEADER,
          errorMessage := str "Undefined header" }
      else rr
    else { rr with success := true }

end Scpi

namespace Scpi

-- ============================================================================
-- status_register.h / status_register.cpp
-- ============================================================================

/-- `scpi::StatusRegister` (three 8-bit registers as naturals < 256). -/
structure StatusRegister where
  esr : Nat := 0
  ese : Nat := 0
  sre : Nat := 0
  deriving DecidableEq, Repr

namespace StatusRegister

/-- `StatusRegister::setESRBit`. -/
def setESRBit (s : StatusRegister) (bit : Nat) : StatusRegister :=
  if bit > 7 then s else { s with esr := s.esr ||| (1 <<< bit) }

/-- `StatusRegister::setOPC`. -/
def setOPC (s : StatusRegister) : StatusRegister := s.setESRBit 0

/-- `StatusRegister::setErrorByCode`: CME bit5, EXE bit4, DDE bit3,
QYE bit2. -/
def setErrorByCode (s : StatusRegister) (scpiErr : Int) : StatusRegister :=
  if error.isCommandError scpiErr then s.setESRBit 5
  else if error.isExecutionError scpiErr then s.setESRBit 4
  else if error.isDeviceError scpiErr then s.setESRBit 3
  else if error.isQueryError scpiErr then s.setESRBit 2
  else s

/-- `StatusRegister::readAndClearESR`. -/
def readAndClearESR (s : StatusRegister) : Nat × StatusRegister :=
  (s.esr, { s with esr := 0 })

/-- `StatusRegister::computeSTB`. -/
def computeSTB (s : StatusRegister) (errorQueueNotEmpty messageAvailable : Bool) : Nat :=
  let stb := 0
  let stb := if errorQueueNotEmpty then stb ||| (1 <<< 2) else stb
  let stb := if messageAvailable then stb ||| (1 <<< 4) else stb
  let stb := if s.esr &&& s.ese ≠ 0 then stb ||| (1 <<< 5) else stb
  if stb &&& s.sre ≠ 0 then stb ||| (1 <<< 6) else stb

/-- `StatusRegister::clearForCLS` (ESE/SRE survive). -/
def clearForCLS (s : StatusRegister) : StatusRegister := { s with esr := 0 }

end StatusRegister

-- ============================================================================
-- context.h / context.cpp
-- ============================================================================

/-- `Context::ResponseItem::Type`. -/
inductive RKind where
  | text | binary
  deriving DecidableEq, Repr

/-- `Context::ResponseItem` (binary payloads kept as `Str`, i.e. byte
lists). -/
structure ResponseItem where
  kind : RKind
  text : Str := []
  bin : Str := []
  indefinite : Bool := false
  deriving DecidableEq, Repr

/-- `scpi::Context`.  Output callbacks are modelled by presence flags
plus `callbackOut`, the list of byte strings handed to whichever
callback is installed (the callbacks themselves are host code outside
the library).  The byte-order field and the user-data pointer feed
only the block-array serialization helpers, which no claim touches,
and are omitted. -/
structure Ctx where
  params : ParameterList := {}
  nodeParams : NodeParamValues := []
  hasOutputCallback : Bool := false
  hasBinaryOutputCallback : Bool := false
  callbackOut : List Str := []
  errorQueue : ErrorQueue := ErrorQueue.init 20
  status : StatusRegister := {}
  transientErrorCode : Int := 0
  transientErrorMessage : Str := []
  isQuery : Bool := false
  responses : List ResponseItem := []
  lastResponseIndefinite : Bool := false

namespace Ctx

/-- `Context::makeBlockHeader`. -/
def makeBlockHeader (len : Nat) : Str :=
  let lenStr := natToStr len
  '#' :: Char.ofNat ('0'.toNat + lenStr.length) :: lenStr

/-- `Context::hasPendingResponse`. -/
def hasPendingResponse (ctx : Ctx) : Bool := !ctx.responses.isEmpty

/-- `Context::lastResponseWasIndefinite`. -/
def lastResponseWasIndefinite (ctx : Ctx) : Bool := ctx.lastResponseIndefinite

/-- `Context::hasTransientError`. -/
def hasTransientError (ctx : Ctx) : Bool := ctx.transientErrorCode ≠ 0

/-- `Context::enqueueTextResponse` (buffered mode only). -/
def enqueueTextResponse (ctx : Ctx) (s : Str) (indefinite : Bool) : Ctx :=
  if !ctx.hasOutputCallback && !ctx.hasBinaryOutputCallback then
    { ctx with
      responses := ctx.responses ++ [{ kind := .text, text := s, indefinite := indefinite }],
      lastResponseIndefinite := indefinite }
  else ctx

/-- `Context::enqueueBinaryResponse` (buffered mode only). -/
def enqueueBinaryResponse (ctx : Ctx) (b : Str) (indefinite : Bool) : Ctx :=
  if !ctx.hasOutputCallback && !ctx.hasBinaryOutputCallback then
    { ctx with
      responses := ctx.responses ++ [{ kind := .binary, bin := b, indefinite := indefinite }],
      lastResponseIndefinite := indefinite }
  else ctx

/-- `Context::result(const std::string&)`. -/
def result (ctx : Ctx) (s : Str) : Ctx :=
  let ctx := if ctx.hasOutputCallback then { ctx with callbackOut := ctx.callbackOut ++ [s] } else ctx
  ctx.enqueueTextResponse s false

/-- `Context::result(int32_t / int64_t)`. -/
def resultInt (ctx : Ctx) (v : Int) : Ctx := ctx.result (intToStr v)

/-- `Context::result(bool)`. -/
def resultBool (ctx : Ctx) (v : Bool) : Ctx :=
  ctx.result (if v then str "1" else str "0")

/-- `Context::resultBlock`. -/
def resultBlock (ctx : Ctx) (data : Str) : Ctx :=
  let hdr := makeBlockHeader data.length
  if ctx.hasBinaryOutputCallback then
    let out := ctx.callbackOut ++ [hdr] ++ (if data.length > 0 then [data] else [])
    { ctx with callbackOut := out }
  else if ctx.hasOutputCallback then
    { ctx with callbackOut := ctx.callbackOut ++ [hdr ++ data] }
  else
    ctx.enqueueBinaryResponse (hdr ++ data) false

/-- `Context::resultIndefiniteBlock` (`#0<data>\n`). -/
def resultIndefiniteBlock (ctx : Ctx) (data : Str) : Ctx :=
  if ctx.hasBinaryOutputCallback then
    { ctx with callbackOut := ctx.callbackOut ++ [str "#0"]
        ++ (if !data.isEmpty then [data] else []) ++ [str "\n"] }
  else if ctx.hasOutputCallback then
    { ctx with callbackOut := ctx.callbackOut ++ [str "#0" ++ data ++ str "\n"] }
  else
    ctx.enqueueBinaryResponse (str "#0" ++ data ++ str "\n") true

/-- `Context::pushError`: records the transient error, raises the
matching ESR bit, enqueues on the error queue. -/
def pushError (ctx : Ctx) (code : Int) (message : Str) (ectx : Str := []) : Ctx :=
  { ctx with
    transientErrorCode := code,
    transientErrorMessage := message,
    status := ctx.status.setErrorByCode code,
    errorQueue := ctx.errorQueue.pushCode code message ectx }

/-- `Context::pushStandardError`. -/
def pushStandardError (ctx : Ctx) (code : Int) : Ctx :=
  ctx.pushError code (error.getStandardMessage code)

/-- `Context::pushStandardErrorWithInfo`. -/
def pushStandardErrorWithInfo (ctx : Ctx) (code : Int) (info : Str) : Ctx :=
  ctx.pushError code
    (error.getStandardMessage code ++ (if info.isEmpty then [] else str "; " ++ info))

/-- `Context::popTextResponse`: the popped text (empty on an empty
buffer, which enqueues −420) and the updated context. -/
def popTextResponse (ctx : Ctx) : Str × Ctx :=
  match ctx.responses with
  | [] => ([], ctx.pushStandardError error.QUERY_UNTERMINATED)
  | it :: rest =>
    let ctx := { ctx with responses := rest }
    let ctx := if rest.isEmpty then { ctx with lastResponseIndefinite := false } else ctx
    (if it.kind = .text then it.text else it.bin, ctx)

/-- `Context::popBinaryResponse`. -/
def popBinaryResponse (ctx : Ctx) : Str × Ctx :=
  match ctx.responses with
  | [] => ([], ctx.pushStandardError error.QUERY_UNTERMINATED)
  | it :: rest =>
    let ctx := { ctx with responses := rest }
    let ctx := if rest.isEmpty then { ctx with lastResponseIndefinite := false } else ctx
    (if it.kind = .binary then it.bin else it.text, ctx)

/-- `Context::clearResponses`. -/
def clearResponses (ctx : Ctx) : Ctx :=
  { ctx with responses := [], lastResponseIndefinite := false }

/-- `Context::clearTransientError`. -/
def clearTransientError (ctx : Ctx) : Ctx :=
  { ctx with transientErrorCode := 0, transientErrorMessage := [] }

/-- `Context::resetCommandState` (params, node params, query flag and
transient error only). -/
def resetCommandState (ctx : Ctx) : Ctx :=
  { ctx with params := {}, nodeParams := [], isQuery := false,
             transientErrorCode := 0, transientErrorMessage := [] }

/-- `Context::clearStatus` (`*CLS`). -/
def clearStatus (ctx : Ctx) : Ctx :=
  let ctx := { ctx with errorQueue := ctx.errorQueue.clear }
  let ctx := ctx.clearResponses
  let ctx := { ctx with status := ctx.status.clearForCLS }
  ctx.clearTransientError

/-- `Context::computeSTB`. -/
def computeSTB (ctx : Ctx) : Nat :=
  let mav := (!ctx.hasOutputCallback && !ctx.hasBinaryOutputCallback)
    && !ctx.responses.isEmpty
  ctx.status.computeSTB (!ctx.errorQueue.isEmpty) mav

end Ctx

-- ============================================================================
-- parser.h / parser.cpp (the dispatcher facade)
-- ============================================================================

/-- `scpi::CommandHandler` (`std::function<int(Context&)>`): the
context transformation together with the returned code. -/
abbrev Handler := Ctx → Ctx × Int

/-- `scpi::Parser`. -/
structure Parser where
  tree : CommandTree Handler := CommandTree.init
  pathContext : Option (NodePtr Handler) := none
  autoResetContext : Bool := true

namespace Parser

/-- `Parser::registerCommonCommand` (forwards to the tree). -/
def registerCommonCommand (p : Parser) (name : Str) (h : Handler) : Parser :=
  { p with tree := p.tree.registerCommonCommand name h }

/-- `Parser::normalizeHandlerReturn`. -/
def normalizeHandlerReturn (rc : Int) : Int :=
  if rc = 0 then 0
  else if (rc ≤ -100 ∧ rc ≥ -499) ∨ rc > 0 then rc
  else error.EXECUTION_ERROR

/-- `Parser::updatePathContextAfterResolve`, acting on the stored
path context.  The C++ compares `startNode == root` by pointer; the
stored context is never the root (it is always a node from a consumed
path, or null), so that comparison is `isAbsolute ∨ context = none`. -/
def updatePathContextAfterResolve (pathContext : Option (NodePtr Handler))
    (cmd : ParsedCommand) (rr : ResolveResult Handler) : Option (NodePtr Handler) :=
  let startIsRoot := cmd.isAbsolute || pathContext.isNone
  if rr.consumedPath.length ≥ 2 then
    rr.consumedPath.get? (rr.consumedPath.length - 2)
  else if rr.consumedPath.length = 1 then
    if startIsRoot then none else pathContext
  else
    if startIsRoot then none else pathContext

/-- `Parser::executeResolved`.  A successful common resolve always
carries its handler; the impossible null-handler call (undefined
behaviour in C++) is modelled as a 0 return. -/
def executeResolved (cmd : ParsedCommand) (rr : ResolveResult Handler) (ctx : Ctx) :
    Ctx × Int :=
  let ctx := ctx.resetCommandState
  let ctx := { ctx with isQuery := cmd.isQuery }
  let ctx := { ctx with params := cmd.params, nodeParams := rr.nodeParams }
  let hOpt : Option Handler ⊕ Int :=
    if rr.isCommon then
      match rr.commonHandler with
      | some h => Sum.inl (some h)
      | none => Sum.inl none
    else
      match rr.node with
      | none => Sum.inr error.UNDEFINED_HEADER
      | some (n, _) =>
        if cmd.isQuery then
          match n.queryHandler with
          | some h => Sum.inl (some h)
          | none => Sum.inr error.QUERY_ERROR
        else
          match n.handler with
          | some h => Sum.inl (some h)
          | none => Sum.inr error.COMMAND_ERROR
  match hOpt with
  | Sum.inr code => (ctx.pushStandardError code, code)
  | Sum.inl none => (ctx, 0)
  | Sum.inl (some h) =>
    let hr := h ctx
    let ctx := hr.1
    let rc0 := hr.2
    let rc := normalizeHandlerReturn rc0
    if rc ≠ 0 ∧ ¬ctx.hasTransientError then
      if rc ≤ -100 ∧ rc ≥ -199 then (ctx.pushStandardError rc, rc)
      else if rc ≤ -200 ∧ rc ≥ -299 then (ctx.pushStandardError rc, rc)
      else if rc ≤ -300 ∧ rc ≥ -399 then (ctx.pushStandardError rc, rc)
      else if rc ≤ -400 ∧ rc ≥ -499 then (ctx.pushStandardError rc, rc)
      else if rc > 0 then (ctx.pushError rc (str "Device-defined error"), rc)
      else (ctx.pushStandardError error.EXECUTION_ERROR, rc)
    else (ctx, rc)

/-- The loop body of `Parser::executeAll` for one parsed command:
query-sequence check, resolve, execute, path-context update. -/
def executeAllStep (tree : CommandTree Handler) (s : Ctx × Option (NodePtr Handler) × Int)
    (cmd : ParsedCommand) : Ctx × Option (NodePtr Handler) × Int :=
  let ctx := s.1
  let pc := s.2.1
  let lastRc := s.2.2
  let ctx :=
    if ctx.hasPendingResponse then
      let ctx :=
        if ctx.lastResponseWasIndefinite then
          ctx.pushStandardError error.QUERY_UNTERMINATED_INDEF
        else
          ctx.pushStandardError error.QUERY_INTERRUPTED
      ctx.clearResponses
    else ctx
  let rr := resolve tree cmd pc
  if !rr.success then
    let code := if rr.errorCode ≠ 0 then rr.errorCode else error.UNDEFINED_HEADER
    (ctx.pushStandardErrorWithInfo code rr.errorMessage, pc, code)
  else
    let er := executeResolved cmd rr ctx
    let ctx := er.1
    let rc := er.2
    let lastRc := if rc ≠ 0 then rc else lastRc
    let pc := updatePathContextAfterResolve pc cmd rr
    (ctx, pc, lastRc)

/-- `Parser::executeAll`: returns the last non-zero code (0 if none),
the final context, and the parser with its updated path context. -/
def executeAll (p : Parser) (input : Str) (ctx : Ctx) : Int × Ctx × Parser :=
  if input.length > MAX_INPUT_SIZE then
    (error.OUT_OF_MEMORY,
     ctx.pushStandardErrorWithInfo error.OUT_OF_MEMORY (str "Command string too long"), p)
  else
    let p := if p.autoResetContext then { p with pathContext := none } else p
    let sres := CommandSplitter.split input
    let ok := sres.1
    let cmds := sres.2.1
    let sp := sres.2.2
    if !ok then
      let code := if sp.errorCode = 0 then error.SYNTAX_ERROR else sp.errorCode
      (code, ctx.pushStandardErrorWithInfo code sp.errorMessage, p)
    else
      let fr := cmds.foldl (executeAllStep p.tree) (ctx, p.pathContext, 0)
      (fr.2.2, fr.1, { p with pathContext := fr.2.1 })

/-- `Parser::execute` (single-command convenience: length check, path
reset, then `executeAll`). -/
def execute (p : Parser) (input : Str) (ctx : Ctx) : Int × Ctx × Parser :=
  if input.length > MAX_INPUT_SIZE then
    (error.OUT_OF_MEMORY,
     ctx.pushStandardErrorWithInfo error.OUT_OF_MEMORY (str "Command string too long"), p)
  else
    let p := if p.autoResetContext then { p with pathContext := none } else p
    executeAll p input ctx

end Parser

/-- The `*OPC?` default handler (ieee488_commands.cpp): reply `1`. -/
def opcQueryHandler : Handler := fun ctx => (ctx.resultInt 1, 0)

/-- The `*OPC` default handler (ieee488_commands.cpp): raise ESR bit 0. -/
def opcSetHandler : Handler := fun ctx => ({ ctx with status := ctx.status.setOPC }, 0)

end Scpi

namespace Scpi

-- ============================================================================
-- Specification helpers (definitions used only to state properties)
-- ============================================================================

/-- The codes of the entries an error queue holds, oldest first. -/
def queueCodes (q : ErrorQueue) : List Int := q.entries.map (·.code)

/-- An error-queue operation (the surface claim C9 quantifies over). -/
inductive QueueOp where
  | push (e : ErrorEntry)
  | pop
  | clear
  deriving Repr

/-- Apply one queue operation (a `pop`'s return value is discarded). -/
def applyOp (q : ErrorQueue) : QueueOp → ErrorQueue
  | .push e => q.push e
  | .pop => (q.pop).2
  | .clear => q.clear

/-- Apply a sequence of queue operations. -/
def applyOps (q : ErrorQueue) (ops : List QueueOp) : ErrorQueue :=
  ops.foldl applyOp q

/-- A projection of the node reached by a key path (specification
helper generalising `getSetSlotAt` / `getQuerySlotAt` to any field). -/
def slotAt {H α : Type} (g : CNode H → α) (n : CNode H) (ks : List Str) : Option α :=
  (getNodeAt n ks).map g

/-- The corrected binding condition for registration (specification
helper): with `s` the start of the maximal trailing optional run, a
prefix of length `j` of the pattern receives the handler iff
`max 1 (s-1) ≤ j ≤ k` when the run exists (`s < k`), and iff `j = k`
otherwise — one shorter than the `s ≤ j` the spec states, because the
C++ loop starts at `optionalStart - 1`. -/
def boundCond (nodes : List PatternNode) (j : Nat) : Bool :=
  let s := CommandTree.findTrailingOptionalStart nodes
  if s < nodes.length then decide (1 ≤ j ∧ s - 1 ≤ j) else decide (j = nodes.length)

/-- The parsed node list of the registration pattern
`MEASure:VOLTage[:DC]` (claim C2's concrete instance): two mandatory
nodes followed by one trailing optional node. -/
def c2nodes : List PatternNode :=
  [ { shortName := str "MEAS", longName := str "MEASure" },
    { shortName := str "VOLT", longName := str "VOLTage" },
    { shortName := str "DC", longName := str "DC", isOptional := true } ]

/-- A one-node dispatcher tree with a registered `FOO` set command
(claim C4's concrete instance). -/
def c4tree : CommandTree Handler :=
  CommandTree.registerCommandNodes CommandTree.init
    [{ shortName := str "FOO", longName := str "FOO" }] (fun ctx => (ctx, 0))

/-- The parsed relative command `FOO` (resolves in `c4tree`). -/
def c4cmdFoo : ParsedCommand := { path := [{ name := str "FOO" }] }

/-- The parsed relative command `BAR` (fails to resolve in `c4tree`). -/
def c4cmdBar : ParsedCommand := { path := [{ name := str "BAR" }] }

/-- A parser with the common command `*OPC` registered (claim C5's
concrete instance; the constructor-installed IEEE-488.2 set includes
it). -/
def c5parser : Parser :=
  Parser.registerCommonCommand {} (str "OPC") opcSetHandler

/-- A parser with the common query `*OPC?` registered (claim C1's
concrete instance). -/
def c1parser : Parser :=
  Parser.registerCommonCommand {} (str "OPC?") opcQueryHandler

/-- The error-reporting discipline the C++ handler contract assumes
(specification helper): started on a command-reset context, a handler
never un-pushes queue entries, and whenever it reports a transient
error it has pushed it on the queue (`Context::pushError` does both at
once). -/
def HandlerOk (h : Handler) : Prop :=
  ∀ c : Ctx, c.transientErrorCode = 0 →
    c.errorQueue.pushedCount ≤ (h c).1.errorQueue.pushedCount ∧
    ((h c).1.transientErrorCode ≠ 0 →
      c.errorQueue.pushedCount < (h c).1.errorQueue.pushedCount)

/-- All handlers a resolve result can hand to `executeResolved`
satisfy the discipline (specification helper). -/
def ResolveHandlersOk (rr : ResolveResult Handler) : Prop :=
  (∀ f, rr.commonHandler = some f → HandlerOk f) ∧
  (∀ np f, rr.node = some np →
    np.1.handler = some f ∨ np.1.queryHandler = some f → HandlerOk f)

-- ==========================================================================
-- ===== end of definitions; theorems below =====
-- ==========================================================================

/-- **C7.** For every integer `rc` returned by a handler,
`Parser::normalizeHandlerReturn` maps it as follows: 0 stays 0; any
`rc` in −499…−100 and any positive `rc` passes through unchanged;
every other negative `rc` maps to −200 (execution error). -/
theorem c7_normalize_handler_return (rc : Int) :
    (rc = 0 → Parser.normalizeHandlerReturn rc = 0) ∧
    (-499 ≤ rc ∧ rc ≤ -100 → Parser.normalizeHandlerReturn rc = rc) ∧
    (0 < rc → Parser.normalizeHandlerReturn rc = rc) ∧
    (rc < 0 ∧ ¬(-499 ≤ rc ∧ rc ≤ -100) → Parser.normalizeHandlerReturn rc = -200) := by
  unfold Parser.normalizeHandlerReturn error.EXECUTION_ERROR
  refine ⟨fun h => by simp [h], fun h => ?_, fun h => ?_, fun h => ?_⟩
  · rw [if_neg (by omega), if_pos (by omega)]
  · rw [if_neg (by omega), if_pos (by omega)]
  · rw [if_neg (by omega), if_neg (by omega)]

/-- Witness for C7 at concrete return codes 0, −350, 7 and −99. -/
theorem c7_normalize_handler_return_witness :
    Parser.normalizeHandlerReturn 0 = 0 ∧
    Parser.normalizeHandlerReturn (-350) = -350 ∧
    Parser.normalizeHandlerReturn 7 = 7 ∧
    Parser.normalizeHandlerReturn (-99) = -200 :=
  ⟨(c7_normalize_handler_return 0).1 rfl,
   (c7_normalize_handler_return (-350)).2.1 (by norm_num),
   (c7_normalize_handler_return 7).2.2.1 (by norm_num),
   (c7_normalize_handler_return (-99)).2.2.2 (by norm_num)⟩

end Scpi

namespace Scpi

-- ===== Error-queue helper lemmas (shared) =====

theorem ErrorQueue.push_maxSize (q : ErrorQueue) (e : ErrorEntry) :
    (q.push e).maxSize = q.maxSize := by
  unfold ErrorQueue.push
  split <;> [rfl ; split <;> rfl]

theorem ErrorQueue.push_zero (q : ErrorQueue) (e : ErrorEntry) (h : e.code = 0) :
    q.push e = q := by
  unfold ErrorQueue.push
  rw [if_pos (by simpa [error.NO_ERROR] using h)]

theorem ErrorQueue.overflowEntry_code : ErrorQueue.overflowEntry.code = -350 := rfl

theorem ErrorQueue.push_entries_nonzero (q : ErrorQueue) (e : ErrorEntry)
    (h : ∀ x ∈ q.entries, x.code ≠ 0) :
    ∀ x ∈ (q.push e).entries, x.code ≠ 0 := by
  intro x hx
  unfold ErrorQueue.push at hx
  by_cases h0 : e.code = error.NO_ERROR
  · rw [if_pos h0] at hx; exact h x hx
  · rw [if_neg h0] at hx
    by_cases hfull : q.entries.length ≥ q.maxSize
    · rw [if_pos hfull] at hx
      simp only at hx
      split at hx
      · rcases List.mem_append.mp hx with hm | hm
        · exact h x (List.dropLast_subset _ hm)
        · simp only [List.mem_singleton] at hm
          subst hm
          rw [ErrorQueue.overflowEntry_code]
          decide
      · exact h x hx
    · rw [if_neg hfull] at hx
      simp only at hx
      rcases List.mem_append.mp hx with hm | hm
      · exact h x hm
      · simp only [List.mem_singleton] at hm
        subst hm
        simpa [error.NO_ERROR] using h0

theorem applyOps_nonzero (ops : List QueueOp) :
    ∀ q : ErrorQueue, (∀ x ∈ q.entries, x.code ≠ 0) →
    ∀ x ∈ (applyOps q ops).entries, x.code ≠ 0 := by
  induction ops with
  | nil => intro q h; simpa [applyOps] using h
  | cons op rest ih =>
    intro q h
    have hstep : ∀ x ∈ (applyOp q op).entries, x.code ≠ 0 := by
      cases op with
      | push e => exact ErrorQueue.push_entries_nonzero q e h
      | pop =>
        intro x hx
        cases hq : q.entries with
        | nil =>
          simp [applyOp, ErrorQueue.pop, hq] at hx
        | cons y ys =>
          simp [applyOp, ErrorQueue.pop, hq] at hx
          exact h x (by rw [hq]; exact List.mem_cons_of_mem _ hx)
      | clear =>
        intro x hx
        simp [applyOp, ErrorQueue.clear] at hx
    have : applyOps q (op :: rest) = applyOps (applyOp q op) rest := rfl
    rw [this]
    exact ih _ hstep

/-- **C9.** Pushing an error with code 0 ("No error") into the
`ErrorQueue` is a no-op, so under every sequence of push/pop/clear
operations the queue never contains an entry with code 0;
consequently `pop` or `peek` returning the code-0 sentinel happens
exactly when the queue is empty. -/
theorem c9_no_zero_code_entries (c : Nat) (ops : List QueueOp) :
    (∀ (q : ErrorQueue) (e : ErrorEntry), e.code = 0 → q.push e = q) ∧
    (∀ x ∈ (applyOps (ErrorQueue.init c) ops).entries, x.code ≠ 0) ∧
    (((applyOps (ErrorQueue.init c) ops).pop.1.code = 0) ↔
      (applyOps (ErrorQueue.init c) ops).entries = []) ∧
    (((applyOps (ErrorQueue.init c) ops).peek.code = 0) ↔
      (applyOps (ErrorQueue.init c) ops).entries = []) := by
  have hinv : ∀ x ∈ (applyOps (ErrorQueue.init c) ops).entries, x.code ≠ 0 :=
    applyOps_nonzero ops _ (by simp [ErrorQueue.init])
  refine ⟨ErrorQueue.push_zero, hinv, ?_, ?_⟩
  · constructor
    · intro h
      match hq : (applyOps (ErrorQueue.init c) ops).entries with
      | [] => rfl
      | y :: ys =>
        exfalso
        have hy := hinv y (by rw [hq]; exact List.mem_cons_self _ _)
        unfold ErrorQueue.pop at h
        rw [hq] at h
        simp only at h
        exact hy h
    · intro h
      unfold ErrorQueue.pop
      rw [h]
      rfl
  · constructor
    · intro h
      match hq : (applyOps (ErrorQueue.init c) ops).entries with
      | [] => rfl
      | y :: ys =>
        exfalso
        have hy := hinv y (by rw [hq]; exact List.mem_cons_self _ _)
        unfold ErrorQueue.peek at h
        rw [hq] at h
        exact hy h
    · intro h
      unfold ErrorQueue.peek
      rw [h]
      rfl

/-- Witness for C9: a queue of capacity 1 after one −100 push; its pop
is not the sentinel, and a code-0 push of the sentinel entry is a
no-op. -/
theorem c9_no_zero_code_entries_witness :
    (¬ ((applyOps (ErrorQueue.init 1) [QueueOp.push { code := -100, message := str "Command error" }]).pop.1.code = 0)) ∧
    ErrorQueue.push (ErrorQueue.init 1) { code := 0, message := str "No error" } = ErrorQueue.init 1 := by
  constructor
  · intro h
    have := ((c9_no_zero_code_entries 1 [QueueOp.push { code := -100, message := str "Command error" }]).2.2.1).mp h
    revert this
    decide
  · exact (c9_no_zero_code_entries 1 []).1 _ _ rfl

end Scpi


namespace Scpi

-- ===== C3 helper lemmas =====

theorem list_getLastD_decomp {α : Type} (l : List α) (d : α) (h : l ≠ []) :
    l = l.dropLast ++ [l.getLastD d] := by
  have h2 : l.getLastD d = l.getLast h := by
    rw [List.getLastD_eq_getLast?, List.getLast?_eq_getLast l h]
    rfl
  rw [h2, List.dropLast_append_getLast h]

theorem ErrorQueue.push_not_full (q : ErrorQueue) (e : ErrorEntry)
    (h0 : e.code ≠ 0) (hroom : q.entries.length < q.maxSize) :
    (q.push e).entries = q.entries ++ [e] := by
  unfold ErrorQueue.push
  rw [if_neg (by simpa [error.NO_ERROR] using h0), if_neg (by omega)]

theorem ErrorQueue.pushAll_fill (es : List ErrorEntry) :
    ∀ q : ErrorQueue, (∀ e ∈ es, e.code ≠ 0) →
    q.entries.length + es.length ≤ q.maxSize →
    (q.pushAll es).entries = q.entries ++ es ∧ (q.pushAll es).maxSize = q.maxSize := by
  induction es with
  | nil => intro q _ _; exact ⟨by simp [ErrorQueue.pushAll], rfl⟩
  | cons e rest ih =>
    intro q hcodes hroom
    have he : e.code ≠ 0 := hcodes e (List.mem_cons_self _ _)
    have hlen : q.entries.length < q.maxSize := by
      simp only [List.length_cons] at hroom; omega
    have hstep := ErrorQueue.push_not_full q e he hlen
    have hms := ErrorQueue.push_maxSize q e
    have hfold : ErrorQueue.pushAll q (e :: rest) = ErrorQueue.pushAll (q.push e) rest := rfl
    rw [hfold]
    have hlen2 : (q.push e).entries.length = q.entries.length + 1 := by
      rw [hstep]; simp
    have hrec := ih (q.push e) (fun x hx => hcodes x (List.mem_cons_of_mem _ hx))
      (by rw [hlen2, hms]; simp only [List.length_cons] at hroom; omega)
    rw [hrec.1, hrec.2, hstep, hms]
    simp

theorem ErrorQueue.push_saturated (q : ErrorQueue) (e : ErrorEntry)
    (hfull : q.maxSize ≤ q.entries.length)
    (hlast : (q.entries.getLastD NO_ERROR_ENTRY).code = -350) :
    (q.push e).entries = q.entries ∧ (q.push e).maxSize = q.maxSize := by
  unfold ErrorQueue.push
  by_cases h0 : e.code = error.NO_ERROR
  · rw [if_pos h0]; exact ⟨rfl, rfl⟩
  · rw [if_neg h0, if_pos (by omega)]
    have hguard : ¬(q.entries ≠ [] ∧
        (q.entries.getLastD NO_ERROR_ENTRY).code ≠ error.QUEUE_OVERFLOW) := by
      intro hcontra
      exact hcontra.2 (by rw [hlast]; rfl)
    rw [if_neg hguard]
    exact ⟨rfl, rfl⟩

theorem ErrorQueue.pushAll_saturated (es : List ErrorEntry) :
    ∀ q : ErrorQueue, q.maxSize ≤ q.entries.length →
    (q.entries.getLastD NO_ERROR_ENTRY).code = -350 →
    (q.pushAll es).entries = q.entries ∧ (q.pushAll es).maxSize = q.maxSize := by
  induction es with
  | nil => intro q _ _; exact ⟨rfl, rfl⟩
  | cons e rest ih =>
    intro q hfull hlast
    have hstep := ErrorQueue.push_saturated q e hfull hlast
    have hfold : ErrorQueue.pushAll q (e :: rest) = ErrorQueue.pushAll (q.push e) rest := rfl
    rw [hfold]
    have hrec := ih (q.push e) (by rw [hstep.1, hstep.2]; exact hfull)
      (by rw [hstep.1]; exact hlast)
    rw [hrec.1, hrec.2, hstep.1, hstep.2]
    exact ⟨rfl, rfl⟩

theorem ErrorQueue.popN_take (n : Nat) :
    ∀ q : ErrorQueue, n ≤ q.entries.length →
    (q.popN n).1 = q.entries.take n := by
  induction n with
  | zero => intro q _; simp [ErrorQueue.popN]
  | succ m ih =>
    intro q hn
    match hq : q.entries with
    | [] => rw [hq] at hn; simp at hn
    | y :: ys =>
      have hpop : q.pop = (y, { q with entries := ys }) := by
        unfold ErrorQueue.pop; rw [hq]
      unfold ErrorQueue.popN
      rw [hpop]
      simp only
      rw [ih { q with entries := ys } (by rw [hq] at hn; simpa using hn)]
      simp [hq]

-- ===== C3 =====

/-- **C3 (counterexample).** The claim asserts the −350 overflow tail
for every `N ≥ capacity`; at `N = capacity` exactly (capacity 1, one
pushed error of code −100) the queue is full but no push was dropped,
and the tail entry's code is −100, not −350. -/
theorem c3_counterexample :
    (ErrorQueue.pushAll (ErrorQueue.init 1)
        [{ code := -100, message := str "Command error" }]).count = 1 ∧
    1 ≥ (ErrorQueue.init 1).maxSize ∧
    ¬ ((ErrorQueue.pushAll (ErrorQueue.init 1)
        [{ code := -100, message := str "Command error" }]).entries.getLastD
          NO_ERROR_ENTRY).code = -350 := by
  decide

/-- **C3 (amended).** For every `ErrorQueue` of capacity `c ≥ 1` and
every sequence of `N ≥ c + 1` pushed errors (each with a non-zero
code) — i.e. at least one push beyond capacity, so that a push was
actually dropped — after the pushes the queue count equals `c`, the
tail entry's code is −350 (Queue overflow), and the first `c − 1`
entries popped afterwards are the oldest pushed errors in FIFO
order. -/
theorem c3_amended_overflow (c : Nat) (hc : 1 ≤ c) (es : List ErrorEntry)
    (hcodes : ∀ e ∈ es, e.code ≠ 0) (hN : c + 1 ≤ es.length) :
    (ErrorQueue.pushAll (ErrorQueue.init c) es).count = c ∧
    ((ErrorQueue.pushAll (ErrorQueue.init c) es).entries.getLastD
      NO_ERROR_ENTRY).code = -350 ∧
    ((ErrorQueue.pushAll (ErrorQueue.init c) es).popN (c - 1)).1 =
      es.take (c - 1) := by
  have hms0 : (ErrorQueue.init c).maxSize = c := by
    unfold ErrorQueue.init
    simp only
    rw [if_neg (by omega)]
  have he0 : (ErrorQueue.init c).entries = [] := rfl
  have hsplit : es = es.take c ++ es.drop c := (List.take_append_drop c es).symm
  have hfoldsplit : ErrorQueue.pushAll (ErrorQueue.init c) es =
      ErrorQueue.pushAll (ErrorQueue.pushAll (ErrorQueue.init c) (es.take c)) (es.drop c) := by
    conv_lhs => rw [hsplit]
    unfold ErrorQueue.pushAll
    rw [List.foldl_append]
  have htklen : (es.take c).length = c := by
    rw [List.length_take]; omega
  have hq1 := ErrorQueue.pushAll_fill (es.take c) (ErrorQueue.init c)
    (fun e he => hcodes e (List.mem_of_mem_take he))
    (by rw [he0, hms0, htklen]; simp)
  have hq1e : (ErrorQueue.pushAll (ErrorQueue.init c) (es.take c)).entries = es.take c := by
    rw [hq1.1, he0]; rfl
  have hq1m : (ErrorQueue.pushAll (ErrorQueue.init c) (es.take c)).maxSize = c := by
    rw [hq1.2, hms0]
  set q1 := ErrorQueue.pushAll (ErrorQueue.init c) (es.take c) with hq1def
  match hdrop : es.drop c with
  | [] =>
    exfalso
    have hld := List.length_drop c es
    rw [hdrop] at hld
    simp only [List.length_nil] at hld
    omega
  | e :: es3 =>
    have he : e.code ≠ 0 := by
      apply hcodes
      exact List.mem_of_mem_drop (by rw [hdrop]; exact List.mem_cons_self _ _)
    have htkne : es.take c ≠ [] := by
      intro hcontra
      rw [hcontra] at htklen
      simp at htklen
      omega
    have hdrople : (es.take c).dropLast = es.take (c - 1) := by
      rw [List.dropLast_eq_take, htklen, List.take_take]
      congr 1
      omega
    have hq2 : ∃ t : ErrorEntry, t.code = -350 ∧
        (q1.push e).entries = es.take (c - 1) ++ [t] ∧
        (q1.push e).maxSize = c := by
      unfold ErrorQueue.push
      rw [if_neg (by simpa [error.NO_ERROR] using he),
          if_pos (by rw [hq1e, htklen, hq1m])]
      by_cases hlast : (q1.entries.getLastD NO_ERROR_ENTRY).code = error.QUEUE_OVERFLOW
      · refine ⟨q1.entries.getLastD NO_ERROR_ENTRY,
          by simpa [error.QUEUE_OVERFLOW] using hlast, ?_, ?_⟩
        · rw [if_neg (by intro hcontra; exact hcontra.2 hlast)]
          simp only
          rw [← hdrople, ← hq1e]
          exact list_getLastD_decomp q1.entries NO_ERROR_ENTRY (by rw [hq1e]; exact htkne)
        · rw [hq1m]
      · refine ⟨ErrorQueue.overflowEntry, ErrorQueue.overflowEntry_code, ?_, ?_⟩
        · rw [if_pos ⟨by rw [hq1e]; exact htkne, hlast⟩]
          simp only
          rw [hq1e, hdrople]
        · rw [hq1m]
    obtain ⟨t, ht350, hq2e, hq2m⟩ := hq2
    have htk1len : (es.take (c - 1)).length = c - 1 := by
      rw [List.length_take]; omega
    have hq2len : (q1.push e).entries.length = c := by
      rw [hq2e]
      simp only [List.length_append, List.length_singleton, htk1len]
      omega
    have hq2last : ((q1.push e).entries.getLastD NO_ERROR_ENTRY).code = -350 := by
      rw [hq2e, List.getLastD_concat]; exact ht350
    have hq3 := ErrorQueue.pushAll_saturated es3 (q1.push e)
      (by rw [hq2len, hq2m]) hq2last
    have hfold2 : ErrorQueue.pushAll (ErrorQueue.init c) es =
        ErrorQueue.pushAll (q1.push e) es3 := by
      rw [hfoldsplit, hdrop]
      rfl
    rw [hfold2]
    refine ⟨?_, ?_, ?_⟩
    · unfold ErrorQueue.count
      rw [hq3.1, hq2len]
    · rw [hq3.1, hq2last]
    · rw [ErrorQueue.popN_take (c - 1) _ (by rw [hq3.1, hq2len]; omega)]
      rw [hq3.1, hq2e]
      exact List.take_left' htk1len

/-- Witness for C3 (amended): capacity 2 and three pushed errors. -/
theorem c3_amended_overflow_witness :
    (ErrorQueue.pushAll (ErrorQueue.init 2)
      [{ code := -100, message := str "a" }, { code := -101, message := str "b" },
       { code := -102, message := str "c" }]).count = 2 ∧
    ((ErrorQueue.pushAll (ErrorQueue.init 2)
      [{ code := -100, message := str "a" }, { code := -101, message := str "b" },
       { code := -102, message := str "c" }]).entries.getLastD NO_ERROR_ENTRY).code = -350 ∧
    ((ErrorQueue.pushAll (ErrorQueue.init 2)
      [{ code := -100, message := str "a" }, { code := -101, message := str "b" },
       { code := -102, message := str "c" }]).popN (2 - 1)).1 =
      [{ code := -100, message := str "a" }, { code := -101, message := str "b" },
       { code := -102, message := str "c" }].take (2 - 1) :=
  c3_amended_overflow 2 (by norm_num)
    [{ code := -100, message := str "a" }, { code := -101, message := str "b" },
     { code := -102, message := str "c" }]
    (by decide) (by norm_num)

end Scpi

namespace Scpi

-- ===== C8 =====

/-- **C8 (counterexample).** The claim says `toDoubleOr` falls back to
`toDouble(def)` outside the six listed keywords; but for a parameter
holding the `UP` keyword the code returns `def` itself (3), while
`toDouble(def)` on that parameter is the keyword's canonical double 0. -/
theorem c8_counterexample :
    Parameter.toDoubleOr (Parameter.fromKeyword .UP) (.finite 1) (.finite 2) (.finite 3) =
      .finite 3 ∧
    Parameter.toDouble (Parameter.fromKeyword .UP) (.finite 3) = .finite 0 ∧
    Parameter.toDoubleOr (Parameter.fromKeyword .UP) (.finite 1) (.finite 2) (.finite 3) ≠
      Parameter.toDouble (Parameter.fromKeyword .UP) (.finite 3) := by
  refine ⟨rfl, rfl, ?_⟩
  intro h
  have h3 : (DVal.finite 3 : DVal) = DVal.finite 0 := h
  injection h3 with h4
  norm_num at h4

/-- **C8 (amended).** For every triple `(min, max, def)` and every
`Parameter`: `toDoubleOr(min, max, def)` returns `min`/`max`/`def` for
the MINIMUM/MAXIMUM/DEFAULT keywords, ±∞/NaN for INF/NINF/NAN, `def`
itself for any other keyword (UP, DOWN, or the NONE tag), and
`toDouble(def)` for every non-keyword parameter. -/
theorem c8_amended_to_double_or (p : Parameter) (minVal maxVal defVal : DVal) :
    (p.type = .NUMERIC_KEYWORD →
      (p.keyword = .MINIMUM → p.toDoubleOr minVal maxVal defVal = minVal) ∧
      (p.keyword = .MAXIMUM → p.toDoubleOr minVal maxVal defVal = maxVal) ∧
      (p.keyword = .DEFAULT → p.toDoubleOr minVal maxVal defVal = defVal) ∧
      (p.keyword = .INFINITY_POS → p.toDoubleOr minVal maxVal defVal = .posInf) ∧
      (p.keyword = .INFINITY_NEG → p.toDoubleOr minVal maxVal defVal = .negInf) ∧
      (p.keyword = .NOT_A_NUMBER → p.toDoubleOr minVal maxVal defVal = .nan) ∧
      (p.keyword = .UP ∨ p.keyword = .DOWN ∨ p.keyword = .NONE →
        p.toDoubleOr minVal maxVal defVal = defVal)) ∧
    (p.type ≠ .NUMERIC_KEYWORD →
      p.toDoubleOr minVal maxVal defVal = p.toDouble defVal) := by
  constructor
  · intro htype
    unfold Parameter.toDoubleOr
    rw [if_pos htype]
    refine ⟨?_, ?_, ?_, ?_, ?_, ?_, ?_⟩ <;> intro hk
    · rw [hk]
    · rw [hk]
    · rw [hk]
    · rw [hk]
    · rw [hk]
    · rw [hk]
    · rcases hk with hk | hk | hk <;> rw [hk]
  · intro htype
    unfold Parameter.toDoubleOr
    rw [if_neg htype]

/-- Witness for C8 (amended) at a MINIMUM keyword parameter and a
non-keyword (string) parameter. -/
theorem c8_amended_to_double_or_witness :
    Parameter.toDoubleOr (Parameter.fromKeyword .MINIMUM) (.finite 1) (.finite 2) (.finite 3) =
      .finite 1 ∧
    Parameter.toDoubleOr (Parameter.fromString (str "abc")) (.finite 1) (.finite 2) (.finite 3) =
      Parameter.toDouble (Parameter.fromString (str "abc")) (.finite 3) :=
  ⟨((c8_amended_to_double_or (Parameter.fromKeyword .MINIMUM)
      (.finite 1) (.finite 2) (.finite 3)).1 rfl).1 rfl,
   (c8_amended_to_double_or (Parameter.fromString (str "abc"))
      (.finite 1) (.finite 2) (.finite 3)).2 (by decide)⟩

end Scpi

namespace Scpi

-- ===== C10 =====

/-- **C10.** For every identifier whose contiguous trailing
decimal-digit run denotes a value outside the 32-bit signed integer
range, the numeric-suffix split in both the lexer
(`Lexer::splitNumericSuffix`) and command-node lookup
(`CommandNode::splitNumericSuffix`) treats the identifier as having no
numeric suffix: `has_suffix` is false and the base name is the entire
identifier.  (Digit runs `std::stoll` itself cannot parse — beyond the
64-bit range — are a sub-case of "outside the 32-bit range"; the
functions are total, so no exception escapes and tokenization
continues.) -/
theorem c10_numeric_suffix_overflow (name : Str)
    (hbig : 2147483647 < digitsToNat ((name.reverse.takeWhile isDigit).reverse)) :
    Lexer.splitNumericSuffix name = (name, 0, false) ∧
    CNode.splitNumericSuffix name = (name, 0, false) := by
  have hds : 2147483647 < digitsToNat ((name.reverse.takeWhile isDigit).reverse) := hbig
  constructor
  · unfold Lexer.splitNumericSuffix
    dsimp only
    by_cases h1 : List.length name - ((name.reverse.takeWhile isDigit).reverse).length <
        List.length name ∧
        0 < List.length name - ((name.reverse.takeWhile isDigit).reverse).length
    · rw [if_pos h1, if_pos (by omega)]
    · rw [if_neg h1]
  · unfold CNode.splitNumericSuffix
    dsimp only
    by_cases h1 : List.length name - ((name.reverse.takeWhile isDigit).reverse).length <
        List.length name ∧
        0 < List.length name - ((name.reverse.takeWhile isDigit).reverse).length
    · rw [if_pos h1, if_pos (by omega)]
    · rw [if_neg h1]

/-- Witness for C10 at the identifier `CH4294967296` (suffix value
2^32, beyond `INT32_MAX`). -/
theorem c10_numeric_suffix_overflow_witness :
    Lexer.splitNumericSuffix (str "CH4294967296") = (str "CH4294967296", 0, false) ∧
    CNode.splitNumericSuffix (str "CH4294967296") = (str "CH4294967296", 0, false) :=
  c10_numeric_suffix_overflow (str "CH4294967296") (by decide)

end Scpi


namespace Scpi

-- ===== C6 =====

/-- **C6 (counterexample).** The claim says a numeric string with unit
suffix exactly `MA` parses to prefix mega and **no** base unit; on the
code, `"5MA"` parses to prefix mega with base unit **ampere**
(mega-ampere), not `NONE` — the `upper == "MA"` special case in
`parseUnitSuffix` is unreachable because the prefix/unit split
(`M` + `A`) succeeds first. -/
theorem c6_counterexample :
    (UnitParser.parse (str "5MA")).map (·.unit) = some BaseUnit.AMPERE ∧
    (UnitParser.parse (str "5MA")).map (·.pfx) = some SiPrefix.MEGA ∧
    (UnitParser.parse (str "5MA")).map (·.hasUnit) = some true ∧
    some BaseUnit.AMPERE ≠ some BaseUnit.NONE := by
  exact ⟨rfl, rfl, rfl, by decide⟩

theorem stod_nil : stod ([] : Str) = none := rfl

theorem stod_plus : stod (['+'] : Str) = none := by decide

theorem stod_minus : stod (['-'] : Str) = none := by decide

theorem parseUnitSuffix_MA :
    UnitParser.parseUnitSuffix (str "MA") = (true, SiPrefix.MEGA, BaseUnit.AMPERE) := by
  decide

/-- **C6 (amended).** For every numeric string `numStr` that the
numeric scanner of `UnitParser::parse` consumes exactly (so the unit
suffix is exactly `MA`) and that `stod` parses to `q`, `parse`
succeeds and yields SI prefix mega with base unit **ampere**
(mega-ampere), with scaled value `q · 10^6`. -/
theorem c6_amended_ma_suffix (numStr : Str) (q : ℚ)
    (hscan : UnitParser.scanNumEnd (numStr ++ str "MA") = numStr.length)
    (hstod : stod numStr = some q) :
    UnitParser.parse (numStr ++ str "MA") =
      some { rawValue := q, scaledValue := q * 1000000, pfx := SiPrefix.MEGA,
             unit := BaseUnit.AMPERE, multiplier := 1000000, hasUnit := true } := by
  have hne : numStr ≠ [] := by
    intro h
    rw [h, stod_nil] at hstod
    exact Option.noConfusion hstod
  have hlen1 : 1 ≤ numStr.length := by
    cases numStr with
    | nil => exact absurd rfl hne
    | cons c rest => simp
  have hinputne : ¬(numStr ++ str "MA" = []) := by
    simp [hne]
  have hguard : ¬(numStr.length = 0 ∨ (numStr.length = 1 ∧
      (match numStr ++ str "MA" with
       | c :: _ => c = '+' || c = '-'
       | [] => false) = true)) := by
    rintro (h0 | ⟨h1, hsg⟩)
    · omega
    · obtain ⟨c, rest, hns⟩ : ∃ c rest, numStr = c :: rest := by
        cases numStr with
        | nil => exact absurd rfl hne
        | cons c rest => exact ⟨c, rest, rfl⟩
      rw [hns] at h1
      simp only [List.length_cons] at h1
      have hrest : rest = [] := List.length_eq_zero.mp (by omega)
      rw [hns, hrest] at hsg hstod
      simp only [List.cons_append, List.nil_append] at hsg
      rcases (by simpa using hsg : c = '+' ∨ c = '-') with hc | hc
      · rw [hc, stod_plus] at hstod
        exact Option.noConfusion hstod
      · rw [hc, stod_minus] at hstod
        exact Option.noConfusion hstod
  have hlen2 : (numStr ++ str "MA").length = numStr.length + 2 := by
    simp [str]
  unfold UnitParser.parse
  rw [if_neg hinputne]
  simp only [hscan]
  rw [if_neg hguard]
  rw [List.take_left, hstod]
  simp only
  rw [if_pos (by omega)]
  rw [List.drop_left]
  rw [parseUnitSuffix_MA]
  simp only
  rfl

/-- Witness for C6 (amended) at `numStr = "5"` (the rational `stod`
returns is carried unevaluated; the claim's content is the prefix,
unit and scaling structure). -/
theorem c6_amended_ma_suffix_witness :
    UnitParser.parse (str "5" ++ str "MA") =
      some { rawValue := (stod (str "5")).getD 0,
             scaledValue := (stod (str "5")).getD 0 * 1000000,
             pfx := SiPrefix.MEGA,
             unit := BaseUnit.AMPERE, multiplier := 1000000, hasUnit := true } :=
  c6_amended_ma_suffix (str "5") ((stod (str "5")).getD 0) (by decide) rfl

end Scpi

namespace Scpi

-- ==========================================================================
-- C2: handler binding for trailing optional chains
-- ==========================================================================

theorem children_withChildren {H : Type} (n : CNode H) (cs : List (Str × CNode H)) :
    (CNode.withChildren n cs).children = cs := by
  cases n ; rfl

theorem handler_withChildren {H : Type} (n : CNode H) (cs : List (Str × CNode H)) :
    (CNode.withChildren n cs).handler = n.handler := by
  cases n ; rfl

theorem queryHandler_withChildren {H : Type} (n : CNode H) (cs : List (Str × CNode H)) :
    (CNode.withChildren n cs).queryHandler = n.queryHandler := by
  cases n ; rfl

theorem children_setOptional {H : Type} (n : CNode H) (b : Bool) :
    (CNode.setOptional n b).children = n.children := by
  cases n ; rfl

theorem handler_setOptional {H : Type} (n : CNode H) (b : Bool) :
    (CNode.setOptional n b).handler = n.handler := by
  cases n ; rfl

theorem queryHandler_setOptional {H : Type} (n : CNode H) (b : Bool) :
    (CNode.setOptional n b).queryHandler = n.queryHandler := by
  cases n ; rfl

theorem children_setHandler {H : Type} (n : CNode H) (h : H) :
    (CNode.setHandler n h).children = n.children := by
  cases n ; rfl

theorem handler_setHandler {H : Type} (n : CNode H) (h : H) :
    (CNode.setHandler n h).handler = some h := by
  cases n ; rfl

theorem queryHandler_setHandler {H : Type} (n : CNode H) (h : H) :
    (CNode.setHandler n h).queryHandler = n.queryHandler := by
  cases n ; rfl

theorem children_setQueryHandler {H : Type} (n : CNode H) (h : H) :
    (CNode.setQueryHandler n h).children = n.children := by
  cases n ; rfl

theorem handler_setQueryHandler {H : Type} (n : CNode H) (h : H) :
    (CNode.setQueryHandler n h).handler = n.handler := by
  cases n ; rfl

theorem queryHandler_setQueryHandler {H : Type} (n : CNode H) (h : H) :
    (CNode.setQueryHandler n h).queryHandler = some h := by
  cases n ; rfl

theorem mapFind_insert_self {α : Type} (key : Str) (v : α) (m : List (Str × α)) :
    mapFind key (mapInsert key v m) = some v := by
  induction m with
  | nil => simp [mapInsert, mapFind]
  | cons kv rest ih =>
    obtain ⟨k, w⟩ := kv
    by_cases h1 : key = k
    · simp [mapInsert, h1, mapFind]
    · by_cases h2 : strLt key k = true
      · simp [mapInsert, h1, h2, mapFind]
      · simp [mapInsert, h1, h2, mapFind, Ne.symm h1, ih]

theorem mapFind_insert_ne {α : Type} (q key : Str) (v : α) (m : List (Str × α))
    (hne : q ≠ key) : mapFind q (mapInsert key v m) = mapFind q m := by
  induction m with
  | nil => simp [mapInsert, mapFind, Ne.symm hne]
  | cons kv rest ih =>
    obtain ⟨k, w⟩ := kv
    by_cases h1 : key = k
    · subst h1
      simp [mapInsert, mapFind, Ne.symm hne]
    · by_cases h2 : strLt key k = true
      · simp [mapInsert, h1, h2, mapFind, Ne.symm hne]
      · simp [mapInsert, h1, h2, mapFind, ih]

theorem getNodeAt_isSome_setOptional {H : Type} (c : CNode H) (b : Bool) (ks : List Str) :
    (getNodeAt (CNode.setOptional c b) ks).isSome = (getNodeAt c ks).isSome := by
  cases ks with
  | nil => rfl
  | cons k ks' => simp [getNodeAt, children_setOptional]

theorem slotAt_setOptional {H α : Type} (g : CNode H → α)
    (hgO : ∀ c b, g (CNode.setOptional c b) = g c) (c : CNode H) (b : Bool) (ks : List Str) :
    slotAt g (CNode.setOptional c b) ks = slotAt g c ks := by
  cases ks with
  | nil => simp [slotAt, getNodeAt, hgO]
  | cons k ks' => simp [slotAt, getNodeAt, children_setOptional]

theorem isSome_of_slotAt_eq_some {H α : Type} {g : CNode H → α} {n : CNode H} {ks : List Str}
    {v : α} (h : slotAt g n ks = some v) : (getNodeAt n ks).isSome = true := by
  cases hx : getNodeAt n ks with
  | none => simp [slotAt, hx] at h
  | some m => rfl

theorem isSome_eq_of_slotAt_eq {H α : Type} {g : CNode H → α} {n n' : CNode H}
    {ks ks' : List Str} (h : slotAt g n' ks' = slotAt g n ks) :
    (getNodeAt n' ks').isSome = (getNodeAt n ks).isSome := by
  have h2 := congrArg Option.isSome h
  simpa [slotAt] using h2

theorem slot_components_of_pair {H : Type} {n : CNode H} {ks : List Str}
    (h : slotAt (fun c => (c.handler, c.queryHandler)) n ks = some (none, none)) :
    slotAt CNode.handler n ks = some none ∧ slotAt CNode.queryHandler n ks = some none := by
  cases hx : getNodeAt n ks with
  | none => simp [slotAt, hx] at h
  | some m =>
    simp [slotAt, hx] at h ⊢
    exact h

theorem pathKeys_take_ne {nodes : List PatternNode} {a b : Nat} (ha : a ≤ nodes.length)
    (hb : b ≤ nodes.length) (hab : a ≠ b) :
    pathKeys (nodes.take a) ≠ pathKeys (nodes.take b) := by
  intro h
  have h2 := congrArg List.length h
  simp [pathKeys, List.length_take] at h2
  omega

/-- `ensurePath` leaves every projection invariant under `setOptional` /
`withChildren` unchanged at any existing key path other than its own
(or at every existing path, when the projection is also invariant
under the leaf transformer `f`). -/
theorem slotAt_ensurePathApply_pres {H α : Type} (g : CNode H → α) (f : CNode H → CNode H)
    (hgO : ∀ c b, g (CNode.setOptional c b) = g c)
    (hgW : ∀ c cs, g (CNode.withChildren c cs) = g c)
    (hfC : ∀ c, (f c).children = c.children) (pns : List PatternNode) :
    ∀ (n : CNode H) (ks : List Str),
      ((∀ c, g (f c) = g c) ∨ ks ≠ pathKeys pns) →
      (getNodeAt n ks).isSome = true →
      slotAt g (CommandTree.ensurePathApply n pns f) ks = slotAt g n ks := by
  induction pns with
  | nil =>
    intro n ks hside hex
    cases ks with
    | nil =>
      rcases hside with hgf | hne
      · simp [CommandTree.ensurePathApply, slotAt, getNodeAt, hgf]
      · simp [pathKeys] at hne
    | cons k ks' =>
      simp only [CommandTree.ensurePathApply, slotAt, getNodeAt]
      rw [hfC]
  | cons pn rest ih =>
    intro n ks hside hex
    cases hfind : mapFind (toUpper pn.shortName) n.children with
    | some child =>
      cases ks with
      | nil =>
        simp [CommandTree.ensurePathApply, hfind, slotAt, getNodeAt, hgW]
      | cons q ks' =>
        by_cases hq : q = toUpper pn.shortName
        · subst hq
          have hex' : (getNodeAt child ks').isSome = true := by
            simpa [getNodeAt, hfind] using hex
          have hside' : (∀ c, g (f c) = g c) ∨ ks' ≠ pathKeys rest := by
            rcases hside with hgf | hne
            · exact Or.inl hgf
            · exact Or.inr (fun h => hne (by simp [pathKeys, h]))
          have hchild' : slotAt g (CommandTree.ensurePathApply
              (if pn.isOptional then CNode.setOptional child true else child) rest f) ks'
              = slotAt g child ks' := by
            by_cases hopt : pn.isOptional
            · rw [if_pos hopt,
                ih _ _ hside' (by rw [getNodeAt_isSome_setOptional] ; exact hex'),
                slotAt_setOptional g hgO]
            · rw [if_neg hopt, ih _ _ hside' hex']
          simp only [CommandTree.ensurePathApply, hfind, slotAt, getNodeAt,
            children_withChildren, mapFind_insert_self]
          simp only [slotAt] at hchild'
          rw [hchild']
        · simp only [CommandTree.ensurePathApply, hfind, slotAt, getNodeAt,
            children_withChildren]
          rw [mapFind_insert_ne _ _ _ _ hq]
    | none =>
      cases ks with
      | nil =>
        simp [CommandTree.ensurePathApply, hfind, slotAt, getNodeAt, hgW]
      | cons q ks' =>
        by_cases hq : q = toUpper pn.shortName
        · subst hq
          simp [getNodeAt, hfind] at hex
        · simp only [CommandTree.ensurePathApply, hfind, slotAt, getNodeAt,
            children_withChildren]
          rw [mapFind_insert_ne _ _ _ _ hq]

/-- At its own key path, `ensurePath` composed with a leaf transformer
whose projection is constant sets the projection to that constant. -/
theorem slotAt_ensurePathApply_leaf {H α : Type} (g : CNode H → α) (f : CNode H → CNode H)
    (v : α) (hfg : ∀ c, g (f c) = v) (pns : List PatternNode) :
    ∀ n : CNode H,
      slotAt g (CommandTree.ensurePathApply n pns f) (pathKeys pns) = some v := by
  induction pns with
  | nil =>
    intro n
    simp [CommandTree.ensurePathApply, pathKeys, slotAt, getNodeAt, hfg]
  | cons pn rest ih =>
    intro n
    cases hfind : mapFind (toUpper pn.shortName) n.children with
    | some child =>
      simp only [CommandTree.ensurePathApply, hfind, pathKeys, List.map_cons, slotAt,
        getNodeAt, children_withChildren, mapFind_insert_self]
      simpa only [slotAt, pathKeys] using ih _
    | none =>
      simp only [CommandTree.ensurePathApply, hfind, pathKeys, List.map_cons, slotAt,
        getNodeAt, children_withChildren, mapFind_insert_self]
      simpa only [slotAt, pathKeys] using ih _

/-- Building a chain with `ensurePath` from a handler-free childless
node leaves both handler slots empty at every prefix of the chain. -/
theorem slotAt_ensurePathApply_fresh {H : Type} (pns : List PatternNode) :
    ∀ (n : CNode H), n.handler = none → n.queryHandler = none → n.children = [] →
      ∀ j, j ≤ pns.length →
      slotAt (fun c => (c.handler, c.queryHandler)) (CommandTree.ensurePathApply n pns id)
        (pathKeys (pns.take j)) = some (none, none) := by
  induction pns with
  | nil =>
    intro n h1 h2 _ j hj
    have hz : j = 0 := Nat.le_zero.mp hj
    subst hz
    simp [CommandTree.ensurePathApply, pathKeys, slotAt, getNodeAt, h1, h2]
  | cons pn rest ih =>
    intro n h1 h2 h3 j hj
    have hfind : mapFind (toUpper pn.shortName) n.children = none := by rw [h3] ; rfl
    cases j with
    | zero =>
      simp [CommandTree.ensurePathApply, hfind, pathKeys, slotAt, getNodeAt,
        handler_withChildren, queryHandler_withChildren, h1, h2]
    | succ j' =>
      simp only [List.take_succ_cons, CommandTree.ensurePathApply, hfind, pathKeys,
        List.map_cons, slotAt, getNodeAt, children_withChildren, mapFind_insert_self]
      have hrec := ih ((CNode.node pn.shortName pn.longName pn.getParamDef).setOptional
          pn.isOptional) rfl rfl rfl j' (by simp only [List.length_cons] at hj ; omega)
      simpa only [slotAt, pathKeys] using hrec

/-- Effect of the `setHandlersForOptionalChain` loop on a projection
with constant value `v` under the leaf transformer: after folding the
index list `L`, the slot at prefix length `j` is `v` exactly when the
loop visited index `j ≥ 1`, and is otherwise untouched. -/
theorem foldl_chain_slot {H α : Type} (g : CNode H → α) (fInner : CNode H → CNode H) (v : α)
    (hgO : ∀ c b, g (CNode.setOptional c b) = g c)
    (hgW : ∀ c cs, g (CNode.withChildren c cs) = g c)
    (hfC : ∀ c, (fInner c).children = c.children)
    (hfg : ∀ c, g (fInner c) = v)
    (nodes : List PatternNode) (step : CNode H → Nat → CNode H)
    (hstep : ∀ r i, step r i =
      if 1 ≤ i then CommandTree.ensurePathApply r (nodes.take i) fInner else r) :
    ∀ (L : List Nat), (∀ i ∈ L, i ≤ nodes.length) →
      ∀ (r : CNode H) (j : Nat), j ≤ nodes.length →
      (∀ i, i ≤ nodes.length → (getNodeAt r (pathKeys (nodes.take i))).isSome = true) →
      slotAt g (L.foldl step r) (pathKeys (nodes.take j)) =
        if j ∈ L ∧ 1 ≤ j then some v
        else slotAt g r (pathKeys (nodes.take j)) := by
  intro L
  induction L with
  | nil =>
    intro _ r j hj hex
    simp
  | cons i L' ih =>
    intro hL r j hj hex
    have hiL : i ≤ nodes.length := hL i (List.mem_cons_self i L')
    have hL' : ∀ i' ∈ L', i' ≤ nodes.length := fun i' h => hL i' (List.mem_cons_of_mem _ h)
    rw [List.foldl_cons]
    by_cases hi : 1 ≤ i
    · have hstepi : step r i = CommandTree.ensurePathApply r (nodes.take i) fInner := by
        rw [hstep, if_pos hi]
      have hex' : ∀ i', i' ≤ nodes.length →
          (getNodeAt (step r i) (pathKeys (nodes.take i'))).isSome = true := by
        intro i' hi'
        rw [hstepi]
        by_cases hii : i' = i
        · subst hii
          exact isSome_of_slotAt_eq_some (slotAt_ensurePathApply_leaf g fInner v hfg _ r)
        · have hne := pathKeys_take_ne hi' hiL hii
          rw [isSome_eq_of_slotAt_eq
            (slotAt_ensurePathApply_pres g fInner hgO hgW hfC _ r _ (Or.inr hne)
              (hex i' hi'))]
          exact hex i' hi'
      rw [ih hL' (step r i) j hj hex']
      by_cases hjc : j ∈ L' ∧ 1 ≤ j
      · rw [if_pos hjc, if_pos ⟨List.mem_cons_of_mem _ hjc.1, hjc.2⟩]
      · rw [if_neg hjc]
        by_cases hji : j = i
        · subst hji
          rw [if_pos ⟨List.mem_cons_self j L', hi⟩, hstepi]
          exact slotAt_ensurePathApply_leaf g fInner v hfg _ r
        · have hne := pathKeys_take_ne hj hiL hji
          rw [hstepi,
            slotAt_ensurePathApply_pres g fInner hgO hgW hfC _ r _ (Or.inr hne) (hex j hj),
            if_neg (fun hc => by
              rcases List.mem_cons.mp hc.1 with h | h
              · exact hji h
              · exact hjc ⟨h, hc.2⟩)]
    · have hstepi : step r i = r := by rw [hstep, if_neg hi]
      rw [hstepi, ih hL' r j hj hex]
      by_cases hjc : j ∈ L' ∧ 1 ≤ j
      · rw [if_pos hjc, if_pos ⟨List.mem_cons_of_mem _ hjc.1, hjc.2⟩]
      · rw [if_neg hjc, if_neg (fun hc => by
          rcases List.mem_cons.mp hc.1 with h | h
          · exact hi (h ▸ hc.2)
          · exact hjc ⟨h, hc.2⟩)]

/-- The `setHandlersForOptionalChain` loop leaves every projection
invariant under the leaf transformer unchanged at any existing path. -/
theorem foldl_chain_slot_inv {H α : Type} (g : CNode H → α) (fInner : CNode H → CNode H)
    (hgO : ∀ c b, g (CNode.setOptional c b) = g c)
    (hgW : ∀ c cs, g (CNode.withChildren c cs) = g c)
    (hfC : ∀ c, (fInner c).children = c.children)
    (hgf : ∀ c, g (fInner c) = g c)
    (nodes : List PatternNode) (step : CNode H → Nat → CNode H)
    (hstep : ∀ r i, step r i =
      if 1 ≤ i then CommandTree.ensurePathApply r (nodes.take i) fInner else r) :
    ∀ (L : List Nat) (r : CNode H) (ks : List Str), (getNodeAt r ks).isSome = true →
      slotAt g (L.foldl step r) ks = slotAt g r ks := by
  intro L
  induction L with
  | nil => intro r ks _ ; rfl
  | cons i L' ih =>
    intro r ks hex
    rw [List.foldl_cons]
    have hone : slotAt g (step r i) ks = slotAt g r ks := by
      rw [hstep]
      by_cases hi : 1 ≤ i
      · rw [if_pos hi]
        exact slotAt_ensurePathApply_pres g fInner hgO hgW hfC _ r ks (Or.inl hgf) hex
      · rw [if_neg hi]
    have hex' : (getNodeAt (step r i) ks).isSome = true := by
      rw [isSome_eq_of_slotAt_eq hone]
      exact hex
    rw [ih (step r i) ks hex', hone]

/-- The body of the `setHandlersForOptionalChain` loop skips exactly
the indices `i = 0` (the `nodes[0].isOptional` guard and the empty
sub-path guard both fire only there, on a nonempty node list). -/
theorem optChain_step_eq {H : Type} (hnd : H) (isQuery : Bool) (nodes : List PatternNode)
    (hnn : nodes ≠ []) (fo : Bool) :
    ∀ (acc : CNode H) (i : Nat),
      (if i = 0 ∧ fo = true then acc
       else
        if (nodes.take i).isEmpty = true then acc
        else CommandTree.ensurePathApply acc (nodes.take i)
          (fun n => if isQuery then CNode.setQueryHandler n hnd else CNode.setHandler n hnd)) =
      if 1 ≤ i then
        CommandTree.ensurePathApply acc (nodes.take i)
          (fun n => if isQuery then CNode.setQueryHandler n hnd else CNode.setHandler n hnd)
      else acc := by
  intro acc i
  by_cases hi : 1 ≤ i
  · rw [if_pos hi]
    have hemp : (nodes.take i).isEmpty = false := by
      cases nodes with
      | nil => exact absurd rfl hnn
      | cons a as =>
        cases i with
        | zero => omega
        | succ i' => rfl
    rw [if_neg (by rintro ⟨h0, -⟩ ; omega), if_neg (by simp [hemp])]
  · rw [if_neg hi]
    have hi0 : i = 0 := by omega
    subst hi0
    by_cases hfo : fo = true
    · rw [if_pos ⟨rfl, hfo⟩]
    · rw [if_neg (fun h => hfo h.2),
        if_pos (show (nodes.take 0).isEmpty = true from rfl)]

/-- Slot characterization of `setHandlersForOptionalChain` (with the
`start = optionalStart - 1` lower bound the C++ computes). -/
theorem optChain_slotAt {H α : Type} (g : CNode H → α) (v : α) (hnd : H) (isQuery : Bool)
    (hgO : ∀ c b, g (CNode.setOptional c b) = g c)
    (hgW : ∀ c cs, g (CNode.withChildren c cs) = g c)
    (hfC : ∀ c : CNode H,
      ((fun n => if isQuery then CNode.setQueryHandler n hnd else CNode.setHandler n hnd)
        c).children = c.children)
    (hfg : ∀ c : CNode H,
      g ((fun n => if isQuery then CNode.setQueryHandler n hnd else CNode.setHandler n hnd)
        c) = v)
    (nodes : List PatternNode) (hnn : nodes ≠ []) (optStart : Nat) (r : CNode H)
    (hex : ∀ i, i ≤ nodes.length → (getNodeAt r (pathKeys (nodes.take i))).isSome = true)
    (j : Nat) (hj : j ≤ nodes.length) :
    slotAt g (CommandTree.setHandlersForOptionalChain r nodes optStart hnd isQuery)
        (pathKeys (nodes.take j)) =
      if optStart - 1 ≤ j ∧ 1 ≤ j then some v
      else slotAt g r (pathKeys (nodes.take j)) := by
  have hstart : (if optStart > 0 then optStart - 1 else 0) = optStart - 1 := by
    split <;> omega
  simp only [CommandTree.setHandlersForOptionalChain, hstart]
  refine (foldl_chain_slot g _ v hgO hgW hfC hfg nodes _
    (optChain_step_eq hnd isQuery nodes hnn _) _ ?_ r j hj hex).trans ?_
  · intro i hmem
    have h2 := List.mem_range'_1.mp hmem
    omega
  · refine if_congr ?_ rfl rfl
    constructor
    · rintro ⟨hmem, h1⟩
      exact ⟨(List.mem_range'_1.mp hmem).1, h1⟩
    · rintro ⟨hle, h1⟩
      exact ⟨List.mem_range'_1.mpr ⟨hle, by omega⟩, h1⟩

/-- `setHandlersForOptionalChain` does not change a projection the
leaf transformer leaves invariant, at any existing path. -/
theorem optChain_slotAt_inv {H α : Type} (g : CNode H → α) (hnd : H) (isQuery : Bool)
    (hgO : ∀ c b, g (CNode.setOptional c b) = g c)
    (hgW : ∀ c cs, g (CNode.withChildren c cs) = g c)
    (hfC : ∀ c : CNode H,
      ((fun n => if isQuery then CNode.setQueryHandler n hnd else CNode.setHandler n hnd)
        c).children = c.children)
    (hgf : ∀ c : CNode H,
      g ((fun n => if isQuery then CNode.setQueryHandler n hnd else CNode.setHandler n hnd)
        c) = g c)
    (nodes : List PatternNode) (hnn : nodes ≠ []) (optStart : Nat) (r : CNode H)
    (ks : List Str) (hex : (getNodeAt r ks).isSome = true) :
    slotAt g (CommandTree.setHandlersForOptionalChain r nodes optStart hnd isQuery) ks =
      slotAt g r ks := by
  simp only [CommandTree.setHandlersForOptionalChain]
  exact foldl_chain_slot_inv g _ hgO hgW hfC hgf nodes _
    (optChain_step_eq hnd isQuery nodes hnn _) _ r ks hex

theorem getSetSlotAt_eq_slotAt {H : Type} (n : CNode H) (ks : List Str) :
    getSetSlotAt n ks = slotAt CNode.handler n ks := rfl

theorem getQuerySlotAt_eq_slotAt {H : Type} (n : CNode H) (ks : List Str) :
    getQuerySlotAt n ks = slotAt CNode.queryHandler n ks := rfl

/-- Both handler slots are empty at every prefix of the chain the
first `ensurePath` pass builds from the fresh `CommandTree` root. -/
theorem init_chain_slots {H : Type} (nodes : List PatternNode) :
    (∀ i, i ≤ nodes.length →
      (getNodeAt (CommandTree.ensurePathApply (CommandTree.init (H := H)).root nodes id)
        (pathKeys (nodes.take i))).isSome = true) ∧
    (∀ i, i ≤ nodes.length →
      slotAt CNode.handler
        (CommandTree.ensurePathApply (CommandTree.init (H := H)).root nodes id)
        (pathKeys (nodes.take i)) = some none) ∧
    (∀ i, i ≤ nodes.length →
      slotAt CNode.queryHandler
        (CommandTree.ensurePathApply (CommandTree.init (H := H)).root nodes id)
        (pathKeys (nodes.take i)) = some none) := by
  have hfresh : ∀ i, i ≤ nodes.length →
      slotAt (fun c => (c.handler, c.queryHandler))
        (CommandTree.ensurePathApply (CommandTree.init (H := H)).root nodes id)
        (pathKeys (nodes.take i)) = some (none, none) :=
    fun i hi => slotAt_ensurePathApply_fresh nodes (CommandTree.init (H := H)).root rfl rfl rfl i hi
  exact ⟨fun i hi => isSome_of_slotAt_eq_some (hfresh i hi),
    fun i hi => (slot_components_of_pair (hfresh i hi)).1,
    fun i hi => (slot_components_of_pair (hfresh i hi)).2⟩

/-- Slot characterization of `CommandTree::registerCommand` on a fresh
tree: the set slot at prefix length `j` holds the handler exactly on
the corrected binding set `boundCond`. -/
theorem registerCommandNodes_slot {H : Type} (nodes : List PatternNode) (hset : H)
    (hnn : nodes ≠ []) (j : Nat) (hj : j ≤ nodes.length) :
    getSetSlotAt ((CommandTree.registerCommandNodes CommandTree.init nodes hset).root)
        (pathKeys (nodes.take j)) = some (if boundCond nodes j then some hset else none) := by
  have hnnE : nodes.isEmpty = false := by
    cases nodes with
    | nil => exact absurd rfl hnn
    | cons a as => rfl
  obtain ⟨hex1, hset1, hq1⟩ := init_chain_slots (H := H) nodes
  rw [getSetSlotAt_eq_slotAt]
  by_cases hsl : CommandTree.findTrailingOptionalStart nodes < nodes.length
  · have h1 : (CommandTree.registerCommandNodes (CommandTree.init (H := H)) nodes hset).root
        = CommandTree.setHandlersForOptionalChain
            (CommandTree.ensurePathApply (CommandTree.init (H := H)).root nodes id) nodes
            (CommandTree.findTrailingOptionalStart nodes) hset false := by
      simp [CommandTree.registerCommandNodes, hnnE, hsl]
    rw [h1, optChain_slotAt CNode.handler (some hset) hset false
      (fun c b => handler_setOptional c b) (fun c cs => handler_withChildren c cs)
      (fun c => by simp [children_setHandler])
      (fun c => by simp [handler_setHandler])
      nodes hnn (CommandTree.findTrailingOptionalStart nodes) _ hex1 j hj]
    have hbc : boundCond nodes j
        = decide (1 ≤ j ∧ CommandTree.findTrailingOptionalStart nodes - 1 ≤ j) := by
      simp only [boundCond]
      rw [if_pos hsl]
    by_cases hcond : CommandTree.findTrailingOptionalStart nodes - 1 ≤ j ∧ 1 ≤ j
    · rw [if_pos hcond, if_pos (by rw [hbc] ; exact decide_eq_true ⟨hcond.2, hcond.1⟩)]
    · rw [if_neg hcond, hset1 j hj,
        if_neg (by rw [hbc] ; simp only [decide_eq_true_eq] ; exact fun h => hcond ⟨h.2, h.1⟩)]
  · have h1 : (CommandTree.registerCommandNodes (CommandTree.init (H := H)) nodes hset).root
        = CommandTree.ensurePathApply
            (CommandTree.ensurePathApply (CommandTree.init (H := H)).root nodes id) nodes
            (fun n => CNode.setHandler n hset) := by
      simp [CommandTree.registerCommandNodes, hnnE, hsl]
    have hbc : boundCond nodes j = decide (j = nodes.length) := by
      simp only [boundCond]
      rw [if_neg hsl]
    rw [h1]
    by_cases hjl : j = nodes.length
    · subst hjl
      rw [List.take_length,
        slotAt_ensurePathApply_leaf CNode.handler _ (some hset)
          (fun c => handler_setHandler c hset) nodes _,
        if_pos (by rw [hbc] ; exact decide_eq_true rfl)]
    · have hne : pathKeys (nodes.take j) ≠ pathKeys nodes := by
        have h2 := pathKeys_take_ne hj (Nat.le_refl nodes.length) hjl
        rwa [List.take_length] at h2
      rw [slotAt_ensurePathApply_pres CNode.handler _
          (fun c b => handler_setOptional c b) (fun c cs => handler_withChildren c cs)
          (fun c => children_setHandler c hset) nodes _ _ (Or.inr hne) (hex1 j hj),
        hset1 j hj,
        if_neg (by rw [hbc] ; simp only [decide_eq_true_eq] ; exact hjl)]

/-- Slot characterization of `CommandTree::registerQuery` on a fresh
tree: the query slot at prefix length `j` holds the handler exactly on
the corrected binding set `boundCond`. -/
theorem registerQueryNodes_slot {H : Type} (nodes : List PatternNode) (hq : H)
    (hnn : nodes ≠ []) (j : Nat) (hj : j ≤ nodes.length) :
    getQuerySlotAt ((CommandTree.registerQueryNodes CommandTree.init nodes hq).root)
        (pathKeys (nodes.take j)) = some (if boundCond nodes j then some hq else none) := by
  have hnnE : nodes.isEmpty = false := by
    cases nodes with
    | nil => exact absurd rfl hnn
    | cons a as => rfl
  obtain ⟨hex1, hset1, hq1⟩ := init_chain_slots (H := H) nodes
  rw [getQuerySlotAt_eq_slotAt]
  by_cases hsl : CommandTree.findTrailingOptionalStart nodes < nodes.length
  · have h1 : (CommandTree.registerQueryNodes (CommandTree.init (H := H)) nodes hq).root
        = CommandTree.setHandlersForOptionalChain
            (CommandTree.ensurePathApply (CommandTree.init (H := H)).root nodes id) nodes
            (CommandTree.findTrailingOptionalStart nodes) hq true := by
      simp [CommandTree.registerQueryNodes, hnnE, hsl]
    rw [h1, optChain_slotAt CNode.queryHandler (some hq) hq true
      (fun c b => queryHandler_setOptional c b) (fun c cs => queryHandler_withChildren c cs)
      (fun c => by simp [children_setQueryHandler])
      (fun c => by simp [queryHandler_setQueryHandler])
      nodes hnn (CommandTree.findTrailingOptionalStart nodes) _ hex1 j hj]
    have hbc : boundCond nodes j
        = decide (1 ≤ j ∧ CommandTree.findTrailingOptionalStart nodes - 1 ≤ j) := by
      simp only [boundCond]
      rw [if_pos hsl]
    by_cases hcond : CommandTree.findTrailingOptionalStart nodes - 1 ≤ j ∧ 1 ≤ j
    · rw [if_pos hcond, if_pos (by rw [hbc] ; exact decide_eq_true ⟨hcond.2, hcond.1⟩)]
    · rw [if_neg hcond, hq1 j hj,
        if_neg (by rw [hbc] ; simp only [decide_eq_true_eq] ; exact fun h => hcond ⟨h.2, h.1⟩)]
  · have h1 : (CommandTree.registerQueryNodes (CommandTree.init (H := H)) nodes hq).root
        = CommandTree.ensurePathApply
            (CommandTree.ensurePathApply (CommandTree.init (H := H)).root nodes id) nodes
            (fun n => CNode.setQueryHandler n hq) := by
      simp [CommandTree.registerQueryNodes, hnnE, hsl]
    have hbc : boundCond nodes j = decide (j = nodes.length) := by
      simp only [boundCond]
      rw [if_neg hsl]
    rw [h1]
    by_cases hjl : j = nodes.length
    · subst hjl
      rw [List.take_length,
        slotAt_ensurePathApply_leaf CNode.queryHandler _ (some hq)
          (fun c => queryHandler_setQueryHandler c hq) nodes _,
        if_pos (by rw [hbc] ; exact decide_eq_true rfl)]
    · have hne : pathKeys (nodes.take j) ≠ pathKeys nodes := by
        have h2 := pathKeys_take_ne hj (Nat.le_refl nodes.length) hjl
        rwa [List.take_length] at h2
      rw [slotAt_ensurePathApply_pres CNode.queryHandler _
          (fun c b => queryHandler_setOptional c b)
          (fun c cs => queryHandler_withChildren c cs)
          (fun c => children_setQueryHandler c hq) nodes _ _ (Or.inr hne) (hex1 j hj),
        hq1 j hj,
        if_neg (by rw [hbc] ; simp only [decide_eq_true_eq] ; exact hjl)]

/-- Slot characterization of `CommandTree::registerBoth` on a fresh
tree: set and query slots at prefix length `j` hold the respective
handlers exactly on the corrected binding set `boundCond`. -/
theorem registerBothNodes_slot {H : Type} (nodes : List PatternNode) (hset hq : H)
    (hnn : nodes ≠ []) (j : Nat) (hj : j ≤ nodes.length) :
    getSetSlotAt ((CommandTree.registerBothNodes CommandTree.init nodes hset hq).root)
        (pathKeys (nodes.take j)) = some (if boundCond nodes j then some hset else none) ∧
    getQuerySlotAt ((CommandTree.registerBothNodes CommandTree.init nodes hset hq).root)
        (pathKeys (nodes.take j)) = some (if boundCond nodes j then some hq else none) := by
  have hnnE : nodes.isEmpty = false := by
    cases nodes with
    | nil => exact absurd rfl hnn
    | cons a as => rfl
  obtain ⟨hex1, hset1, hq1⟩ := init_chain_slots (H := H) nodes
  rw [getSetSlotAt_eq_slotAt, getQuerySlotAt_eq_slotAt]
  by_cases hsl : CommandTree.findTrailingOptionalStart nodes < nodes.length
  · have h1 : (CommandTree.registerBothNodes (CommandTree.init (H := H)) nodes hset hq).root
        = CommandTree.setHandlersForOptionalChain
            (CommandTree.setHandlersForOptionalChain
              (CommandTree.ensurePathApply (CommandTree.init (H := H)).root nodes id) nodes
              (CommandTree.findTrailingOptionalStart nodes) hset false) nodes
            (CommandTree.findTrailingOptionalStart nodes) hq true := by
      simp [CommandTree.registerBothNodes, hnnE, hsl]
    have hbc : boundCond nodes j
        = decide (1 ≤ j ∧ CommandTree.findTrailingOptionalStart nodes - 1 ≤ j) := by
      simp only [boundCond]
      rw [if_pos hsl]
    have hsetpass : ∀ i, i ≤ nodes.length →
        slotAt CNode.handler
          (CommandTree.setHandlersForOptionalChain
            (CommandTree.ensurePathApply (CommandTree.init (H := H)).root nodes id) nodes
            (CommandTree.findTrailingOptionalStart nodes) hset false)
          (pathKeys (nodes.take i)) =
        if CommandTree.findTrailingOptionalStart nodes - 1 ≤ i ∧ 1 ≤ i then some (some hset)
        else some none := by
      intro i hi
      rw [optChain_slotAt CNode.handler (some hset) hset false
        (fun c b => handler_setOptional c b) (fun c cs => handler_withChildren c cs)
        (fun c => by simp [children_setHandler])
        (fun c => by simp [handler_setHandler])
        nodes hnn (CommandTree.findTrailingOptionalStart nodes) _ hex1 i hi,
        hset1 i hi]
    have hqpass : ∀ i, i ≤ nodes.length →
        slotAt CNode.queryHandler
          (CommandTree.setHandlersForOptionalChain
            (CommandTree.ensurePathApply (CommandTree.init (H := H)).root nodes id) nodes
            (CommandTree.findTrailingOptionalStart nodes) hset false)
          (pathKeys (nodes.take i)) = some none := by
      intro i hi
      rw [optChain_slotAt_inv CNode.queryHandler hset false
        (fun c b => queryHandler_setOptional c b)
        (fun c cs => queryHandler_withChildren c cs)
        (fun c => by simp [children_setHandler])
        (fun c => by simp [queryHandler_setHandler])
        nodes hnn (CommandTree.findTrailingOptionalStart nodes) _ _ (hex1 i hi)]
      exact hq1 i hi
    have hex2 : ∀ i, i ≤ nodes.length →
        (getNodeAt (CommandTree.setHandlersForOptionalChain
            (CommandTree.ensurePathApply (CommandTree.init (H := H)).root nodes id) nodes
            (CommandTree.findTrailingOptionalStart nodes) hset false)
          (pathKeys (nodes.take i))).isSome = true := by
      intro i hi
      by_cases hcond : CommandTree.findTrailingOptionalStart nodes - 1 ≤ i ∧ 1 ≤ i
      · exact isSome_of_slotAt_eq_some ((hsetpass i hi).trans (if_pos hcond))
      · exact isSome_of_slotAt_eq_some ((hsetpass i hi).trans (if_neg hcond))
    constructor
    · rw [h1, optChain_slotAt_inv CNode.handler hq true
        (fun c b => handler_setOptional c b) (fun c cs => handler_withChildren c cs)
        (fun c => by simp [children_setQueryHandler])
        (fun c => by simp [handler_setQueryHandler])
        nodes hnn (CommandTree.findTrailingOptionalStart nodes) _ _ (hex2 j hj),
        hsetpass j hj]
      by_cases hcond : CommandTree.findTrailingOptionalStart nodes - 1 ≤ j ∧ 1 ≤ j
      · rw [if_pos hcond, if_pos (by rw [hbc] ; exact decide_eq_true ⟨hcond.2, hcond.1⟩)]
      · rw [if_neg hcond,
          if_neg (by rw [hbc] ; simp only [decide_eq_true_eq] ;
                     exact fun h => hcond ⟨h.2, h.1⟩)]
    · rw [h1, optChain_slotAt CNode.queryHandler (some hq) hq true
        (fun c b => queryHandler_setOptional c b)
        (fun c cs => queryHandler_withChildren c cs)
        (fun c => by simp [children_setQueryHandler])
        (fun c => by simp [queryHandler_setQueryHandler])
        nodes hnn (CommandTree.findTrailingOptionalStart nodes) _ hex2 j hj]
      by_cases hcond : CommandTree.findTrailingOptionalStart nodes - 1 ≤ j ∧ 1 ≤ j
      · rw [if_pos hcond, if_pos (by rw [hbc] ; exact decide_eq_true ⟨hcond.2, hcond.1⟩)]
      · rw [if_neg hcond, hqpass j hj,
          if_neg (by rw [hbc] ; simp only [decide_eq_true_eq] ;
                     exact fun h => hcond ⟨h.2, h.1⟩)]
  · have h1 : (CommandTree.registerBothNodes (CommandTree.init (H := H)) nodes hset hq).root
        = CommandTree.ensurePathApply
            (CommandTree.ensurePathApply (CommandTree.init (H := H)).root nodes id) nodes
            (fun n => CNode.setQueryHandler (CNode.setHandler n hset) hq) := by
      simp [CommandTree.registerBothNodes, hnnE, hsl]
    have hbc : boundCond nodes j = decide (j = nodes.length) := by
      simp only [boundCond]
      rw [if_neg hsl]
    rw [h1]
    by_cases hjl : j = nodes.length
    · subst hjl
      rw [List.take_length,
        slotAt_ensurePathApply_leaf CNode.handler _ (some hset)
          (fun c => by simp [handler_setQueryHandler, handler_setHandler]) nodes _,
        slotAt_ensurePathApply_leaf CNode.queryHandler _ (some hq)
          (fun c => queryHandler_setQueryHandler _ hq) nodes _,
        if_pos (by rw [hbc] ; exact decide_eq_true rfl),
        if_pos (by rw [hbc] ; exact decide_eq_true rfl)]
      exact ⟨rfl, rfl⟩
    · have hne : pathKeys (nodes.take j) ≠ pathKeys nodes := by
        have h2 := pathKeys_take_ne hj (Nat.le_refl nodes.length) hjl
        rwa [List.take_length] at h2
      rw [slotAt_ensurePathApply_pres CNode.handler _
          (fun c b => handler_setOptional c b) (fun c cs => handler_withChildren c cs)
          (fun c => by simp [children_setQueryHandler, children_setHandler])
          nodes _ _ (Or.inr hne) (hex1 j hj),
        slotAt_ensurePathApply_pres CNode.queryHandler _
          (fun c b => queryHandler_setOptional c b)
          (fun c cs => queryHandler_withChildren c cs)
          (fun c => by simp [children_setQueryHandler, children_setHandler])
          nodes _ _ (Or.inr hne) (hex1 j hj),
        hset1 j hj, hq1 j hj,
        if_neg (by rw [hbc] ; simp only [decide_eq_true_eq] ; exact hjl),
        if_neg (by rw [hbc] ; simp only [decide_eq_true_eq] ; exact hjl)]
      exact ⟨rfl, rfl⟩

/-- **C2 counterexample.** For the pattern `MEASure:VOLTage[:DC]` the
trailing optional run starts at `s = 2` of `k = 3` nodes, so the claim
says the set handler is bound only at prefix lengths 2 and 3 and at
"no shorter prefix"; but `registerCommand` on a fresh tree also binds
it at the length-1 prefix `MEAS`, because the C++ loop starts at
`optionalStart - 1 = 1`. -/
theorem c2_counterexample :
    CommandTree.findTrailingOptionalStart c2nodes = 2 ∧ 2 < c2nodes.length ∧
    getSetSlotAt
      ((CommandTree.registerCommandNodes (CommandTree.init (H := Nat)) c2nodes 7).root)
      (pathKeys (c2nodes.take 1)) = some (some 7) := by
  decide

/-- **C2** (amended). For every nonempty parsed node list and every
prefix length `j ≤ k`: `registerCommand`, `registerQuery` and
`registerBoth` on a fresh tree bind their handlers (set slot, query
slot, and both, respectively) at exactly the prefix lengths `j` with
`max 1 (s-1) ≤ j ≤ k` when a trailing optional run starts at `s < k`
— one node EARLIER than the last non-optional node, when `s ≥ 2` —
and at exactly the leaf `j = k` when there is no trailing optional
run; all other prefixes keep an empty slot (`boundCond` states the
corrected binding set). -/
theorem c2_amended_optional_chain_binding {H : Type} (nodes : List PatternNode)
    (hset hq : H) (j : Nat) (hnn : nodes ≠ []) (hj : j ≤ nodes.length) :
    (getSetSlotAt ((CommandTree.registerCommandNodes CommandTree.init nodes hset).root)
        (pathKeys (nodes.take j)) = some (if boundCond nodes j then some hset else none)) ∧
    (getQuerySlotAt ((CommandTree.registerQueryNodes CommandTree.init nodes hq).root)
        (pathKeys (nodes.take j)) = some (if boundCond nodes j then some hq else none)) ∧
    (getSetSlotAt ((CommandTree.registerBothNodes CommandTree.init nodes hset hq).root)
        (pathKeys (nodes.take j)) = some (if boundCond nodes j then some hset else none)) ∧
    (getQuerySlotAt ((CommandTree.registerBothNodes CommandTree.init nodes hset hq).root)
        (pathKeys (nodes.take j)) = some (if boundCond nodes j then some hq else none)) :=
  ⟨registerCommandNodes_slot nodes hset hnn j hj,
   registerQueryNodes_slot nodes hq hnn j hj,
   (registerBothNodes_slot nodes hset hq hnn j hj).1,
   (registerBothNodes_slot nodes hset hq hnn j hj).2⟩

/-- Witness for C2 (amended) on the `MEASure:VOLTage[:DC]` node list
at prefix length 1 (inside the corrected binding set, outside the
claimed one). -/
theorem c2_amended_optional_chain_binding_witness :
    c2nodes ≠ [] ∧ 1 ≤ c2nodes.length ∧
    getSetSlotAt ((CommandTree.registerCommandNodes (CommandTree.init (H := Nat)) c2nodes 5).root)
        (pathKeys (c2nodes.take 1)) = some (if boundCond c2nodes 1 then some 5 else none) ∧
    getQuerySlotAt ((CommandTree.registerQueryNodes (CommandTree.init (H := Nat)) c2nodes 9).root)
        (pathKeys (c2nodes.take 1)) = some (if boundCond c2nodes 1 then some 9 else none) :=
  ⟨by decide, by decide,
   (c2_amended_optional_chain_binding c2nodes 5 9 1 (by decide) (by decide)).1,
   (c2_amended_optional_chain_binding c2nodes 5 9 1 (by decide) (by decide)).2.1⟩

-- ==========================================================================
-- C4: path-context update after resolve
-- ==========================================================================

/-- A successful ε-move loop returns the result of one of its
recursive calls. -/
theorem epsLoop_true_ex {H : Type}
    (rec : CNode H → List Str → List (NodePtr H) → List StateKey → ResolveResult H →
      Bool × ResolveResult H × List StateKey)
    (parentPos : List Str) (matchedPath : List (NodePtr H)) :
    ∀ (children : List (Str × CNode H)) (vis : List StateKey) (out : ResolveResult H)
      (out' : ResolveResult H) (vis' : List StateKey),
      epsLoop rec parentPos matchedPath children vis out = (true, out', vis') →
      ∃ child childPos mp vis0 out0,
        rec child childPos mp vis0 out0 = (true, out', vis') := by
  intro children
  induction children with
  | nil =>
    intro vis out out' vis' h
    simp [epsLoop] at h
  | cons kv rest ih =>
    obtain ⟨key, child⟩ := kv
    intro vis out out' vis' h
    simp only [epsLoop] at h
    by_cases hopt : child.isOptional = true
    · rw [if_neg (by simp [hopt])] at h
      rcases hrec : rec child (parentPos ++ [key])
          (matchedPath ++ [(child, parentPos ++ [key])]) vis out with ⟨b, o1, v1⟩
      rw [hrec] at h
      dsimp only at h
      cases b with
      | true =>
        simp only [if_pos] at h
        rcases Prod.mk.injEq .. ▸ h with ⟨-, h2⟩
        rcases Prod.mk.injEq .. ▸ h2 with ⟨h3, h4⟩
        exact ⟨child, parentPos ++ [key], matchedPath ++ [(child, parentPos ++ [key])],
          vis, out, by rw [hrec, h3, h4]⟩
      | false =>
        simp only [Bool.false_eq_true, if_false] at h
        exact ih v1 o1 out' vis' h
    · rw [if_pos (by simp [Bool.not_eq_true] at hopt ; simp [hopt])] at h
      exact ih vis out out' vis' h

/-- A successful `dfsResolve` consumes exactly the remaining input
path: its result's `consumedPath` length is the accumulated length
plus `path.length - index`. -/
theorem dfsResolve_consumed_length {H : Type} :
    ∀ (fuel : Nat) (current : CNode H) (curPos : List Str) (path : List PathNode)
      (index : Nat) (np : NodeParamValues) (mp cp : List (NodePtr H))
      (vis : List StateKey) (out : ResolveResult H) (out' : ResolveResult H)
      (vis' : List StateKey),
      dfsResolve fuel current curPos path index np mp cp vis out = (true, out', vis') →
      out'.consumedPath.length = cp.length + (path.length - index) := by
  intro fuel
  induction fuel with
  | zero =>
    intro current curPos path index np mp cp vis out out' vis' h
    simp [dfsResolve] at h
  | succ fuel ih =>
    intro current curPos path index np mp cp vis out out' vis' h
    simp only [dfsResolve] at h
    split at h
    · simp at h
    · split at h
      · rename_i hidx
        simp only [Prod.mk.injEq, true_and] at h
        rw [← h.1]
        simp
        omega
      · rename_i hidx
        generalize hE : epsLoop
            (fun child childPos mp1 vis1 o1 =>
              dfsResolve fuel child childPos path index np mp1 cp vis1 o1)
            curPos mp current.children ((curPos, index) :: vis) out = eres at h
        obtain ⟨ok1, o2, v2⟩ := eres
        dsimp only at h
        cases ok1 with
        | true =>
          simp only [if_true, Prod.mk.injEq, true_and] at h
          rw [h.1, h.2] at hE
          obtain ⟨child, childPos, mp0, vis0, out0, hrec⟩ :=
            epsLoop_true_ex _ _ _ _ _ _ _ _ hE
          exact ih _ _ _ _ _ _ _ _ _ _ _ hrec
        | false =>
          simp only [Bool.false_eq_true, if_false] at h
          cases hfc : CNode.findChild current (path.getD index { name := [] }).name
              (path.getD index { name := [] }).suffix
              (path.getD index { name := [] }).hasSuffix with
          | none =>
            rw [hfc] at h
            simp at h
          | some found =>
            rw [hfc] at h
            dsimp only at h
            generalize hNP : (if found.2.1.hasParam = true then
                np ++ [{ paramName := found.2.1.paramName
                       , nodeShortName := found.2.1.shortName
                       , nodeLongName := found.2.1.longName
                       , value := found.2.2 }]
              else np) = np2 at h
            generalize hS : dfsResolve fuel found.2.1 (curPos ++ [found.1]) path
                (index + 1) np2 (mp ++ [(found.2.1, curPos ++ [found.1])])
                (cp ++ [(found.2.1, curPos ++ [found.1])]) v2 o2 = sres at h
            obtain ⟨oks, o3, v3⟩ := sres
            dsimp only at h
            cases oks with
            | true =>
              simp only [if_true, Prod.mk.injEq, true_and] at h
              have hlen := ih _ _ _ _ _ _ _ _ _ _ _ hS
              rw [h.1] at hlen
              simp only [List.length_append, List.length_cons, List.length_nil] at hlen
              omega
            | false =>
              simp at h

/-- The ε-move loop never touches the `success` field of the output
slot (given that its recursive calls do not). -/
theorem epsLoop_success_field {H : Type}
    (rec : CNode H → List Str → List (NodePtr H) → List StateKey → ResolveResult H →
      Bool × ResolveResult H × List StateKey)
    (hrec : ∀ c p m v o, ((rec c p m v o).2.1).success = o.success)
    (parentPos : List Str) (matchedPath : List (NodePtr H)) :
    ∀ (children : List (Str × CNode H)) (vis : List StateKey) (out : ResolveResult H),
      ((epsLoop rec parentPos matchedPath children vis out).2.1).success = out.success := by
  intro children
  induction children with
  | nil => intro vis out ; rfl
  | cons kv rest ih =>
    obtain ⟨key, child⟩ := kv
    intro vis out
    simp only [epsLoop]
    split
    · exact ih vis out
    · split
      · exact hrec _ _ _ _ _
      · exact (ih _ _).trans (hrec _ _ _ _ _)

/-- `dfsResolve` never touches the `success` field of the output slot
(`resolve` sets it afterwards, from the returned flag). -/
theorem dfsResolve_success_field {H : Type} :
    ∀ (fuel : Nat) (current : CNode H) (curPos : List Str) (path : List PathNode)
      (index : Nat) (np : NodeParamValues) (mp cp : List (NodePtr H))
      (vis : List StateKey) (out : ResolveResult H),
      ((dfsResolve fuel current curPos path index np mp cp vis out).2.1).success
        = out.success := by
  intro fuel
  induction fuel with
  | zero => intro current curPos path index np mp cp vis out ; rfl
  | succ fuel ih =>
    intro current curPos path index np mp cp vis out
    simp only [dfsResolve]
    split
    · rfl
    · split
      · rfl
      · have hE := epsLoop_success_field
          (fun child childPos mp1 vis1 o1 =>
            dfsResolve fuel child childPos path index np mp1 cp vis1 o1)
          (fun c p m v o => ih c p path index np m cp v o)
          curPos mp current.children ((curPos, index) :: vis) out
        split
        · exact hE
        · split
          · split <;> split <;> exact (ih _ _ _ _ _ _ _ _ _).trans hE
          · exact hE

/-- A successful non-common `resolve` consumes exactly the command's
(nonempty) header path. -/
theorem resolve_success_consumed {H : Type} (tree : CommandTree H) (cmd : ParsedCommand)
    (ctxNode : Option (NodePtr H)) (hnc : cmd.isCommon = false)
    (hs : (resolve tree cmd ctxNode).success = true) :
    (resolve tree cmd ctxNode).consumedPath.length = cmd.path.length ∧
      1 ≤ cmd.path.length := by
  by_cases hemp : cmd.path.isEmpty = true
  · exfalso
    simp [resolve, hemp] at hs
  · have hlen : 1 ≤ cmd.path.length := by
      cases hp : cmd.path with
      | nil => rw [hp] at hemp ; exact absurd rfl hemp
      | cons a as => simp [hp]
    refine ⟨?_, hlen⟩
    simp only [resolve, hemp, hnc, Bool.false_eq_true, if_false] at hs ⊢
    generalize hP : (if cmd.isAbsolute = true then (tree.root, ([] : List Str))
        else ctxNode.getD (tree.root, [])) = sp0 at hs ⊢
    obtain ⟨X0, Y0⟩ := sp0
    generalize hD : dfsResolve (MAX_RESOLVE_DEPTH + 1) X0 Y0 cmd.path 0 [] [] [] [] {}
        = dres at hs ⊢
    obtain ⟨okd, rr0, visd⟩ := dres
    dsimp only at hs ⊢
    cases okd with
    | false =>
      exfalso
      have hsf : rr0.success = false := by
        have h2 := dfsResolve_success_field (H := H) (MAX_RESOLVE_DEPTH + 1) X0 Y0
          cmd.path 0 [] [] [] [] {}
        rw [hD] at h2
        exact h2
      simp only [Bool.not_false, if_true] at hs
      split at hs
      · have h3 : rr0.success = true := hs
        rw [hsf] at h3
        exact Bool.noConfusion h3
      · rw [hsf] at hs
        exact Bool.noConfusion hs
    | true =>
      have h2 := dfsResolve_consumed_length (H := H) (MAX_RESOLVE_DEPTH + 1) X0 Y0
        cmd.path 0 [] [] [] [] {} rr0 visd hD
      simp only [Bool.not_true, Bool.false_eq_true, if_false]
      simp only [List.length_nil, Nat.zero_add, Nat.sub_zero] at h2
      exact h2

/-- The path-context component of one `executeAll` loop iteration:
unchanged on a failed resolve, `updatePathContextAfterResolve`
otherwise. -/
theorem executeAllStep_pc (tree : CommandTree Handler) (ctx : Ctx)
    (pc : Option (NodePtr Handler)) (lastRc : Int) (cmd : ParsedCommand) :
    (Parser.executeAllStep tree (ctx, pc, lastRc) cmd).2.1 =
      if (resolve tree cmd pc).success = true
      then Parser.updatePathContextAfterResolve pc cmd (resolve tree cmd pc)
      else pc := by
  simp only [Parser.executeAllStep]
  cases hs : (resolve tree cmd pc).success with
  | false => simp [hs]
  | true => simp [hs]

/-- **C4.** For every command processed by the `Parser::executeAll`
loop (splitter-produced commands never have `isCommon` and
`isAbsolute` both set): a failed resolve leaves the path context
unchanged; a successful resolve with `consumedPath` length ≥ 2 sets it
to the penultimate consumed node; length 1 sets it to root (`none`)
when the resolve started at root (absolute command or empty prior
context) and keeps the start node otherwise; length 0 (a common
command) leaves it unchanged. -/
theorem c4_path_context_update (tree : CommandTree Handler) (ctx : Ctx)
    (pc : Option (NodePtr Handler)) (lastRc : Int) (cmd : ParsedCommand)
    (hflags : cmd.isCommon = true → cmd.isAbsolute = false) :
    ((resolve tree cmd pc).success = false →
      (Parser.executeAllStep tree (ctx, pc, lastRc) cmd).2.1 = pc) ∧
    ((resolve tree cmd pc).success = true →
      2 ≤ (resolve tree cmd pc).consumedPath.length →
      (Parser.executeAllStep tree (ctx, pc, lastRc) cmd).2.1 =
        (resolve tree cmd pc).consumedPath.get?
          ((resolve tree cmd pc).consumedPath.length - 2)) ∧
    ((resolve tree cmd pc).success = true →
      (resolve tree cmd pc).consumedPath.length = 1 →
      (Parser.executeAllStep tree (ctx, pc, lastRc) cmd).2.1 =
        (if cmd.isAbsolute || pc.isNone then none else pc)) ∧
    ((resolve tree cmd pc).success = true →
      (resolve tree cmd pc).consumedPath.length = 0 →
      (Parser.executeAllStep tree (ctx, pc, lastRc) cmd).2.1 = pc) := by
  refine ⟨?_, ?_, ?_, ?_⟩
  · intro hf
    rw [executeAllStep_pc, if_neg (by simp [hf])]
  · intro hs h2
    rw [executeAllStep_pc, if_pos hs]
    simp only [Parser.updatePathContextAfterResolve]
    rw [if_pos h2]
  · intro hs h1
    rw [executeAllStep_pc, if_pos hs]
    simp only [Parser.updatePathContextAfterResolve]
    rw [if_neg (by omega), if_pos h1]
  · intro hs h0
    rw [executeAllStep_pc, if_pos hs]
    simp only [Parser.updatePathContextAfterResolve]
    rw [if_neg (by omega), if_neg (by omega)]
    by_cases hcom : cmd.isCommon = true
    · have habs := hflags hcom
      cases pc with
      | none => simp [habs]
      | some x => simp [habs]
    · exfalso
      have hnc : cmd.isCommon = false := by
        cases hcm2 : cmd.isCommon with
        | false => rfl
        | true => exact absurd hcm2 hcom
      obtain ⟨ha, hb⟩ := resolve_success_consumed tree cmd pc hnc hs
      omega

/-- Witness for C4: in `c4tree`, the unresolvable `BAR` leaves the
(empty) path context unchanged, and the length-1 relative `FOO`
resolves and puts the context at root. -/
theorem c4_path_context_update_witness :
    ((resolve c4tree c4cmdBar none).success = false ∧
      (Parser.executeAllStep c4tree ({}, none, 0) c4cmdBar).2.1 = none) ∧
    ((resolve c4tree c4cmdFoo none).success = true ∧
      (resolve c4tree c4cmdFoo none).consumedPath.length = 1 ∧
      (Parser.executeAllStep c4tree ({}, none, 0) c4cmdFoo).2.1 = none) :=
  ⟨⟨rfl,
    (c4_path_context_update c4tree {} none 0 c4cmdBar (fun h => Bool.noConfusion h)).1 rfl⟩,
   ⟨rfl, rfl,
    ((c4_path_context_update c4tree {} none 0 c4cmdFoo
        (fun h => Bool.noConfusion h)).2.2.1 rfl rfl).trans rfl⟩⟩

-- ==========================================================================
-- C5: popping an empty response buffer
-- ==========================================================================

/-- **C5 counterexample.** Realize the claim's exception scenario: an
indefinite block is produced and retrieved (buffer now empty for that
very reason), then a new command (`*OPC`) begins and is executed; the
following `popTextResponse` still enqueues −420, not the −440 the
claim requires in this situation (−440 is only ever pushed by the
`executeAll` pending-response check, never by the pop functions). -/
theorem c5_counterexample :
    ((Ctx.resultIndefiniteBlock {} (str "DAT")).lastResponseIndefinite = true) ∧
    ((Ctx.popBinaryResponse (Ctx.resultIndefiniteBlock {} (str "DAT"))).2.responses = []) ∧
    ((Parser.executeAll c5parser (str "*OPC")
        (Ctx.popBinaryResponse (Ctx.resultIndefiniteBlock {} (str "DAT"))).2).2.1.responses
      = []) ∧
    queueCodes ((Ctx.popTextResponse
        (Parser.executeAll c5parser (str "*OPC")
          (Ctx.popBinaryResponse (Ctx.resultIndefiniteBlock {} (str "DAT"))).2).2.1).2
      ).errorQueue = [error.QUERY_UNTERMINATED] ∧
    error.QUERY_UNTERMINATED ≠ error.QUERY_UNTERMINATED_INDEF := by
  refine ⟨rfl, rfl, rfl, rfl, by decide⟩

/-- **C5** (amended). On a Context with an empty response buffer (and
a non-full error queue), `popTextResponse` and `popBinaryResponse`
return an empty string / byte vector and enqueue exactly one error,
always −420 "Query UNTERMINATED" — regardless of how the buffer became
empty; −440 is pushed only by `executeAll`'s pending-indefinite check,
never by the pop functions. -/
theorem c5_amended_empty_pop (ctx : Ctx) (hresp : ctx.responses = [])
    (hroom : ctx.errorQueue.entries.length < ctx.errorQueue.maxSize) :
    (Ctx.popTextResponse ctx).1 = [] ∧
    (Ctx.popBinaryResponse ctx).1 = [] ∧
    queueCodes (Ctx.popTextResponse ctx).2.errorQueue
      = queueCodes ctx.errorQueue ++ [error.QUERY_UNTERMINATED] ∧
    queueCodes (Ctx.popBinaryResponse ctx).2.errorQueue
      = queueCodes ctx.errorQueue ++ [error.QUERY_UNTERMINATED] := by
  refine ⟨by simp [Ctx.popTextResponse, hresp], by simp [Ctx.popBinaryResponse, hresp],
    ?_, ?_⟩
  · simp only [Ctx.popTextResponse, hresp]
    simp only [Ctx.pushStandardError, Ctx.pushError, ErrorQueue.pushCode, queueCodes]
    rw [ErrorQueue.push_not_full _ _ (by decide) hroom]
    simp
  · simp only [Ctx.popBinaryResponse, hresp]
    simp only [Ctx.pushStandardError, Ctx.pushError, ErrorQueue.pushCode, queueCodes]
    rw [ErrorQueue.push_not_full _ _ (by decide) hroom]
    simp

/-- Witness for C5 (amended) on the default context. -/
theorem c5_amended_empty_pop_witness :
    (({} : Ctx).responses = [] ∧
      ({} : Ctx).errorQueue.entries.length < ({} : Ctx).errorQueue.maxSize) ∧
    queueCodes (Ctx.popTextResponse {}).2.errorQueue = [error.QUERY_UNTERMINATED] :=
  ⟨⟨rfl, by decide⟩,
   ((c5_amended_empty_pop {} rfl (by decide)).2.2.1).trans (by decide)⟩

-- ==========================================================================
-- C1: return code vs. error-queue growth
-- ==========================================================================

theorem pushedCount_push_le (q : ErrorQueue) (e : ErrorEntry) :
    q.pushedCount ≤ (q.push e).pushedCount := by
  unfold ErrorQueue.push
  split
  · exact Nat.le_refl _
  · split <;> exact Nat.le_succ _

theorem pushedCount_push_nonzero (q : ErrorQueue) (e : ErrorEntry) (h : e.code ≠ 0) :
    (q.push e).pushedCount = q.pushedCount + 1 := by
  unfold ErrorQueue.push
  rw [if_neg (by simpa [error.NO_ERROR] using h)]
  split <;> rfl

theorem pushedCount_pushError (ctx : Ctx) (code : Int) (msg ectx2 : Str) (h : code ≠ 0) :
    (Ctx.pushError ctx code msg ectx2).errorQueue.pushedCount
      = ctx.errorQueue.pushedCount + 1 := by
  simp only [Ctx.pushError, ErrorQueue.pushCode]
  exact pushedCount_push_nonzero _ _ h

theorem pushedCount_pushStandardError (ctx : Ctx) (code : Int) (h : code ≠ 0) :
    (Ctx.pushStandardError ctx code).errorQueue.pushedCount
      = ctx.errorQueue.pushedCount + 1 :=
  pushedCount_pushError ctx code _ _ h

theorem pushedCount_pushStandardErrorWithInfo (ctx : Ctx) (code : Int) (info : Str)
    (h : code ≠ 0) :
    (Ctx.pushStandardErrorWithInfo ctx code info).errorQueue.pushedCount
      = ctx.errorQueue.pushedCount + 1 :=
  pushedCount_pushError ctx code _ _ h

/-- The post-handler error-reporting chain of `executeResolved`:
returns the normalized code unchanged, pushes exactly one entry when
the handler reported a nonzero code without a transient error, and
leaves the context alone otherwise. -/
theorem report_branch_pushed (ctx2 : Ctx) (rc : Int) :
    ((if rc ≠ 0 ∧ ¬ctx2.hasTransientError then
        if rc ≤ -100 ∧ rc ≥ -199 then (ctx2.pushStandardError rc, rc)
        else if rc ≤ -200 ∧ rc ≥ -299 then (ctx2.pushStandardError rc, rc)
        else if rc ≤ -300 ∧ rc ≥ -399 then (ctx2.pushStandardError rc, rc)
        else if rc ≤ -400 ∧ rc ≥ -499 then (ctx2.pushStandardError rc, rc)
        else if rc > 0 then (ctx2.pushError rc (str "Device-defined error"), rc)
        else (ctx2.pushStandardError error.EXECUTION_ERROR, rc)
      else (ctx2, rc)).2 = rc) ∧
    ((rc ≠ 0 ∧ ¬ctx2.hasTransientError) →
      (if rc ≠ 0 ∧ ¬ctx2.hasTransientError then
        if rc ≤ -100 ∧ rc ≥ -199 then (ctx2.pushStandardError rc, rc)
        else if rc ≤ -200 ∧ rc ≥ -299 then (ctx2.pushStandardError rc, rc)
        else if rc ≤ -300 ∧ rc ≥ -399 then (ctx2.pushStandardError rc, rc)
        else if rc ≤ -400 ∧ rc ≥ -499 then (ctx2.pushStandardError rc, rc)
        else if rc > 0 then (ctx2.pushError rc (str "Device-defined error"), rc)
        else (ctx2.pushStandardError error.EXECUTION_ERROR, rc)
      else (ctx2, rc)).1.errorQueue.pushedCount = ctx2.errorQueue.pushedCount + 1) ∧
    (¬(rc ≠ 0 ∧ ¬ctx2.hasTransientError) →
      (if rc ≠ 0 ∧ ¬ctx2.hasTransientError then
        if rc ≤ -100 ∧ rc ≥ -199 then (ctx2.pushStandardError rc, rc)
        else if rc ≤ -200 ∧ rc ≥ -299 then (ctx2.pushStandardError rc, rc)
        else if rc ≤ -300 ∧ rc ≥ -399 then (ctx2.pushStandardError rc, rc)
        else if rc ≤ -400 ∧ rc ≥ -499 then (ctx2.pushStandardError rc, rc)
        else if rc > 0 then (ctx2.pushError rc (str "Device-defined error"), rc)
        else (ctx2.pushStandardError error.EXECUTION_ERROR, rc)
      else (ctx2, rc)).1 = ctx2) := by
  by_cases hc : rc ≠ 0 ∧ ¬ctx2.hasTransientError
  · rw [if_pos hc]
    refine ⟨?_, fun _ => ?_, fun h2 => absurd hc h2⟩
    · split_ifs <;> rfl
    · split_ifs with h1 h2 h3 h4 h5
      · exact pushedCount_pushStandardError _ _ hc.1
      · exact pushedCount_pushStandardError _ _ hc.1
      · exact pushedCount_pushStandardError _ _ hc.1
      · exact pushedCount_pushStandardError _ _ hc.1
      · exact pushedCount_pushError _ _ _ _ hc.1
      · exact pushedCount_pushStandardError _ _ (by decide)
  · rw [if_neg hc]
    exact ⟨rfl, fun h2 => absurd h2 hc, fun _ => rfl⟩

/-- The handler-invocation case of `executeResolved`: under the
handler discipline, the push count never drops, and a nonzero
normalized return implies a strict gain (either the reporting chain
pushed, or the handler pushed its own transient error). -/
theorem handler_case_pushed (h : Handler) (ctx0 : Ctx) (hOk : HandlerOk h)
    (htr : ctx0.transientErrorCode = 0) :
    ctx0.errorQueue.pushedCount ≤
      (if Parser.normalizeHandlerReturn (h ctx0).2 ≠ 0 ∧ ¬(h ctx0).1.hasTransientError then
        if Parser.normalizeHandlerReturn (h ctx0).2 ≤ -100 ∧
            Parser.normalizeHandlerReturn (h ctx0).2 ≥ -199 then
          ((h ctx0).1.pushStandardError (Parser.normalizeHandlerReturn (h ctx0).2),
            Parser.normalizeHandlerReturn (h ctx0).2)
        else if Parser.normalizeHandlerReturn (h ctx0).2 ≤ -200 ∧
            Parser.normalizeHandlerReturn (h ctx0).2 ≥ -299 then
          ((h ctx0).1.pushStandardError (Parser.normalizeHandlerReturn (h ctx0).2),
            Parser.normalizeHandlerReturn (h ctx0).2)
        else if Parser.normalizeHandlerReturn (h ctx0).2 ≤ -300 ∧
            Parser.normalizeHandlerReturn (h ctx0).2 ≥ -399 then
          ((h ctx0).1.pushStandardError (Parser.normalizeHandlerReturn (h ctx0).2),
            Parser.normalizeHandlerReturn (h ctx0).2)
        else if Parser.normalizeHandlerReturn (h ctx0).2 ≤ -400 ∧
            Parser.normalizeHandlerReturn (h ctx0).2 ≥ -499 then
          ((h ctx0).1.pushStandardError (Parser.normalizeHandlerReturn (h ctx0).2),
            Parser.normalizeHandlerReturn (h ctx0).2)
        else if Parser.normalizeHandlerReturn (h ctx0).2 > 0 then
          ((h ctx0).1.pushError (Parser.normalizeHandlerReturn (h ctx0).2)
            (str "Device-defined error"), Parser.normalizeHandlerReturn (h ctx0).2)
        else ((h ctx0).1.pushStandardError error.EXECUTION_ERROR,
          Parser.normalizeHandlerReturn (h ctx0).2)
      else ((h ctx0).1, Parser.normalizeHandlerReturn (h ctx0).2)).1.errorQueue.pushedCount ∧
    ((if Parser.normalizeHandlerReturn (h ctx0).2 ≠ 0 ∧ ¬(h ctx0).1.hasTransientError then
        if Parser.normalizeHandlerReturn (h ctx0).2 ≤ -100 ∧
            Parser.normalizeHandlerReturn (h ctx0).2 ≥ -199 then
          ((h ctx0).1.pushStandardError (Parser.normalizeHandlerReturn (h ctx0).2),
            Parser.normalizeHandlerReturn (h ctx0).2)
        else if Parser.normalizeHandlerReturn (h ctx0).2 ≤ -200 ∧
            Parser.normalizeHandlerReturn (h ctx0).2 ≥ -299 then
          ((h ctx0).1.pushStandardError (Parser.normalizeHandlerReturn (h ctx0).2),
            Parser.normalizeHandlerReturn (h ctx0).2)
        else if Parser.normalizeHandlerReturn (h ctx0).2 ≤ -300 ∧
            Parser.normalizeHandlerReturn (h ctx0).2 ≥ -399 then
          ((h ctx0).1.pushStandardError (Parser.normalizeHandlerReturn (h ctx0).2),
            Parser.normalizeHandlerReturn (h ctx0).2)
        else if Parser.normalizeHandlerReturn (h ctx0).2 ≤ -400 ∧
            Parser.normalizeHandlerReturn (h ctx0).2 ≥ -499 then
          ((h ctx0).1.pushStandardError (Parser.normalizeHandlerReturn (h ctx0).2),
            Parser.normalizeHandlerReturn (h ctx0).2)
        else if Parser.normalizeHandlerReturn (h ctx0).2 > 0 then
          ((h ctx0).1.pushError (Parser.normalizeHandlerReturn (h ctx0).2)
            (str "Device-defined error"), Parser.normalizeHandlerReturn (h ctx0).2)
        else ((h ctx0).1.pushStandardError error.EXECUTION_ERROR,
          Parser.normalizeHandlerReturn (h ctx0).2)
      else ((h ctx0).1, Parser.normalizeHandlerReturn (h ctx0).2)).2 ≠ 0 →
      ctx0.errorQueue.pushedCount <
      (if Parser.normalizeHandlerReturn (h ctx0).2 ≠ 0 ∧ ¬(h ctx0).1.hasTransientError then
        if Parser.normalizeHandlerReturn (h ctx0).2 ≤ -100 ∧
            Parser.normalizeHandlerReturn (h ctx0).2 ≥ -199 then
          ((h ctx0).1.pushStandardError (Parser.normalizeHandlerReturn (h ctx0).2),
            Parser.normalizeHandlerReturn (h ctx0).2)
        else if Parser.normalizeHandlerReturn (h ctx0).2 ≤ -200 ∧
            Parser.normalizeHandlerReturn (h ctx0).2 ≥ -299 then
          ((h ctx0).1.pushStandardError (Parser.normalizeHandlerReturn (h ctx0).2),
            Parser.normalizeHandlerReturn (h ctx0).2)
        else if Parser.normalizeHandlerReturn (h ctx0).2 ≤ -300 ∧
            Parser.normalizeHandlerReturn (h ctx0).2 ≥ -399 then
          ((h ctx0).1.pushStandardError (Parser.normalizeHandlerReturn (h ctx0).2),
            Parser.normalizeHandlerReturn (h ctx0).2)
        else if Parser.normalizeHandlerReturn (h ctx0).2 ≤ -400 ∧
            Parser.normalizeHandlerReturn (h ctx0).2 ≥ -499 then
          ((h ctx0).1.pushStandardError (Parser.normalizeHandlerReturn (h ctx0).2),
            Parser.normalizeHandlerReturn (h ctx0).2)
        else if Parser.normalizeHandlerReturn (h ctx0).2 > 0 then
          ((h ctx0).1.pushError (Parser.normalizeHandlerReturn (h ctx0).2)
            (str "Device-defined error"), Parser.normalizeHandlerReturn (h ctx0).2)
        else ((h ctx0).1.pushStandardError error.EXECUTION_ERROR,
          Parser.normalizeHandlerReturn (h ctx0).2)
      else ((h ctx0).1, Parser.normalizeHandlerReturn (h ctx0).2)).1.errorQueue.pushedCount) := by
  obtain ⟨hval, hpush, hkeep⟩ :=
    report_branch_pushed (h ctx0).1 (Parser.normalizeHandlerReturn (h ctx0).2)
  obtain ⟨hmono, hstrict⟩ := hOk ctx0 htr
  by_cases hc : Parser.normalizeHandlerReturn (h ctx0).2 ≠ 0 ∧ ¬(h ctx0).1.hasTransientError
  · have h1 := hpush hc
    constructor
    · rw [h1] ; omega
    · intro _ ; rw [h1] ; omega
  · have h1 := hkeep hc
    constructor
    · rw [h1] ; exact hmono
    · intro hne
      rw [hval] at hne
      have htrs : (h ctx0).1.hasTransientError = true := by
        by_cases h2 : (h ctx0).1.hasTransientError = true
        · exact h2
        · exact absurd ⟨hne, h2⟩ hc
      have h3 : (h ctx0).1.transientErrorCode ≠ 0 := by
        simpa [Ctx.hasTransientError] using htrs
      rw [h1]
      exact hstrict h3

/-- `executeResolved` never removes push attempts, and returns nonzero
only when the error queue received at least one push during the call
(under the handler discipline). -/
theorem executeResolved_pushed (cmd : ParsedCommand) (rr : ResolveResult Handler)
    (ctx : Ctx) (hok : ResolveHandlersOk rr) :
    ctx.errorQueue.pushedCount
        ≤ (Parser.executeResolved cmd rr ctx).1.errorQueue.pushedCount ∧
    ((Parser.executeResolved cmd rr ctx).2 ≠ 0 →
      ctx.errorQueue.pushedCount
        < (Parser.executeResolved cmd rr ctx).1.errorQueue.pushedCount) := by
  obtain ⟨hokc, hokn⟩ := hok
  simp only [Parser.executeResolved]
  by_cases hcom : rr.isCommon = true
  · rw [if_pos hcom]
    cases hch : rr.commonHandler with
    | some h =>
      dsimp only
      exact handler_case_pushed h
        { { Ctx.resetCommandState ctx with isQuery := cmd.isQuery } with params := cmd.params, nodeParams := rr.nodeParams } (hokc h hch) rfl
    | none =>
      dsimp only
      exact ⟨Nat.le_refl _, fun hne => absurd rfl hne⟩
  · rw [if_neg hcom]
    cases hnd : rr.node with
    | none =>
      dsimp only
      refine ⟨?_, fun _ => ?_⟩
      · rw [pushedCount_pushStandardError _ _ (by decide)]
        exact Nat.le_succ _
      · rw [pushedCount_pushStandardError _ _ (by decide)]
        exact Nat.lt_succ_self _
    | some np =>
      obtain ⟨n0, p0⟩ := np
      dsimp only
      by_cases hq : cmd.isQuery = true
      · rw [if_pos hq]
        cases hqh : n0.queryHandler with
        | some h =>
          dsimp only
          exact handler_case_pushed h
            { { Ctx.resetCommandState ctx with isQuery := cmd.isQuery } with params := cmd.params, nodeParams := rr.nodeParams } (hokn (n0, p0) h hnd (Or.inr hqh)) rfl
        | none =>
          dsimp only
          refine ⟨?_, fun _ => ?_⟩
          · rw [pushedCount_pushStandardError _ _ (by decide)]
            exact Nat.le_succ _
          · rw [pushedCount_pushStandardError _ _ (by decide)]
            exact Nat.lt_succ_self _
      · rw [if_neg hq]
        cases hsh : n0.handler with
        | some h =>
          dsimp only
          exact handler_case_pushed h
            { { Ctx.resetCommandState ctx with isQuery := cmd.isQuery } with params := cmd.params, nodeParams := rr.nodeParams } (hokn (n0, p0) h hnd (Or.inl hsh)) rfl
        | none =>
          dsimp only
          refine ⟨?_, fun _ => ?_⟩
          · rw [pushedCount_pushStandardError _ _ (by decide)]
            exact Nat.le_succ _
          · rw [pushedCount_pushStandardError _ _ (by decide)]
            exact Nat.lt_succ_self _

/-- **C1 counterexample.** On `*OPC?;*OPC?` the second command finds
the first reply unread, so the loop pushes −410 "Query INTERRUPTED"
into the error queue — but deliberately leaves `lastRc` alone, and the
command itself then succeeds: `executeAll` returns 0 although the
queue gained an entry, refuting the claimed "non-zero iff the queue
gained an entry". -/
theorem c1_counterexample :
    (Parser.executeAll c1parser (str "*OPC?;*OPC?") {}).1 = 0 ∧
    queueCodes (Parser.executeAll c1parser (str "*OPC?;*OPC?") {}).2.1.errorQueue
      = [error.QUERY_INTERRUPTED] ∧
    queueCodes ({} : Ctx).errorQueue = [] :=
  ⟨rfl, rfl, rfl⟩

/-- **C1** (amended). One `executeAll` loop iteration never removes
push attempts from the error queue, and it can make the running
return code nonzero only by pushing: if the iteration's resulting
`lastRc` is nonzero then either it is the carried-over previous value
or the queue's (ghost) push counter strictly increased during the
iteration — provided the handlers the resolve can select follow the
`Context::pushError` discipline.  The converse direction of the
original claim is false (see the −410 counterexample), and entries
can be dropped by overflow even as the code stays nonzero, which is
why growth is counted in push attempts. -/
theorem c1_amended_step (tree : CommandTree Handler) (ctx : Ctx)
    (pc : Option (NodePtr Handler)) (lastRc : Int) (cmd : ParsedCommand)
    (hok : ResolveHandlersOk (resolve tree cmd pc)) :
    ctx.errorQueue.pushedCount
        ≤ (Parser.executeAllStep tree (ctx, pc, lastRc) cmd).1.errorQueue.pushedCount ∧
    ((Parser.executeAllStep tree (ctx, pc, lastRc) cmd).2.2 ≠ 0 →
      (Parser.executeAllStep tree (ctx, pc, lastRc) cmd).2.2 = lastRc ∨
      ctx.errorQueue.pushedCount
        < (Parser.executeAllStep tree (ctx, pc, lastRc) cmd).1.errorQueue.pushedCount) := by
  simp only [Parser.executeAllStep]
  generalize hC1 : (if ctx.hasPendingResponse = true then
      Ctx.clearResponses (if ctx.lastResponseWasIndefinite = true
        then ctx.pushStandardError error.QUERY_UNTERMINATED_INDEF
        else ctx.pushStandardError error.QUERY_INTERRUPTED)
    else ctx) = ctx1
  have hm1 : ctx.errorQueue.pushedCount ≤ ctx1.errorQueue.pushedCount := by
    rw [← hC1]
    by_cases hp : ctx.hasPendingResponse = true
    · rw [if_pos hp]
      by_cases hi : ctx.lastResponseWasIndefinite = true
      · rw [if_pos hi]
        show ctx.errorQueue.pushedCount ≤
          (ctx.pushStandardError error.QUERY_UNTERMINATED_INDEF).errorQueue.pushedCount
        rw [pushedCount_pushStandardError _ _ (by decide)]
        exact Nat.le_succ _
      · rw [if_neg hi]
        show ctx.errorQueue.pushedCount ≤
          (ctx.pushStandardError error.QUERY_INTERRUPTED).errorQueue.pushedCount
        rw [pushedCount_pushStandardError _ _ (by decide)]
        exact Nat.le_succ _
    · rw [if_neg hp]
  by_cases hs : (resolve tree cmd pc).success = true
  · rw [if_neg (by simp [hs])]
    obtain ⟨hm2, hst⟩ := executeResolved_pushed cmd (resolve tree cmd pc) ctx1 hok
    constructor
    · exact le_trans hm1 hm2
    · intro hne
      by_cases her : (Parser.executeResolved cmd (resolve tree cmd pc) ctx1).2 ≠ 0
      · exact Or.inr (lt_of_le_of_lt hm1 (hst her))
      · exact Or.inl (if_neg her)
  · have hs' : (resolve tree cmd pc).success = false := by
      cases h2 : (resolve tree cmd pc).success with
      | false => rfl
      | true => exact absurd h2 hs
    rw [if_pos (by rw [hs'] ; rfl)]
    have hcode : (if (resolve tree cmd pc).errorCode ≠ 0
        then (resolve tree cmd pc).errorCode else error.UNDEFINED_HEADER) ≠ 0 := by
      by_cases hec : (resolve tree cmd pc).errorCode ≠ 0
      · rw [if_pos hec] ; exact hec
      · rw [if_neg hec] ; decide
    constructor
    · dsimp only
      rw [pushedCount_pushStandardErrorWithInfo _ _ _ hcode]
      omega
    · intro _
      refine Or.inr ?_
      dsimp only
      rw [pushedCount_pushStandardErrorWithInfo _ _ _ hcode]
      omega

/-- Witness for C1 (amended): a failing `BAR` iteration on `c4tree`
strictly increases the push counter. -/
theorem c1_amended_step_witness :
    ({} : Ctx).errorQueue.pushedCount
      < (Parser.executeAllStep c4tree ({}, none, 0) c4cmdBar).1.errorQueue.pushedCount := by
  have hok : ResolveHandlersOk (resolve c4tree c4cmdBar none) := by
    constructor
    · intro f h
      simp [show (resolve c4tree c4cmdBar none).commonHandler = none from rfl] at h
    · intro np f h _
      simp [show (resolve c4tree c4cmdBar none).node = none from rfl] at h
  rcases (c1_amended_step c4tree {} none 0 c4cmdBar hok).2 (by decide) with h | h
  · exact absurd h (by decide)
  · exact h

end Scpi
